import Mathlib

/-!
Verification of the natural-language-to-spatial-query pipeline of the
`globe-view-initiate-3d-scad` repository (src/query_parser/).

The Python sources are shallowly embedded:
* `spacy_parser.py` — static vocabulary/field-mapping tables, the numeric- and
  distance-pattern matchers, condition extraction and the SQL WHERE-clause
  builder (`_build_where_conditions_spacy`, `parse_query`'s dedup/join step,
  `_map_to_base_dataset`).
* `tool_router.py` — query normalisation, the ordered regex intent rules
  (`_analyze_query`), spatial/attribute/simple handlers, distance extraction
  and the infrastructure-type mapping.
* `gis_tools.py` — geometry normalisation (`to_geojson`) and the
  geocode-failure path of `find_infrastructure_near`.
* `geocoding.py` — the reformulation × retry loop of `geocode_location`,
  parameterised by a provider-response function (network effects become an
  explicit argument).

Numbers that are Python floats are modelled as exact rationals (`ℚ`); the
conversions exercised here (mile→km by 1.60934, literal decimals) are exact
in both models up to floating-point rounding, which the spec itself treats
as tolerance.  spaCy documents are modelled as lists of tokens carrying the
attributes the source reads (`text`, `like_num`, `pos_`); the pattern and
phrase matchers are translated from the patterns registered in
`_setup_custom_patterns` / `_setup_phrase_patterns`.  Regular-expression
searches are translated pattern-by-pattern into explicit leftmost-match,
lazy-group scanning functions over character lists.
-/

/-! ### Python string primitives used by the sources -/

/-- Decidable prefix test on character lists (used to translate literal
regex fragments and `str.startswith`). -/
def litPre : List Char → List Char → Bool
  | [], _ => true
  | _ :: _, [] => false
  | a :: as, b :: bs => a = b && litPre as bs

/-- Decidable substring test: Python's `needle in haystack`. -/
def subStr (n : List Char) : List Char → Bool
  | [] => n.isEmpty
  | l@(_ :: t) => litPre n l || subStr n t

/-- Python `needle in haystack` on strings. -/
def containsSub (needle hay : String) : Bool := subStr needle.data hay.data

/-- Python `str.lower()` (ASCII range, which is all the sources use). -/
def pyLower (s : String) : String := String.mk (s.data.map Char.toLower)

/-- Whitespace class: the characters Python's `str.strip()` and the regex
class `\s` treat as blank in the queries at hand. -/
def wsChar (c : Char) : Bool := c = ' ' || c = '\t' || c = '\n' || c = '\r'

/-- Python `str.strip()`. -/
def pyStrip (s : String) : String :=
  String.mk (((s.data.dropWhile wsChar).reverse.dropWhile wsChar).reverse)

/-- Python `str.startswith(pre)`. -/
def pyStartsWith (s pre : String) : Bool := litPre pre.data s.data

/-- Helper for `pyTitle`: the Boolean tracks whether the previous character
was alphabetic. -/
def pyTitleGo : Bool → List Char → List Char
  | _, [] => []
  | prev, c :: t =>
    if c.isAlpha then
      (if prev then c.toLower else c.toUpper) :: pyTitleGo true t
    else
      c :: pyTitleGo false t

/-- Python `str.title()` (ASCII): the first letter of every alphabetic run is
upper-cased, the rest lower-cased. -/
def pyTitle (s : String) : String := String.mk (pyTitleGo false s.data)

/-- Python `str.replace(pat, repl)` for a non-empty pattern: every
occurrence is replaced, scanning left to right. -/
def pyReplaceGo (pat repl : List Char) : List Char → Nat → List Char
  | _, 0 => []
  | [], _ => []
  | s@(c :: t), fuel + 1 =>
    if litPre pat s && !pat.isEmpty then
      repl ++ pyReplaceGo pat repl (s.drop pat.length) fuel
    else
      c :: pyReplaceGo pat repl t fuel

/-- Python `str.replace` on strings. -/
def pyReplace (s pat repl : String) : String :=
  String.mk (pyReplaceGo pat.data repl.data s.data s.data.length)

/-- Decimal digits of a digit-character run. -/
def digitsToNat (ds : List Char) : Nat := ds.foldl (fun n c => 10 * n + (c.toNat - 48)) 0

/-- Decimal rendering of a natural number (enough fuel for any number the
sources produce). -/
def natDigits : Nat → Nat → List Char
  | 0, _ => []
  | fuel + 1, n =>
    if n < 10 then [Char.ofNat (48 + n)]
    else natDigits fuel (n / 10) ++ [Char.ofNat (48 + n % 10)]

/-- Decimal string of a natural number. -/
def natStr (n : Nat) : String := String.mk (natDigits 64 n)

/-- Fractional digits of `num/den` by long division (17 digits of fuel, the
precision of a Python float's `repr`). -/
def decDigits : Nat → Nat → Nat → List Char
  | 0, _, _ => []
  | fuel + 1, num, den =>
    if num = 0 then []
    else Char.ofNat (48 + (10 * num) / den) :: decDigits fuel ((10 * num) % den) den

/-- Python `str(float)` for the exactly-decimal rationals this model
produces: integral values print as `N.0`, finite decimals print their
digits.  (True floats round ties; none of the values exercised here do.) -/
def pyFloatStr (q : ℚ) : String :=
  let sign : String := if q.num < 0 then "-" else ""
  let a : ℚ := if q.num < 0 then -q else q
  let ip : Nat := a.num.toNat / a.den
  let fr : Nat := a.num.toNat % a.den
  if fr = 0 then sign ++ natStr ip ++ ".0"
  else sign ++ natStr ip ++ "." ++ String.mk (decDigits 17 fr a.den)

/-- Value of a decimal literal `ds` `.` `fs` as a rational. -/
def decValue (ds fs : List Char) : ℚ :=
  (digitsToNat ds : ℚ) + (digitsToNat fs : ℚ) / ((10 : ℚ) ^ fs.length)

/-- Python `float(text)` restricted to the plain decimal literals the
matched tokens contain: digits with an optional fractional part. -/
def parseFloatQ (s : String) : Option ℚ :=
  let p := s.data.span Char.isDigit
  if p.1.isEmpty then none
  else
    match p.2 with
    | [] => some (digitsToNat p.1)
    | '.' :: r2 =>
      let p2 := r2.span Char.isDigit
      if p2.2.isEmpty then some (decValue p.1 p2.1) else none
    | _ => none

/-! ### Association-list helpers (Python `dict`s in insertion order) -/

/-- Lookup in an insertion-ordered association list (`d[k]` / `d.get(k)`). -/
def alookup {α : Type} (l : List (String × α)) (k : String) : Option α :=
  (l.find? (fun p => p.1 == k)).map (fun p => p.2)

/-- Key-membership test (`k in d`). -/
def dictHasKey {α : Type} (l : List (String × α)) (k : String) : Bool :=
  l.any (fun p => p.1 == k)

/-- In-place update of the entry at `k` (keys keep their first-insertion
position, as Python dicts do). -/
def dictUpdate {α : Type} (l : List (String × α)) (k : String) (f : α → α) :
    List (String × α) :=
  l.map (fun p => if p.1 == k then (p.1, f p.2) else p)

/-- Order-preserving deduplication, keeping first occurrences: the explicit
`if condition not in unique_conditions` loop of `parse_query`.  (Also used to
model `list(set(...))`, whose unspecified ordering the sources do not rely
on for anything the claims mention.) -/
def dedupKeepFirst (l : List String) : List String :=
  l.foldl (fun acc c => if c ∈ acc then acc else acc ++ [c]) []

/-- Split at single spaces (the tokenization of the vocabulary phrases,
which contain no consecutive spaces). -/
def splitSpacesGo (cur : List Char) : List Char → List (List Char)
  | [] => [cur.reverse]
  | c :: t => if c = ' ' then cur.reverse :: splitSpacesGo [] t else splitSpacesGo (c :: cur) t

/-- Space-tokenization of a phrase. -/
def splitWords (s : String) : List String := (splitSpacesGo [] s.data).map String.mk

/-- Python `sep.join(parts)`. -/
def strJoin (sep : String) : List String → String
  | [] => ""
  | [x] => x
  | x :: y :: rest => x ++ sep ++ strJoin sep (y :: rest)

/-! ### spaCy parser: static tables (`SpacyQueryParser.__init__`) -/

/-- A value in a field-mapping `values` dict: either one literal or a list
of literals (e.g. `"tesla": ["Tesla", "Tesla Destination"]`). -/
inductive MappedVal where
  | one : String → MappedVal
  | many : List String → MappedVal
deriving DecidableEq, Repr

/-- One field-mapping record: target field, encoding kind, optional value
dictionary, optional `condition` entry (the static tables define none). -/
structure FieldConfig where
  field : String
  ftype : String
  values : Option (List (String × MappedVal)) := none
  cond : Option String := none
deriving DecidableEq, Repr

/-- `self.dataset_entities`: per-dataset vocabulary table. -/
def dataset_entities : List (String × List (String × List String)) :=
  [("ev_charging",
    [("FUEL_TYPE", ["electric", "ev", "electric vehicle", "electricity", "ELEC",
                    "charging station", "charging stations"]),
     ("NETWORK", ["tesla", "chargepoint", "evgo", "electrify america", "blink", "semacharge"]),
     ("ACCESS_TYPE", ["public", "private", "restricted"]),
     ("CHARGER_TYPE", ["supercharger", "fast charger", "rapid charger", "tesla charger"]),
     ("LEVEL2", ["level 2", "level2", "l2", "240v", "level ii", "standard"]),
     ("LEVEL1", ["level 1", "level1", "l1", "120v", "level i", "slow"]),
     ("STATUS", ["available", "operational", "working", "active", "in service",
                 "online", "functioning"]),
     ("CONNECTOR", ["ccs", "chademo", "j1772", "tesla", "type 2"]),
     ("POWER_LEVEL", ["fast", "rapid", "slow", "standard"])]),
   ("electrical_meters",
    [("UTILITY", ["sdge", "sce", "pge"]),
     ("SERVICE_TYPE", ["residential", "commercial", "industrial", "mixed"]),
     ("STATUS", ["active", "inactive", "verified", "operational"]),
     ("METER_TYPE", ["smart", "analog", "digital"]),
     ("VERIFICATION", ["verified", "unverified", "field verified", "pending"])]),
   ("gas_meters",
    [("UTILITY", ["sdge", "socalgas", "pge"]),
     ("SERVICE_TYPE", ["residential", "commercial", "industrial"]),
     ("STATUS", ["active", "inactive", "verified", "operational"]),
     ("OWNER", ["la mesa", "caltrans", "city", "county", "private"]),
     ("VERIFICATION", ["verified", "unverified", "field verified", "pending"])]),
   ("service_panels",
    [("STATUS", ["active", "inactive", "complete", "incomplete", "yes", "no"]),
     ("PANEL_TYPE", ["electrical panel", "service cabinet", "meter cabinet", "transformer",
                     "switchgear", "service", "electrical"]),
     ("VOLTAGE", ["120v", "240v", "480v", "high voltage", "low voltage",
                  "residential", "commercial"]),
     ("CAPACITY", ["100 amp", "200 amp", "400 amp", "main panel", "sub panel"]),
     ("OWNER", ["city", "utility", "private", "public", "la mesa", "caltrans"]),
     ("VERIFICATION", ["verified", "unverified", "field verified", "pending verification"]),
     ("COMPLETION", ["complete", "incomplete", "finished", "pending", "yes", "no"])]),
   ("tree_wells",
    [("OUTLET_TYPE", ["electrical outlet", "receptacle", "power outlet", "gfci",
                      "weatherproof", "outlet", "yes", "no"]),
     ("TREE_TYPE", ["palm", "oak", "maple", "street tree", "deciduous", "evergreen"]),
     ("POWER_RATING", ["15 amp", "20 amp", "standard", "heavy duty"]),
     ("LOCATION", ["sidewalk", "park", "street", "median", "plaza"]),
     ("VERIFICATION", ["verified", "unverified", "field verified", "pending verification"]),
     ("STATUS", ["active", "inactive", "operational", "maintenance", "working"])]),
   ("acorn_lights",
    [("STATUS", ["active", "inactive", "operational", "maintenance", "working",
                 "complete", "incomplete"]),
     ("LIGHT_TYPE", ["acorn light", "decorative light", "street light", "post light",
                     "streetlight"]),
     ("MOUNTING", ["pole mounted", "post mounted", "wall mounted", "ground mounted"]),
     ("POWER_SOURCE", ["electric", "solar", "led", "fluorescent", "halogen"]),
     ("OUTLET_LOCATION", ["top outlet", "base outlet", "dual outlet", "both outlets",
                          "top", "base", "both", "no outlet"]),
     ("STYLE", ["traditional", "modern", "historic", "decorative", "acorn"]),
     ("VERIFICATION", ["verified", "unverified", "field verified", "pending verification"]),
     ("OWNER", ["city", "utility", "private", "public", "la mesa", "caltrans"])])]

/-- `self.field_mappings`: per-dataset field-mapping table. -/
def field_mappings : List (String × List (String × FieldConfig)) :=
  [("ev_charging",
    [("FUEL_TYPE",
      { field := "Fuel_Type_", ftype := "code",
        values := some [("ev", .one "ELEC"), ("electric", .one "ELEC"),
                        ("charging stations", .one "ELEC"), ("elec", .one "ELEC")] }),
     ("NETWORK",
      { field := "EV_Network", ftype := "exact",
        values := some [("tesla", .many ["Tesla", "Tesla Destination"]),
                        ("chargepoint", .one "ChargePoint Network"),
                        ("electrify america", .one "Electrify America"),
                        ("evgo", .one "eVgo Network"),
                        ("blink", .one "Blink Network"),
                        ("non-networked", .one "Non-Networked")] }),
     ("ACCESS_TYPE",
      { field := "Groups_Wit", ftype := "code",
        values := some [("public", .one "Public"), ("private", .one "Private")] }),
     ("STATUS",
      { field := "Status_Cod", ftype := "exact",
        values := some [("available", .one "E"), ("operational", .one "E")] })]),
   ("electrical_meters",
    [("SERVICE_TYPE",
      { field := "ServiceType1", ftype := "exact",
        values := some [("residential", .one "Residential"),
                        ("commercial", .one "Commercial")] }),
     ("VERIFICATION",
      { field := "FieldVerified", ftype := "boolean",
        values := some [("verified", .one "Yes"), ("unverified", .one "No")] }),
     ("STATUS", { field := "Status", ftype := "exact" })]),
   ("gas_meters",
    [("VERIFICATION",
      { field := "FieldVerified", ftype := "boolean",
        values := some [("verified", .one "Yes"), ("unverified", .one "No")] }),
     ("OWNER",
      { field := "Owner", ftype := "code",
        values := some [("la mesa", .one "1"), ("caltrans", .one "2")] }),
     ("STATUS", { field := "Status", ftype := "exact" })]),
   ("service_panels",
    [("STATUS", { field := "Status", ftype := "exact" }),
     ("PANEL_TYPE", { field := "Type", ftype := "exact" }),
     ("COMPLETION",
      { field := "Complete", ftype := "exact",
        values := some [("complete", .one "Yes"), ("incomplete", .one "No")] }),
     ("OWNER", { field := "Owner", ftype := "exact" }),
     ("VERIFICATION",
      { field := "FieldVerified", ftype := "boolean",
        values := some [("verified", .one "Yes"), ("unverified", .one "No")] }),
     ("SERVICE_TYPE", { field := "ServiceType1", ftype := "exact" })]),
   ("tree_wells",
    [("OUTLET_TYPE",
      { field := "Outlet", ftype := "exact",
        values := some [("outlet", .one "Yes"), ("no outlet", .one "No")] }),
     ("STATUS",
      { field := "Outlet", ftype := "exact",
        values := some [("active", .one "Yes"), ("inactive", .one "No")] }),
     ("SERVICE_TYPE", { field := "Service_De", ftype := "exact" })]),
   ("acorn_lights",
    [("LIGHT_TYPE", { field := "LightType", ftype := "exact" }),
     ("WATTAGE", { field := "Wattage", ftype := "numeric" }),
     ("LOCATION", { field := "LOCATION", ftype := "exact" }),
     ("STREET", { field := "STREET", ftype := "exact" }),
     ("ROAD_TYPE", { field := "ROAD_TYPE", ftype := "exact" }),
     ("LAMP_WARRANTER", { field := "Lamp_Warranter", ftype := "exact" }),
     ("LAMP_HEADS", { field := "LAMP_HEADS", ftype := "numeric" })])]

/-- `self.hint_mappings` inside `_map_field_hints_to_database_field`. -/
def hint_mappings : List (String × List (String × String)) :=
  [("ev_charging",
    [("ports", "EV_DC_Fast"), ("chargers", "EV_DC_Fast"), ("stations", "EV_DC_Fast"),
     ("level", "EV_Level2_"), ("power", "EV_DC_Fast")]),
   ("electrical_meters", [("meters", "SDGE_Meter"), ("service", "ServiceType1")]),
   ("gas_meters", [("meters", "SDGE_Meter"), ("service", "ServiceType1")])]

/-! ### spaCy token model and `Matcher` patterns -/

/-- A spaCy token, carrying exactly the attributes the parser reads:
`text`, `like_num`, and `pos_`.  `lower_` is derived from `text`. -/
structure SToken where
  text : String
  likeNum : Bool
  pos : String
deriving DecidableEq, Repr

/-- The `lower_` attribute. -/
def SToken.lower (t : SToken) : String := pyLower t.text

/-- A single pattern token of a `Matcher` rule. -/
inductive TokPred where
  | lowerIn (ws : List String)
  | lowerIs (w : String)
  | likeNum
deriving DecidableEq, Repr

/-- Evaluation of a pattern token on a document token. -/
def TokPred.eval : TokPred → SToken → Bool
  | .lowerIn ws, t => ws.contains t.lower
  | .lowerIs w, t => t.lower == w
  | .likeNum, t => t.likeNum

/-- Quantifier of a pattern token, mirroring spaCy's `OP` values used by the
parser (`?` and `+`; absent means exactly one). -/
inductive Quant where
  | one
  | opt
  | plus
deriving DecidableEq, Repr

/-- One quantified pattern token. -/
structure PatTok where
  pred : TokPred
  q : Quant
deriving DecidableEq, Repr

/-- Length of the maximal run of tokens satisfying `p`. -/
def takeRun (p : TokPred) : List SToken → Nat
  | [] => 0
  | t :: rest => if p.eval t then takeRun p rest + 1 else 0

/-- Match a pattern against a prefix of the token list, returning the
matched length.  `?` backtracks (consume-first, then skip); `+` is greedy
maximal-munch.  spaCy's matcher can report several lengths for a `+`; the
queries the claims mention have a unique match, so only the maximal one is
kept here. -/
def patMatch : List PatTok → List SToken → Option Nat
  | [], _ => some 0
  | pt :: ps, toks =>
    match pt.q with
    | .one =>
      match toks with
      | [] => none
      | t :: rest => if pt.pred.eval t then (patMatch ps rest).map (· + 1) else none
    | .opt =>
      match toks with
      | [] => patMatch ps []
      | t :: rest =>
        if pt.pred.eval t then
          match patMatch ps rest with
          | some n => some (n + 1)
          | none => patMatch ps toks
        else patMatch ps toks
    | .plus =>
      let k := takeRun pt.pred toks
      if k = 0 then none else (patMatch ps (toks.drop k)).map (· + k)

/-- The rules registered in `_setup_custom_patterns`, in registration
order, with their labels. -/
def matcherPatterns : List (String × List PatTok) :=
  [("NUMERIC_COMPARISON_0",
    [⟨.lowerIn ["more", "greater", "above", "over"], .one⟩,
     ⟨.lowerIs "than", .opt⟩, ⟨.likeNum, .plus⟩]),
   ("NUMERIC_COMPARISON_1",
    [⟨.lowerIn ["less", "fewer", "under", "below"], .one⟩,
     ⟨.lowerIs "than", .opt⟩, ⟨.likeNum, .plus⟩]),
   ("NUMERIC_COMPARISON_2",
    [⟨.lowerIn ["at", "minimum", "min"], .one⟩,
     ⟨.lowerIn ["least", "of"], .opt⟩, ⟨.likeNum, .plus⟩]),
   ("NUMERIC_COMPARISON_3",
    [⟨.lowerIn ["exactly", "equal"], .one⟩,
     ⟨.lowerIs "to", .opt⟩, ⟨.likeNum, .plus⟩]),
   ("NUMERIC_COMPARISON_4",
    [⟨.likeNum, .plus⟩, ⟨.lowerIn ["or", "+"], .one⟩, ⟨.lowerIs "more", .opt⟩]),
   ("DISTANCE_0",
    [⟨.lowerIn ["within", "in", "inside"], .one⟩, ⟨.likeNum, .one⟩,
     ⟨.lowerIn ["miles", "mile", "mi", "km", "kilometers", "kilometer"], .one⟩]),
   ("DISTANCE_1",
    [⟨.likeNum, .one⟩,
     ⟨.lowerIn ["miles", "mile", "mi", "km", "kilometers", "kilometer"], .one⟩,
     ⟨.lowerIn ["away", "radius", "around", "from"], .one⟩]),
   ("STATUS_0",
    [⟨.lowerIn ["currently", "actively", "presently"], .one⟩,
     ⟨.lowerIn ["available", "operational", "working", "active"], .one⟩]),
   ("STATUS_1",
    [⟨.lowerIn ["out", "not"], .one⟩,
     ⟨.lowerIn ["of", "working", "available"], .one⟩,
     ⟨.lowerIn ["order", "service"], .opt⟩])]

/-- All matches of the registered rules, start-position major, then
registration order, as `(label, start, end)` triples. -/
def matchesFrom : List SToken → Nat → List (String × Nat × Nat)
  | [], _ => []
  | toks@(_ :: rest), i =>
    (matcherPatterns.filterMap fun lp =>
      (patMatch lp.2 toks).map fun len => (lp.1, i, i + len)) ++
    matchesFrom rest (i + 1)

/-- `self.matcher(doc)`. -/
def matcherMatches (doc : List SToken) : List (String × Nat × Nat) := matchesFrom doc 0

/-! ### spaCy extraction (`_extract_conditions_spacy`, `_extract_distance_spacy`,
`_extract_entities_spacy`) -/

/-- One extracted numeric condition (`span_text` is only logged by the
source and is omitted). -/
structure NumCond where
  op : String
  value : ℚ
  fieldHints : List String
deriving DecidableEq, Repr

/-- The nouns `_extract_conditions_spacy` accepts as field hints. -/
def hintWords : List String := ["ports", "chargers", "stations", "power", "level"]

/-- Operator/value scan over a matched span: `like_num` tokens set the
value (last parseable one wins), cue words set the operator. -/
def condOpValue (span : List SToken) : String × Option ℚ :=
  span.foldl
    (fun acc t =>
      if t.likeNum then
        match parseFloatQ t.text with
        | some v => (acc.1, some v)
        | none => acc
      else if ["more", "greater", "above", "over"].contains t.lower then (">", acc.2)
      else if ["less", "fewer", "under", "below"].contains t.lower then ("<", acc.2)
      else if ["at", "minimum", "min"].contains t.lower then (">=", acc.2)
      else if ["exactly", "equal"].contains t.lower then ("=", acc.2)
      else acc)
    ("=", none)

/-- Field-hint collection: nouns from the window
`[max(0, start-3), min(len(doc), end+3))` whose lowercase form is in
`hintWords`. -/
def windowHints (doc : List SToken) (s e : Nat) : List String :=
  (doc.enum.filter fun it =>
      decide (s - 3 ≤ it.1) && decide (it.1 < min doc.length (e + 3))).filterMap
    fun it =>
      if (it.2.pos == "NOUN" || it.2.pos == "PROPN") && hintWords.contains it.2.lower then
        some it.2.lower
      else none

/-- `_extract_conditions_spacy` (the `dataset` argument is unused by the
source body; condition keys `numeric_i` become list positions). -/
def extract_conditions_spacy (doc : List SToken) (dataset : String) : List NumCond :=
  (matcherMatches doc).filterMap fun m =>
    if pyStartsWith m.1 "NUMERIC_COMPARISON" then
      let span := (doc.drop m.2.1).take (m.2.2 - m.2.1)
      let ov := condOpValue span
      match ov.2 with
      | some v => some ⟨ov.1, v, windowHints doc m.2.1 m.2.2⟩
      | none => none
    else none

/-- `_extract_distance_spacy`: first `DISTANCE`-labelled match whose span
holds a parseable numeral; miles are converted by 1.60934. -/
def extract_distance_spacy (doc : List SToken) : Option ℚ :=
  (matcherMatches doc).findSome? fun m =>
    if pyStartsWith m.1 "DISTANCE" then
      let span := (doc.drop m.2.1).take (m.2.2 - m.2.1)
      span.findSome? fun t =>
        if t.likeNum then
          match parseFloatQ t.text with
          | some v =>
            match span.find? (fun u =>
                ["miles", "mile", "mi"].contains u.lower ||
                ["km", "kilometers", "kilometer"].contains u.lower) with
            | some u =>
              if ["miles", "mile", "mi"].contains u.lower then
                some (v * (160934 / 100000 : ℚ))
              else some v
            | none => some v
          | none => none
        else none
    else none

/-- Phrase patterns of `_setup_phrase_patterns`: label `dataset_TYPE` with
the phrase token lists (phrases tokenized at spaces; the hyphenated and
multi-space cases spaCy splits differently never meet the documents used
here). -/
def phraseItems : List (String × List (List String)) :=
  dataset_entities.flatMap fun de =>
    de.2.map fun ep => (de.1 ++ "_" ++ ep.1, ep.2.map splitWords)

/-- All phrase-matcher hits (`attr="LOWER"`): `(label, start, end)`. -/
def phraseMatchesFrom : List SToken → Nat → List (String × Nat × Nat)
  | [], _ => []
  | toks@(_ :: rest), i =>
    (phraseItems.flatMap fun item =>
      item.2.filterMap fun phr =>
        if phr.length ≠ 0 &&
            ((toks.take phr.length).map SToken.lower == phr.map pyLower) &&
            decide (phr.length ≤ toks.length) then
          some (item.1, i, i + phr.length)
        else none) ++
    phraseMatchesFrom rest (i + 1)

/-- `self.phrase_matcher(doc)`. -/
def phraseMatches (doc : List SToken) : List (String × Nat × Nat) := phraseMatchesFrom doc 0

/-- Append a value to an insertion-ordered multi-dict entry. -/
def dictAppendVal (d : List (String × List String)) (k v : String) :
    List (String × List String) :=
  if dictHasKey d k then dictUpdate d k (fun vs => vs ++ [v]) else d ++ [(k, [v])]

/-- `_extract_entities_spacy`: keep hits whose label starts with the
dataset name, strip the `dataset_` prefix to get the entity type, and
record the lower-cased span text. -/
def extract_entities_spacy (doc : List SToken) (dataset : String) :
    List (String × List String) :=
  (phraseMatches doc).foldl
    (fun entities m =>
      if pyStartsWith m.1 dataset then
        let etype := pyReplace m.1 (dataset ++ "_") ""
        let evalue :=
          pyLower (strJoin " " (((doc.drop m.2.1).take (m.2.2 - m.2.1)).map SToken.text))
        dictAppendVal entities etype evalue
      else entities)
    []

/-! ### Condition builder (`_build_where_conditions_spacy`) -/

/-- A single equality predicate string `field = 'value'`. -/
def eqCond (f v : String) : String := f ++ " = '" ++ v ++ "'"

/-- The parenthesised OR-combination built for list-valued mappings. -/
def orCombine (f : String) (vs : List String) : String :=
  "(" ++ strJoin " OR " (vs.map (eqCond f)) ++ ")"

/-- Field-config lookup: static table first; the dynamic table
(`self.dynamic_field_mappings`) is empty on a freshly constructed parser,
which is the state all claims quantify over. -/
def lookupFieldConfig (dataset etype : String) : Option FieldConfig :=
  match alookup field_mappings dataset with
  | some m => alookup m etype
  | none => none

/-- Per-value accumulation into `field_conditions[field_name]`, by
encoding kind (the inner `for value in entity_values` body). -/
def addValueConds (cfg : FieldConfig) (acc : List String) (v : String) : List String :=
  if cfg.ftype == "exact" then
    match (cfg.values.getD []).find? (fun p => p.1 == v), cfg.values with
    | some p, some _ =>
      match p.2 with
      | .many vs =>
        let c := orCombine cfg.field vs
        if acc.contains c then acc else acc ++ [c]
      | .one mv => acc ++ [eqCond cfg.field mv]
    | _, _ => acc ++ [eqCond cfg.field (pyTitle v)]
  else if cfg.ftype == "code" then
    match (cfg.values.getD []).find? (fun p => p.1 == v), cfg.values with
    | some p, some _ =>
      match p.2 with
      | .many vs =>
        let c := orCombine cfg.field vs
        if acc.contains c then acc else acc ++ [c]
      | .one mv => acc ++ [eqCond cfg.field mv]
    | _, _ => acc
  else if cfg.ftype == "boolean" then
    match (cfg.values.getD []).find? (fun p => p.1 == v), cfg.values with
    | some p, some _ =>
      match p.2 with
      | .one mv => acc ++ [eqCond cfg.field mv]
      | .many _ => acc
    | _, _ => acc
  else if cfg.ftype == "existence" then
    let c := cfg.field ++ " IS NOT NULL"
    if acc.contains c then acc else acc ++ [c]
  else if cfg.ftype == "numeric" then
    match cfg.cond with
    | some cond =>
      let c := cfg.field ++ " " ++ cond
      if acc.contains c then acc else acc ++ [c]
    | none => acc
  else acc

/-- The `field_conditions` dict: entities grouped by mapped field, in
discovery order. -/
def buildFieldConds (entities : List (String × List String)) (dataset : String) :
    List (String × List String) :=
  entities.foldl
    (fun fc et =>
      match lookupFieldConfig dataset et.1 with
      | none => fc
      | some cfg =>
        let fc' := if dictHasKey fc cfg.field then fc else fc ++ [(cfg.field, [])]
        dictUpdate fc' cfg.field (fun acc => et.2.foldl (addValueConds cfg) acc))
    []

/-- Conflict resolution for one field's accumulated conditions (the
`for field_name, conditions_list in field_conditions.items()` loop).
`list(set(...))` is modelled by order-preserving deduplication. -/
def resolveField (dataset f : String) : List String → Option String
  | [] => none
  | [c] => some c
  | conds@(c :: _ :: _) =>
    if f == "Fuel_Type_" && pyStartsWith dataset "ev_charging" then
      some "Fuel_Type_ = 'ELEC'"
    else if f == "EV_Level2_" || f == "EV_DC_Fast" then
      some (f ++ " > 0")
    else if f == "OutletPosition" then
      if conds.any (fun x => containsSub "'Top'" x) then some "OutletPosition = 'Top'"
      else some c
    else if f == "Groups_Wit" then
      if conds.any (fun x => containsSub "'Public'" x) then some "Groups_Wit = 'Public'"
      else some c
    else
      match dedupKeepFirst conds with
      | [u] => some u
      | us => some ("(" ++ strJoin " OR " us ++ ")")

/-- `_map_field_hints_to_database_field`. -/
def map_field_hints (hints : List String) (dataset : String) : Option String :=
  match alookup hint_mappings dataset with
  | some m => hints.findSome? (fun h => alookup m h)
  | none => none

/-- `_build_where_conditions_spacy`: entity conditions are resolved per
field, the EV default fuel-type filter is appended when no condition
mentions `Fuel_Type_`, then numeric conditions whose hints resolve are
appended verbatim. -/
def build_where_conditions_spacy (entities : List (String × List String))
    (conditions : List NumCond) (dataset : String) : List String :=
  let resolved := (buildFieldConds entities dataset).filterMap fun p =>
    resolveField dataset p.1 p.2
  let withDefault :=
    if pyStartsWith dataset "ev_charging" &&
        !(resolved.any (fun c => containsSub "Fuel_Type_" c)) then
      resolved ++ ["Fuel_Type_ = 'ELEC'"]
    else resolved
  conditions.foldl
    (fun acc cond =>
      match map_field_hints cond.fieldHints dataset with
      | some f => acc ++ [f ++ " " ++ cond.op ++ " " ++ pyFloatStr cond.value]
      | none => acc)
    withDefault

/-- The WHERE clause assembled by `parse_query`: duplicate conjuncts are
removed in order, the remainder joined with `AND` (empty list becomes
`1=1`).  Location and distance extraction do not feed into this value. -/
def whereClauseFor (entities : List (String × List String)) (conditions : List NumCond)
    (dataset : String) : String :=
  let uniq := dedupKeepFirst (build_where_conditions_spacy entities conditions dataset)
  if uniq.isEmpty then "1=1" else strJoin " AND " uniq

/-! ### Dataset-name mapping (`_map_to_base_dataset`) -/

/-- The explicit `dataset_mappings` dict. -/
def dataset_mappings : List (String × String) :=
  [("ev_charging_0", "ev_charging"), ("ev_charging", "ev_charging"),
   ("electrical_meters_0", "electrical_meters"), ("electrical_meters", "electrical_meters"),
   ("la_mesa_electrical_0", "electrical_meters"),
   ("gas_meters_0", "gas_meters"), ("gas_meters", "gas_meters"),
   ("la_mesa_gas_0", "gas_meters"),
   ("service_panels", "service_panels"), ("la_mesa_electrical_2", "service_panels"),
   ("tree_wells", "tree_wells"), ("la_mesa_electrical_3", "tree_wells"),
   ("acorn_lights", "acorn_lights"), ("la_mesa_electrical_4", "acorn_lights"),
   ("la_mesa_electrical_5", "acorn_lights")]

/-- `_map_to_base_dataset`: explicit mapping, fallback to keyword
inference over the lower-cased name, final default `ev_charging`. -/
def map_to_base_dataset (dataset : String) : String :=
  let mapped := (alookup dataset_mappings dataset).getD dataset
  if (alookup dataset_entities mapped).isSome then mapped
  else
    let dl := pyLower dataset
    if containsSub "ev" dl || containsSub "charging" dl then "ev_charging"
    else if containsSub "service" dl || containsSub "panel" dl then "service_panels"
    else if containsSub "tree" dl || containsSub "well" dl then "tree_wells"
    else if containsSub "acorn" dl || containsSub "light" dl then "acorn_lights"
    else if containsSub "electrical" dl || containsSub "meter" dl then "electrical_meters"
    else if containsSub "gas" dl then "gas_meters"
    else "ev_charging"

/-! ### Tool router: regex machinery (`tool_router.py`)

Each `re.search` call is translated into an explicit scanner with the
regexes' leftmost-match and lazy-group semantics.  `lazyScan k` consumes at
least one character into a lazy group `(.+?)` and stops at the first
position where the continuation `k` succeeds (growing the group on
continuation failure, i.e. regex backtracking).  The queries reaching these
scanners contain no newline, so `.` is any character. -/

/-- Lazy group `(.+?)` followed by the continuation `k`: returns the group
and the continuation's result. -/
def lazyScan {α : Type} (k : List Char → Option α) (acc : List Char) :
    List Char → Option (List Char × α)
  | [] => none
  | c :: rest =>
    match k rest with
    | some a => some ((c :: acc).reverse, a)
    | none => lazyScan k (c :: acc) rest

/-- Trailing lazy group `(.+?)(?:\s|$)`: the shortest non-empty group
ending at whitespace or the end of the string. -/
def lazyToWsEnd : List Char → Option (List Char)
  | [] => none
  | c :: rest =>
    match rest with
    | [] => some [c]
    | r :: _ => if wsChar r then some [c] else (lazyToWsEnd rest).map (fun g => c :: g)

/-- Consume a literal prefix. -/
def dropLit (lit s : List Char) : Option (List Char) :=
  if litPre lit s then some (s.drop lit.length) else none

/-- Leftmost occurrence of a literal whose remainder satisfies `k`
(`re.search` for a pattern with a literal head). -/
def searchLitThen {α : Type} (lit : List Char) (k : List Char → Option α) :
    List Char → Option α
  | [] => none
  | s@(_ :: t) =>
    match (if litPre lit s then k (s.drop lit.length) else none) with
    | some v => some v
    | none => searchLitThen lit k t

/-- Leftmost occurrence of any of the alternative literal heads (tried in
order at each position) whose remainder satisfies `k`. -/
def searchAltsThen {α : Type} (lits : List (List Char)) (k : List Char → Option α) :
    List Char → Option α
  | [] => none
  | s@(_ :: t) =>
    match lits.findSome? (fun lit => if litPre lit s then k (s.drop lit.length) else none) with
    | some v => some v
    | none => searchAltsThen lits k t

/-- Continuation for `" (?:alt₁|alt₂|…) (.+?)(?:\s|$)"`: one of the
separator literals (spaces included), then the trailing lazy group. -/
def sepAfter (alts : List (List Char)) (r : List Char) : Option (List Char) :=
  alts.findSome? fun a =>
    match dropLit a r with
    | some r2 => lazyToWsEnd r2
    | none => none

/-- Exactly-four-digit capture `(\d{4})`. -/
def digits4 : List Char → Option (List Char)
  | a :: b :: c :: d :: _ =>
    if a.isDigit && b.isDigit && c.isDigit && d.isDigit then some [a, b, c, d] else none
  | _ => none

/-- Exactly-five-digit capture `(\d{5})`. -/
def digits5 : List Char → Option (List Char)
  | a :: b :: c :: d :: e :: _ =>
    if a.isDigit && b.isDigit && c.isDigit && d.isDigit && e.isDigit then
      some [a, b, c, d, e]
    else none
  | _ => none

/-- Optional `(?:code )?` before a five-digit capture (greedy with
backtracking). -/
def optCodeDigits5 (r : List Char) : Option (List Char) :=
  match dropLit "code ".data r with
  | some r2 =>
    match digits5 r2 with
    | some z => some z
    | none => digits5 r
  | none => digits5 r

/-! #### The intent patterns of `_analyze_query`, in order -/

/-- Separators of the first two spatial patterns. -/
def spatialSeps : List (List Char) := [" near ".data, " around ".data, " close to ".data]

/-- `r"find (.+?) (?:near|around|close to) (.+?)(?:\s|$)"`. -/
def s1Match (q : List Char) : Option (List Char × List Char) :=
  searchLitThen "find ".data (fun r => lazyScan (sepAfter spatialSeps) [] r) q

/-- `r"(?:show|list) (.+?) (?:near|around|close to) (.+?)(?:\s|$)"`. -/
def s2Match (q : List Char) : Option (List Char × List Char) :=
  searchAltsThen ["show ".data, "list ".data] (fun r => lazyScan (sepAfter spatialSeps) [] r) q

/-- The `within.+?of` alternative of the third spatial pattern: after
`" within"`, a lazy run, then `"of "`, then the trailing group. -/
def s3WithinTail (r : List Char) : Option (List Char) :=
  (lazyScan (fun r2 => (dropLit "of ".data r2).bind lazyToWsEnd) [] r).map (fun p => p.2)

/-- Continuation of `r"(.+?) (?:near|around|close to|within.+?of) (.+?)(?:\s|$)"`. -/
def s3After (r : List Char) : Option (List Char) :=
  match sepAfter spatialSeps r with
  | some g2 => some g2
  | none => (dropLit " within".data r).bind s3WithinTail

/-- The third spatial pattern (leading lazy group, so position 0 subsumes
all later match starts). -/
def s3Match (q : List Char) : Option (List Char × List Char) := lazyScan s3After [] q

/-- `r"find (.+?) within (.+?) of (.+?)(?:\s|$)"` (three groups). -/
def s4Match (q : List Char) : Option (List Char × List Char × List Char) :=
  searchLitThen "find ".data
    (fun r =>
      lazyScan
        (fun r1 =>
          (dropLit " within ".data r1).bind fun r2 =>
            lazyScan (fun r3 => (dropLit " of ".data r3).bind lazyToWsEnd) [] r2)
        [] r)
    q

/-- Separators of the first two attribute patterns. -/
def attrSeps : List (List Char) := [" where ".data, " with ".data, " having ".data]

/-- `r"find (.+?) (?:where|with|having) (.+?)(?:\s|$)"`. -/
def a1Match (q : List Char) : Option (List Char × List Char) :=
  searchLitThen "find ".data (fun r => lazyScan (sepAfter attrSeps) [] r) q

/-- `r"(?:show|list) (.+?) (?:where|with|having) (.+?)(?:\s|$)"`. -/
def a2Match (q : List Char) : Option (List Char × List Char) :=
  searchAltsThen ["show ".data, "list ".data] (fun r => lazyScan (sepAfter attrSeps) [] r) q

/-- `r"(.+?) (?:installed|built) (?:after|before|in) (\d{4})"`. -/
def a3Match (q : List Char) : Option (List Char × List Char) :=
  lazyScan
    (fun r =>
      [" installed ".data, " built ".data].findSome? fun a =>
        (dropLit a r).bind fun r2 =>
          ["after ".data, "before ".data, "in ".data].findSome? fun b =>
            (dropLit b r2).bind digits4)
    [] q

/-- `r"(.+?) in (?:zip|ZIP) (?:code )?([\d]{5})"`. -/
def a4Match (q : List Char) : Option (List Char × List Char) :=
  lazyScan
    (fun r =>
      [" in zip ".data, " in ZIP ".data].findSome? fun a =>
        (dropLit a r).bind optCodeDigits5)
    [] q

/-- Street-type alternatives of the fifth attribute pattern (preceded by a
literal space). -/
def a5Units : List (List Char) :=
  [" street".data, " avenue".data, " road".data, " drive".data, " way".data]

/-- `r"(.+?) on (.+?) (?:street|avenue|road|drive|way)"`. -/
def a5Match (q : List Char) : Option (List Char × List Char) :=
  (lazyScan
    (fun r =>
      (dropLit " on ".data r).bind fun r2 =>
        lazyScan (fun r3 => if a5Units.any (fun a => litPre a r3) then some () else none) [] r2)
    [] q).map fun p => (p.1, p.2.1)

/-- `r"(?:find|show|list|display) (?:all )?(.+?)(?:\s|$)"` with the greedy,
backtracking optional `all `. -/
def p1Match (q : List Char) : Option (List Char) :=
  searchAltsThen ["find ".data, "show ".data, "list ".data, "display ".data]
    (fun r =>
      match dropLit "all ".data r with
      | some r2 =>
        match lazyToWsEnd r2 with
        | some g => some g
        | none => lazyToWsEnd r
      | none => lazyToWsEnd r)
    q

/-- `r"(.+?) (?:in|at) (.+?)(?:\s|$)"`. -/
def p2Match (q : List Char) : Option (List Char × List Char) :=
  lazyScan (sepAfter [" in ".data, " at ".data]) [] q

/-! ### Router distance extraction (`_extract_distance`) -/

/-- Capture `(\d+(?:\.\d+)?)` by maximal munch (shrinking the greedy
quantifiers can never help here: the character after a shortened digit run
is a digit, which neither `\s*` nor the unit literals accept). -/
def parseNumAt (s : List Char) : Option (ℚ × List Char) :=
  let p := s.span Char.isDigit
  if p.1.isEmpty then none
  else
    match p.2 with
    | '.' :: r2 =>
      let p2 := r2.span Char.isDigit
      if p2.1.isEmpty then some ((digitsToNat p.1 : ℚ), p.2)
      else some (decValue p.1 p2.1, p2.2)
    | _ => some ((digitsToNat p.1 : ℚ), p.2)

/-- Unit alternative `(?:km|kilometers?)`. -/
def kmUnit (s : List Char) : Bool := litPre "km".data s || litPre "kilometer".data s

/-- Unit alternative `(?:miles?)`. -/
def mileUnit (s : List Char) : Bool := litPre "mile".data s

/-- Number, `\s*`, then the unit check. -/
def distCore (unit : List Char → Bool) (s : List Char) : Option ℚ :=
  match parseNumAt s with
  | none => none
  | some (v, r) => if unit (r.dropWhile wsChar) then some v else none

/-- One distance pattern anchored at a position: optional `within `
literal, then `distCore`. -/
def distMatchAt (withinReq : Bool) (unit : List Char → Bool) (s : List Char) : Option ℚ :=
  if withinReq then
    match dropLit "within ".data s with
    | none => none
    | some r => distCore unit r
  else distCore unit s

/-- `re.search` for an anchored matcher: try every position left to
right. -/
def searchSfx (m : List Char → Option ℚ) : List Char → Option ℚ
  | [] => m []
  | s@(_ :: t) =>
    match m s with
    | some v => some v
    | none => searchSfx m t

/-- `_extract_distance`: the four patterns in order (`within…km`, bare
`km`, `within…miles`, bare `miles`); the `"mile" in match.group(0)` test
holds exactly for the mile patterns, whose group 0 ends in `mile`, and
never for the km patterns; miles convert by 1.60934; default 2.0 km. -/
def extract_distance (query : String) : ℚ :=
  match searchSfx (distMatchAt true kmUnit) query.data with
  | some v => v
  | none =>
    match searchSfx (distMatchAt false kmUnit) query.data with
    | some v => v
    | none =>
      match searchSfx (distMatchAt true mileUnit) query.data with
      | some v => v * (160934 / 100000 : ℚ)
      | none =>
        match searchSfx (distMatchAt false mileUnit) query.data with
        | some v => v * (160934 / 100000 : ℚ)
        | none => 2

/-! ### Router attribute filters (`_extract_attribute_filters`) -/

/-- City filter: `r"in (.+?) city"` first, else `r"in (.+?)(?:\s|$)"`;
the first matching pattern wins, stop-words produce nothing. -/
def cityFilter (q : List Char) : List String :=
  let g? :=
    match searchLitThen "in ".data
        (fun r =>
          (lazyScan (fun r2 => if litPre " city".data r2 then some () else none) [] r).map
            Prod.fst)
        q with
    | some g => some g
    | none => searchLitThen "in ".data lazyToWsEnd q
  match g? with
  | some g =>
    let city := pyStrip (String.mk g)
    if ["the", "a", "an", "and", "or", "with", "by"].contains (pyLower city) then []
    else ["City='" ++ city ++ "'"]
  | none => []

/-- ZIP filter: `r"(?:zip|ZIP) (?:code )?(\d{5})"` (this search is not
case-insensitive; the router passes the already lower-cased query). -/
def zipFilter (q : List Char) : List String :=
  match searchAltsThen ["zip ".data, "ZIP ".data] optCodeDigits5 q with
  | some z => ["ZIP='" ++ String.mk z ++ "'"]
  | none => []

/-- Helper: `(?:w₁|w₂) (\d{4})` after an `installed `/`built ` head. -/
def yearAfter (ws : List (List Char)) (r : List Char) : Option (List Char) :=
  ws.findSome? fun b => (dropLit b r).bind digits4

/-- Date filter: the three `installed/built` patterns in order; the first
match decides, and the comparison direction follows the matched cue word
(`after`/`since` ⇒ `>`, `before`/`until` ⇒ `<`, `in` ⇒ `=`). -/
def dateFilter (q : List Char) : List String :=
  match searchAltsThen ["installed ".data, "built ".data]
      (yearAfter ["after ".data, "since ".data]) q with
  | some y => ["InstallYear>" ++ String.mk y]
  | none =>
    match searchAltsThen ["installed ".data, "built ".data]
        (yearAfter ["before ".data, "until ".data]) q with
    | some y => ["InstallYear<" ++ String.mk y]
    | none =>
      match searchAltsThen ["installed ".data, "built ".data]
          (yearAfter ["in ".data]) q with
      | some y => ["InstallYear=" ++ String.mk y]
      | none => []

/-- Street-type alternatives of the street filter. -/
def streetUnits : List (List Char) :=
  [" street".data, " avenue".data, " road".data, " drive".data, " way".data,
   " blvd".data, " boulevard".data]

/-- Lazy group before a street-type word, for a given head (`on `/`along `). -/
def streetG (lead : List Char) (q : List Char) : Option (List Char) :=
  searchLitThen lead
    (fun r =>
      (lazyScan (fun r2 => if streetUnits.any (fun a => litPre a r2) then some () else none)
        [] r).map Prod.fst)
    q

/-- Street filter: `on …` pattern first, then `along …`. -/
def streetFilter (q : List Char) : List String :=
  match streetG "on ".data q with
  | some g => ["Street LIKE '%" ++ pyStrip (String.mk g) ++ "%'"]
  | none =>
    match streetG "along ".data q with
    | some g => ["Street LIKE '%" ++ pyStrip (String.mk g) ++ "%'"]
    | none => []

/-- `_extract_attribute_filters`. -/
def extract_attribute_filters (query : String) : Option String :=
  let conds := cityFilter query.data ++ zipFilter query.data ++
    dateFilter query.data ++ streetFilter query.data
  if conds.isEmpty then none else some (strJoin " AND " conds)

/-! ### Infrastructure mapping and tool calls -/

/-- `self.infrastructure_mappings` (insertion order). -/
def infrastructure_mappings : List (String × String) :=
  [("bus", "bus_stops_real"), ("bus stop", "bus_stops_real"), ("bus station", "bus_stops_real"),
   ("public transport", "bus_stops_real"), ("transportation", "bus_stops_real"),
   ("transport", "bus_stops_real"), ("transit", "bus_stops_real"),
   ("mosque", "mosques_real"), ("mosques", "mosques_real"), ("islamic", "mosques_real"),
   ("prayer", "mosques_real"), ("worship", "mosques_real"), ("religious", "mosques_real"),
   ("park", "parks_real"), ("parks", "parks_real"), ("green space", "parks_real"),
   ("recreation", "parks_real"), ("recreational", "parks_real"), ("garden", "parks_real"),
   ("parking", "parking_real"), ("parking lot", "parking_real"),
   ("parking area", "parking_real"), ("parking areas", "parking_real"),
   ("car park", "parking_real"),
   ("building", "buildings_real"), ("buildings", "buildings_real"),
   ("structure", "buildings_real"), ("landmark", "buildings_real"),
   ("architecture", "buildings_real"),
   ("road", "roads_real"), ("roads", "roads_real"), ("street", "roads_real"),
   ("streets", "roads_real"), ("highway", "roads_real"), ("avenue", "roads_real")]

/-- Stable selection of the longest matched key (Python's stable
`sort(key=len, reverse=True)` followed by taking the head). -/
def pickLongest : List (String × String) → Option (String × String) :=
  List.foldl
    (fun best p =>
      match best with
      | none => some p
      | some b => if p.1.length > b.1.length then some p else some b)
    none

/-- `_map_infrastructure_type`: substring matches ranked by key length,
default `buildings_real`. -/
def map_infrastructure_type (t : String) : String :=
  let tl := pyLower t
  match pickLongest (infrastructure_mappings.filter fun p => containsSub p.1 tl) with
  | some p => p.2
  | none => "buildings_real"

/-- `_get_layer_id` (always `None` for the configured datasets). -/
def get_layer_id (_itext _itype : String) : Option Int := none

/-- Argument map of a `ToolCall`, one shape per call site (each Python
call site passes a fixed set of keys). -/
inductive ToolArgs where
  | near (place itype : String) (radiusKm : ℚ) (layerId : Option Int)
      (additionalFilters : Option String)
  | nearSimple (place itype : String) (radiusKm : ℚ) (layerId : Option Int)
  | byAttrs (itype whereConditions : String) (layerId : Option Int)
  | byAttrsMax (itype whereConditions : String) (layerId : Option Int) (maxFeatures : Nat)
deriving DecidableEq, Repr

/-- A routed tool call. -/
structure ToolCall where
  toolName : String
  args : ToolArgs
  confidence : ℚ
deriving DecidableEq, Repr

/-- `_build_where_conditions` of the router (attribute path). -/
def build_where_conditions_router (conditionText fullQuery : String) : String :=
  let conds :=
    match extract_attribute_filters fullQuery with
    | some f => [f]
    | none => []
  let cl := pyLower conditionText
  let conds :=
    if containsSub "fast" cl && containsSub "charg" cl then conds ++ ["ChargerType='Fast'"]
    else if containsSub "level 2" cl then conds ++ ["ChargerType='Level 2'"]
    else conds
  let conds :=
    if containsSub "active" cl || containsSub "operational" cl then conds ++ ["Status='Active'"]
    else conds
  if conds.isEmpty then "1=1" else strJoin " AND " conds

/-- `_handle_spatial_query`: the `len(match.groups()) >= 2` branch also
captures the three-group pattern (its `elif` is dead), so the first two
groups always become infrastructure and location text. -/
def handle_spatial_query (groups : List String) (fullQuery : String) : ToolCall :=
  let distanceKm := extract_distance fullQuery
  let it :=
    match groups with
    | g1 :: g2 :: _ => (pyStrip g1, pyStrip g2)
    | [g1] => (pyStrip g1, "unknown location")
    | [] => ("", "unknown location")
  let itype := map_infrastructure_type it.1
  { toolName := "find_infrastructure_near",
    args := .near it.2 itype distanceKm (get_layer_id it.1 itype)
      (extract_attribute_filters fullQuery),
    confidence := 9 / 10 }

/-- `_handle_attribute_query`. -/
def handle_attribute_query (g1 g2 : String) (fullQuery : String) : ToolCall :=
  let itext := pyStrip g1
  let ctext := pyStrip g2
  let itype := map_infrastructure_type itext
  { toolName := "find_infrastructure_by_attributes",
    args := .byAttrs itype (build_where_conditions_router ctext fullQuery)
      (get_layer_id itext itype),
    confidence := 85 / 100 }

/-- `_handle_simple_query`: one group means a general attribute query
capped at 100 features; two groups mean a location query with the 5 km
default radius. -/
def handle_simple_query (groups : List String) (fullQuery : String) : ToolCall :=
  match groups with
  | g1 :: g2 :: _ =>
    let itext := pyStrip g1
    let itype := map_infrastructure_type itext
    { toolName := "find_infrastructure_near",
      args := .nearSimple (pyStrip g2) itype 5 (get_layer_id itext itype),
      confidence := 8 / 10 }
  | groups1 =>
    let itext := pyStrip (groups1.headD "")
    let itype := map_infrastructure_type itext
    let whereConditions := (extract_attribute_filters fullQuery).getD "1=1"
    { toolName := "find_infrastructure_by_attributes",
      args := .byAttrsMax itype whereConditions (get_layer_id itext itype) 100,
      confidence := 7 / 10 }

/-- `_analyze_query`: the ordered intent rules; the first matching pattern
dispatches to its handler. -/
def analyze_query (query : String) : Option ToolCall :=
  let q := query.data
  match s1Match q with
  | some g => some (handle_spatial_query [String.mk g.1, String.mk g.2] query)
  | none =>
  match s2Match q with
  | some g => some (handle_spatial_query [String.mk g.1, String.mk g.2] query)
  | none =>
  match s3Match q with
  | some g => some (handle_spatial_query [String.mk g.1, String.mk g.2] query)
  | none =>
  match s4Match q with
  | some g =>
    some (handle_spatial_query [String.mk g.1, String.mk g.2.1, String.mk g.2.2] query)
  | none =>
  match a1Match q with
  | some g => some (handle_attribute_query (String.mk g.1) (String.mk g.2) query)
  | none =>
  match a2Match q with
  | some g => some (handle_attribute_query (String.mk g.1) (String.mk g.2) query)
  | none =>
  match a3Match q with
  | some g => some (handle_attribute_query (String.mk g.1) (String.mk g.2) query)
  | none =>
  match a4Match q with
  | some g => some (handle_attribute_query (String.mk g.1) (String.mk g.2) query)
  | none =>
  match a5Match q with
  | some g => some (handle_attribute_query (String.mk g.1) (String.mk g.2) query)
  | none =>
  match p1Match q with
  | some g => some (handle_simple_query [String.mk g] query)
  | none =>
  match p2Match q with
  | some g => some (handle_simple_query [String.mk g.1, String.mk g.2] query)
  | none => none

/-- Query normalisation in `route_query`. -/
def normalize_query (q : String) : String := pyStrip (pyLower q)

/-- The tool call the router dispatches for a raw query; `route_query`
passes any non-`None` analysis straight to `_execute_tool`, which invokes
the named tool with the stored arguments without any validation. -/
def route_tool_call (q : String) : Option ToolCall := analyze_query (normalize_query q)

/-! ### GIS tools (`gis_tools.py`) -/

/-- JSON-like values, for geometries and results. -/
inductive JVal where
  | s (v : String)
  | n (v : ℚ)
  | b (v : Bool)
  | null
  | arr (items : List JVal)
  | obj (fields : List (String × JVal))

/-- Dictionary lookup on an object's field list. -/
def jlookup (fields : List (String × JVal)) (k : String) : Option JVal :=
  (fields.find? (fun p => p.1 == k)).map (fun p => p.2)

/-- Key membership (`k in d`). -/
def jhas (fields : List (String × JVal)) (k : String) : Bool := (jlookup fields k).isSome

/-- The geometry conversion inside `to_geojson.feature_to_geojson`:
`{x, y}` → Point, `{paths}` → LineString from the first path (empty when
`paths` is falsy), `{rings}` → Polygon with the rings unmodified, anything
else passes through unchanged. -/
def geometry_to_geojson (geometry : List (String × JVal)) : JVal :=
  if jhas geometry "x" && jhas geometry "y" then
    .obj [("type", .s "Point"),
          ("coordinates", .arr [(jlookup geometry "x").getD .null,
                                (jlookup geometry "y").getD .null])]
  else if jhas geometry "paths" then
    .obj [("type", .s "LineString"),
          ("coordinates",
            match jlookup geometry "paths" with
            | some (.arr (p :: _)) => p
            | _ => .arr [])]
  else if jhas geometry "rings" then
    .obj [("type", .s "Polygon"), ("coordinates", (jlookup geometry "rings").getD .null)]
  else .obj geometry

/-- `feature_to_geojson`: geometry defaults to `{}` when absent. -/
def feature_to_geojson (feature : List (String × JVal)) : JVal :=
  let geometry :=
    match jlookup feature "geometry" with
    | some (.obj g) => g
    | _ => []
  .obj [("type", .s "Feature"),
        ("geometry", geometry_to_geojson geometry),
        ("properties", (jlookup feature "attributes").getD (.obj []))]

/-- `to_geojson`: wrap all converted features in a FeatureCollection. -/
def to_geojson (features : List (List (String × JVal))) : JVal :=
  .obj [("type", .s "FeatureCollection"),
        ("features", .arr (features.map feature_to_geojson))]

/-! ### Geocoding (`geocoding.py`), with the provider as a parameter -/

/-- One provider candidate (the fields the selection logic reads). -/
structure GeoCandidate where
  displayName : String
  state : String
  lat : ℚ
  lon : ℚ
deriving DecidableEq, Repr

/-- Outcome of one provider call: a transport error (timeout,
RequestException) or a result list. -/
inductive GeoResponse where
  | transportError
  | ok (results : List GeoCandidate)
deriving DecidableEq, Repr

/-- The four search-query reformulations, in order. -/
def search_queries (loc : String) : List String :=
  [loc ++ ", California, USA", loc ++ ", CA, USA", loc ++ ", United States", loc]

/-- Candidate selection: prefer a California/US-looking result, else the
first; empty lists yield nothing. -/
def pick_candidate : List GeoCandidate → Option (ℚ × ℚ)
  | [] => none
  | r0 :: rs =>
    match (r0 :: rs).find? (fun r =>
        containsSub "california" (pyLower r.displayName) ||
        containsSub "ca" (pyLower r.state) ||
        containsSub "united states" (pyLower r.displayName)) with
    | some r => some (r.lat, r.lon)
    | none => some (r0.lat, r0.lon)

/-- The retry loop for one search query: a transport error retries until
the attempts are exhausted (then the code breaks to the next query); an
empty result list also falls through to the next attempt. -/
def try_attempts (respond : String → Nat → GeoResponse) (q : String) :
    Nat → Nat → Option (ℚ × ℚ)
  | _, 0 => none
  | attempt, rem + 1 =>
    match respond q attempt with
    | .transportError => try_attempts respond q (attempt + 1) rem
    | .ok rs =>
      match pick_candidate rs with
      | some c => some c
      | none => try_attempts respond q (attempt + 1) rem

/-- `geocode_location`: reformulations in order, `max_retries` attempts
each; `None` only after every combination is exhausted. -/
def geocode_location (respond : String → Nat → GeoResponse) (loc : String)
    (maxRetries : Nat := 3) : Option (ℚ × ℚ) :=
  (search_queries loc).findSome? fun q => try_attempts respond q 0 maxRetries

/-- `EnhancedGISTools.geocode_place`: GeoJSON point in `[lon, lat]` order. -/
def geocode_place (respond : String → Nat → GeoResponse) (q : String) : Option JVal :=
  match geocode_location respond q 3 with
  | none => none
  | some c => some (.obj [("type", .s "Point"), ("coordinates", .arr [.n c.2, .n c.1])])

/-- The result record every GIS tool returns (`GISToolResult`). -/
structure GISToolResultM where
  text : String
  geojson : Option JVal := none
  center : Option JVal := none
  metadata : Option JVal := none
  statistics : Option JVal := none

/-- One configured dataset of `self.service_configs` (none of them defines
a `url` key). -/
structure ServiceConfig where
  name : String
  description : String
  file : String
  geometryType : String
  category : String
  features : Nat
  frontendOnly : Bool
  url : Option String := none
deriving DecidableEq, Repr

/-- `self.service_configs`. -/
def service_configs : List (String × ServiceConfig) :=
  [("bus_stops_real",
    { name := "Abu Dhabi Bus Stops",
      description := "ITC public transportation stops with routes and schedules",
      file := "bus_stops_query.geojson", geometryType := "Point",
      category := "Transportation", features := 76, frontendOnly := true }),
   ("mosques_real",
    { name := "Abu Dhabi Mosques",
      description := "Islamic places of worship and prayer facilities",
      file := "mosques_query.geojson", geometryType := "Polygon",
      category := "Religious", features := 35, frontendOnly := true }),
   ("parks_real",
    { name := "Abu Dhabi Parks",
      description := "Public parks, green spaces, and recreational areas",
      file := "Parks_In_Bbox.geojson", geometryType := "Polygon",
      category := "Recreation", features := 15, frontendOnly := true }),
   ("parking_real",
    { name := "Abu Dhabi Parking",
      description := "Parking facilities and lots throughout the city",
      file := "Parking_Areas.geojson", geometryType := "Polygon",
      category := "Infrastructure", features := 91, frontendOnly := true }),
   ("buildings_real",
    { name := "Abu Dhabi Buildings",
      description := "Building structures, landmarks, and architectural features",
      file := "BuildingStructures.geojson", geometryType := "Polygon",
      category := "Urban", features := 1398, frontendOnly := true }),
   ("roads_real",
    { name := "Abu Dhabi Roads",
      description := "Street and road network throughout the city",
      file := "Roads_Query.geojson", geometryType := "Polyline",
      category := "Transportation", features := 0, frontendOnly := true })]

/-- Outcome of a tool body: a returned result, or an uncaught `KeyError`
(which `_execute_tool` turns into an error-text result). -/
inductive ToolOutcome where
  | result (r : GISToolResultM)
  | keyError (k : String)

/-- `find_infrastructure_near`, up to its interaction with the feature
service: a geocoding failure returns the `Could not find location` result
with no geometry; an unknown infrastructure type returns its own message;
otherwise the very next line `service_config["url"]` raises `KeyError`
because no configured dataset defines `url`. -/
def find_infrastructure_near (respond : String → Nat → GeoResponse) (place : String)
    (infrastructureType : String) (_radiusKm : ℚ) (_layerId : Option Int)
    (_additionalFilters : Option String) : ToolOutcome :=
  match geocode_place respond place with
  | none => .result { text := "Could not find location: " ++ place, geojson := none }
  | some _center =>
    match alookup service_configs infrastructureType with
    | none =>
      .result { text := "Unknown infrastructure type: " ++ infrastructureType, geojson := none }
    | some cfg =>
      match cfg.url with
      | none => .keyError "url"
      | some _ => .keyError "url"

/-- The `couldn't understand` result `route_query` returns when no intent
rule matches. -/
def unroutable_result : GISToolResultM :=
  { text := "I couldn't understand your query. Try asking about finding infrastructure near a location, like 'Find EV charging stations near Sacramento' or 'Show electrical meters in La Mesa'.",
    geojson := none }

/-- Outcome of `route_query` before tool execution: either the unroutable
result, or a dispatched tool call. -/
inductive RouteOutcome where
  | unroutable (r : GISToolResultM)
  | dispatched (tc : ToolCall)

/-- `route_query`: normalise, analyse, and either return the unroutable
result or hand the call to `_execute_tool`. -/
def route_query_decision (q : String) : RouteOutcome :=
  match route_tool_call q with
  | none => .unroutable unroutable_result
  | some tc => .dispatched tc

/-! ### Statement-level definitions for the claims -/

/-- The SQL equality separator `" = "`. -/
def sepEqChars : List Char := [' ', '=', ' ']

/-- Split a character list at the first occurrence of `" = "`. -/
def splitEqFirst : List Char → Option (List Char × List Char)
  | [] => none
  | c :: t =>
    if litPre sepEqChars (c :: t) then some ([], t.drop 2)
    else (splitEqFirst t).map (fun p => (c :: p.1, p.2))

/-- Whether `" = "` occurs in a character list. -/
def hasSepEq (l : List Char) : Bool := (splitEqFirst l).isSome

/-- The field of a simple equality predicate: `eqPredField s = some f`
exactly when `s` is `f = v` with a single `" = "` occurrence.  Compound
conditions (parenthesised ORs, `IS NOT NULL`, comparisons) yield `none`. -/
def eqPredField (s : String) : Option String :=
  match splitEqFirst s.data with
  | none => none
  | some p => if hasSepEq p.2 then none else some (String.mk p.1)

/-- Field names free of the separator characters. -/
def fieldOkB (f : String) : Bool := f.data.all (fun c => !(c = ' ') && !(c = '='))

/-- All field configurations reachable from the static tables. -/
def allConfigs : List FieldConfig := field_mappings.flatMap (fun p => p.2.map (fun q => q.2))

/-- No decimal digit occurs in the string. -/
def noDigitB (s : String) : Bool := s.data.all (fun c => !c.isDigit)

/-- Non-empty run of decimal digits. -/
def digitRunB (l : List Char) : Bool := !l.isEmpty && l.all Char.isDigit

/-- Characters of the decimal literal `ip` (`.` `frac`)?. -/
def numLitChars (ip : List Char) (fr : Option (List Char)) : List Char :=
  ip ++ (match fr with | none => [] | some f => '.' :: f)

/-- Value of the decimal literal. -/
def decValOf (ip : List Char) (fr : Option (List Char)) : ℚ :=
  match fr with
  | none => (digitsToNat ip : ℚ)
  | some f => decValue ip f

/-- Entities reachable from a phrase-matching pass over the given dataset:
every recorded value is a lower-cased vocabulary phrase of its entity
type.  (`_extract_entities_spacy` only records lower-cased spans that
matched a `LOWER`-attribute phrase pattern of the dataset.) -/
def wfEntitiesB (dataset : String) (entities : List (String × List String)) : Bool :=
  entities.all fun p =>
    match alookup dataset_entities dataset with
    | some el =>
      match alookup el p.1 with
      | some phr => p.2.all (fun v => (phr.map pyLower).contains v)
      | none => false
    | none => false

/-- The radius argument of a tool call, when its argument shape has one. -/
def ToolCall.radiusQ (tc : ToolCall) : Option ℚ :=
  match tc.args with
  | .near _ _ r _ _ => some r
  | .nearSimple _ _ r _ => some r
  | .byAttrs _ _ _ => none
  | .byAttrsMax _ _ _ _ => none

/-- The possible entity-derived condition strings per field for the
`ev_charging` category, given vocabulary-constrained entity values. -/
def evAllowed (f : String) : List String :=
  if f = "Fuel_Type_" then [eqCond "Fuel_Type_" "ELEC"]
  else if f = "EV_Network" then
    [orCombine "EV_Network" ["Tesla", "Tesla Destination"],
     eqCond "EV_Network" "ChargePoint Network",
     eqCond "EV_Network" "Electrify America",
     eqCond "EV_Network" "eVgo Network",
     eqCond "EV_Network" "Blink Network",
     eqCond "EV_Network" "Semacharge"]
  else if f = "Groups_Wit" then
    [eqCond "Groups_Wit" "Public", eqCond "Groups_Wit" "Private"]
  else if f = "Status_Cod" then
    [eqCond "Status_Cod" "E", eqCond "Status_Cod" "Working",
     eqCond "Status_Cod" "Active", eqCond "Status_Cod" "In Service",
     eqCond "Status_Cod" "Online", eqCond "Status_Cod" "Functioning"]
  else []

/-- The spaCy document of `"show buildings with more than 6 levels"`
(scenario B), with the attributes the model assigns. -/
def scenarioBDoc : List SToken :=
  [⟨"show", false, "VERB"⟩, ⟨"buildings", false, "NOUN"⟩, ⟨"with", false, "ADP"⟩,
   ⟨"more", false, "ADJ"⟩, ⟨"than", false, "ADP"⟩, ⟨"6", true, "NUM"⟩,
   ⟨"levels", false, "NOUN"⟩]

/-- The spaCy document of `"show stations with exactly 3 ports and exactly
5 chargers"`: two numeric conditions whose hints resolve to the same
field. -/
def twoCondsDoc : List SToken :=
  [⟨"show", false, "VERB"⟩, ⟨"stations", false, "NOUN"⟩, ⟨"with", false, "ADP"⟩,
   ⟨"exactly", false, "ADV"⟩, ⟨"3", true, "NUM"⟩, ⟨"ports", false, "NOUN"⟩,
   ⟨"and", false, "CCONJ"⟩, ⟨"exactly", false, "ADV"⟩, ⟨"5", true, "NUM"⟩,
   ⟨"chargers", false, "NOUN"⟩]

/-- The four operators `_extract_conditions_spacy` can produce. -/
def condOps : List String := ["=", ">", "<", ">="]

/-- All numeric conditions carry one of the extractor's operators. -/
def opsOkB (conds : List NumCond) : Bool := conds.all (fun c => condOps.contains c.op)

/-- Invariant of one accumulated condition string for a field: any field a
simple-equality reading extracts is the accumulating field, and the string
contains `" = "`. -/
def condInv (f e : String) : Prop :=
  (∀ g, eqPredField e = some g → g = f) ∧ hasSepEq e.data = true

/-- Invariant of one resolved condition string for a field. -/
def resolvedInv (f c : String) : Prop := ∀ g, eqPredField c = some g → g = f

/-- Invariant of the `field_conditions` dict: distinct keys, separator-free
key names, per-element `condInv`. -/
def fcInv (fc : List (String × List String)) : Prop :=
  (fc.map Prod.fst).Nodup ∧
    ∀ p ∈ fc, (∀ c ∈ p.1.data, c ≠ ' ') ∧ ∀ e ∈ p.2, condInv p.1 e

/-- Facts that hold of every static field configuration. -/
def cfgOkB (cfg : FieldConfig) : Bool :=
  fieldOkB cfg.field && !(cfg.ftype == "existence") && cfg.cond.isNone &&
    (cfg.values.getD []).all (fun p =>
      match p.2 with
      | .many vs => decide (2 ≤ vs.length)
      | .one _ => true)

/-- The mapped fields of the `ev_charging` category. -/
def evFields : List String := ["Fuel_Type_", "EV_Network", "Groups_Wit", "Status_Cod"]

/-- Invariant of the `field_conditions` dict under `ev_charging`
vocabulary-constrained entities. -/
def fcInvEV (fc : List (String × List String)) : Prop :=
  (fc.map Prod.fst).Nodup ∧ ∀ p ∈ fc, p.1 ∈ evFields ∧ ∀ e ∈ p.2, e ∈ evAllowed p.1

/-! ## Foundational lemmas -/

theorem litPre_iff : ∀ (n l : List Char), litPre n l = true ↔ n <+: l
  | [], l => by simp [litPre]
  | _ :: _, [] => by simp [litPre]
  | a :: as, b :: bs => by
    simp [litPre, litPre_iff as bs, List.cons_prefix_cons, Bool.and_eq_true,
      decide_eq_true_eq]

theorem subStr_iff : ∀ (n l : List Char), subStr n l = true ↔ n <:+: l
  | n, [] => by simp [subStr, List.isEmpty_iff]
  | n, c :: t => by
    simp [subStr, litPre_iff, subStr_iff n t, List.infix_cons_iff]

theorem litPre_stable : ∀ (p s t : List Char), p.length ≤ s.length →
    litPre p (s ++ t) = litPre p s
  | [], _, _, _ => by simp [litPre]
  | _ :: _, [], _, h => by simp at h
  | a :: as, b :: bs, t, h => by
    simp only [List.cons_append, litPre, List.append_eq]
    rw [litPre_stable as bs t (by simpa using h)]

theorem litPre_append_left {p s : List Char} (t : List Char) (h : litPre p s = true) :
    litPre p (s ++ t) = true := by
  rw [litPre_iff] at h ⊢
  exact h.trans (List.prefix_append s t)

theorem splitEqFirst_decomp : ∀ (l b a : List Char), splitEqFirst l = some (b, a) →
    l = b ++ sepEqChars ++ a
  | [], _, _, h => by simp [splitEqFirst] at h
  | c :: t, b, a, h => by
    rw [splitEqFirst] at h
    split at h
    · rename_i hp
      simp only [Option.some.injEq, Prod.mk.injEq] at h
      obtain ⟨rfl, rfl⟩ := h
      rw [litPre_iff] at hp
      obtain ⟨r, hr⟩ := hp
      simp only [sepEqChars, List.cons_append, List.nil_append] at hr
      injection hr with h1 h2
      subst h1; subst h2
      simp [sepEqChars]
    · cases hsp : splitEqFirst t with
      | none => rw [hsp] at h; simp at h
      | some pr =>
        obtain ⟨b', a'⟩ := pr
        rw [hsp] at h
        simp at h
        obtain ⟨rfl, rfl⟩ := h
        have ih := splitEqFirst_decomp t b' a' hsp
        simp [ih]

theorem splitEqFirst_skip : ∀ (u t : List Char), (∀ c ∈ u, c ≠ ' ') →
    splitEqFirst (u ++ t) = (splitEqFirst t).map (fun p => (u ++ p.1, p.2))
  | [], t, _ => by
    simp only [List.nil_append]
    cases splitEqFirst t <;> simp
  | c :: u', t, hu => by
    have hc : c ≠ ' ' := hu c (by simp)
    have hlp : litPre sepEqChars (c :: (u' ++ t)) = false := by
      simp [sepEqChars, litPre, Ne.symm hc]
    simp only [List.cons_append, splitEqFirst, List.append_eq, hlp, Bool.false_eq_true,
      if_false]
    rw [splitEqFirst_skip u' t (fun d hd => hu d (by simp [hd]))]
    cases splitEqFirst t <;> simp

theorem splitEqFirst_sep (w : List Char) : splitEqFirst (sepEqChars ++ w) = some ([], w) := by
  show splitEqFirst (' ' :: '=' :: ' ' :: w) = some ([], w)
  rw [splitEqFirst]
  simp [litPre, sepEqChars]

theorem splitEqFirst_append_some : ∀ (u t b a : List Char),
    splitEqFirst u = some (b, a) → splitEqFirst (u ++ t) = some (b, a ++ t)
  | [], _, _, _, h => by simp [splitEqFirst] at h
  | c :: u', t, b, a, h => by
    rw [splitEqFirst] at h
    split at h
    · rename_i hp
      simp only [Option.some.injEq, Prod.mk.injEq] at h
      obtain ⟨rfl, rfl⟩ := h
      have hlen : sepEqChars.length ≤ (c :: u').length := by
        have := (litPre_iff _ _).mp hp
        simpa using this.length_le
      have hp' : litPre sepEqChars ((c :: u') ++ t) = true := litPre_append_left t hp
      have hu' : 2 ≤ u'.length := by simpa [sepEqChars] using hlen
      simp only [List.cons_append, List.append_eq] at hp'
      simp only [List.cons_append, splitEqFirst, List.append_eq, hp', if_true]
      have : (u' ++ t).drop 2 = u'.drop 2 ++ t := List.drop_append_of_le_length hu'
      simp [this]
    · rename_i hp
      cases hsp : splitEqFirst u' with
      | none => rw [hsp] at h; simp at h
      | some pr =>
        obtain ⟨b', a'⟩ := pr
        rw [hsp] at h
        simp at h
        obtain ⟨rfl, rfl⟩ := h
        have hlen : 3 ≤ u'.length := by
          have hd := splitEqFirst_decomp u' b' a' hsp
          subst hd
          simp [sepEqChars]
          omega
        have hp' : litPre sepEqChars ((c :: u') ++ t) = false := by
          rw [litPre_stable sepEqChars (c :: u') t (by simp [sepEqChars]; omega)]
          exact Bool.not_eq_true _ ▸ hp
        simp only [List.cons_append, List.append_eq] at hp'
        simp only [List.cons_append, splitEqFirst, List.append_eq, hp', Bool.false_eq_true,
          if_false]
        rw [splitEqFirst_append_some u' t b' a' hsp]
        simp

theorem hasSepEq_iff : ∀ (l : List Char), hasSepEq l = true ↔ sepEqChars <:+: l := by
  intro l
  constructor
  · intro h
    rw [hasSepEq, Option.isSome_iff_exists] at h
    obtain ⟨⟨b, a⟩, hba⟩ := h
    have := splitEqFirst_decomp l b a hba
    exact this ▸ ⟨b, a, by simp⟩
  · intro h
    induction l with
    | nil => simp [sepEqChars] at h
    | cons c t ih =>
      rw [List.infix_cons_iff] at h
      rcases h with hpre | hinf
      · rw [hasSepEq, splitEqFirst]
        have : litPre sepEqChars (c :: t) = true := (litPre_iff _ _).mpr hpre
        simp [this]
      · have := ih hinf
        rw [hasSepEq, Option.isSome_iff_exists] at this
        obtain ⟨⟨b, a⟩, hba⟩ := this
        rw [hasSepEq, splitEqFirst]
        split
        · simp
        · rw [hba]; simp

theorem mk_data_eq (s : String) : String.mk s.data = s := rfl

theorem eqCond_data (f v : String) :
    (eqCond f v).data = f.data ++ (sepEqChars ++ ('\'' :: (v.data ++ ['\'']))) := by
  have h1 : (" = '" : String).data = [' ', '=', ' ', '\''] := rfl
  have h2 : ("'" : String).data = ['\''] := rfl
  simp [eqCond, h1, h2, sepEqChars, List.append_assoc]

theorem eqPredField_eqCond (f v : String) (hf : ∀ c ∈ f.data, c ≠ ' ') :
    eqPredField (eqCond f v) =
      if hasSepEq ('\'' :: (v.data ++ ['\''])) then none else some f := by
  rw [eqPredField, eqCond_data, splitEqFirst_skip f.data _ hf, splitEqFirst_sep]
  simp [mk_data_eq]

theorem eqPredField_eqCond_some {f v g : String} (hf : ∀ c ∈ f.data, c ≠ ' ')
    (h : eqPredField (eqCond f v) = some g) : g = f := by
  rw [eqPredField_eqCond f v hf] at h
  split at h
  · simp at h
  · simpa [eq_comm] using h

theorem hasSepEq_eqCond (f v : String) (hf : ∀ c ∈ f.data, c ≠ ' ') :
    hasSepEq (eqCond f v).data = true := by
  rw [hasSepEq, eqCond_data, splitEqFirst_skip f.data _ hf, splitEqFirst_sep]
  simp

theorem eqPredField_some_contains {s g : String} (h : eqPredField s = some g) :
    containsSub g s = true := by
  rw [eqPredField] at h
  cases hsp : splitEqFirst s.data with
  | none => rw [hsp] at h; simp at h
  | some p =>
    obtain ⟨b, a⟩ := p
    rw [hsp] at h
    have h' : (if hasSepEq a = true then none else some (String.mk b)) = some g := h
    by_cases hs : hasSepEq a = true
    · rw [if_pos hs] at h'
      simp at h'
    · rw [if_neg hs] at h'
      simp only [Option.some.injEq] at h'
      have hd := splitEqFirst_decomp s.data b a hsp
      rw [containsSub, subStr_iff]
      rw [hd, ← h']
      exact ((List.prefix_append b _).trans (List.prefix_append _ _)).isInfix

theorem strJoin_cons_cons (sep : String) (x y : String) (rest : List String) :
    strJoin sep (x :: y :: rest) = x ++ sep ++ strJoin sep (y :: rest) := rfl

theorem eqPredField_join_none (us : List String) (h2 : 2 ≤ us.length)
    (hall : ∀ u ∈ us, hasSepEq u.data = true) :
    eqPredField ("(" ++ strJoin " OR " us ++ ")") = none := by
  match us, h2 with
  | u1 :: u2 :: rest, _ =>
    have h1 : (splitEqFirst u1.data).isSome = true := hall u1 (by simp)
    rw [Option.isSome_iff_exists] at h1
    obtain ⟨⟨b, a⟩, hba⟩ := h1
    have hdata : ("(" ++ strJoin " OR " (u1 :: u2 :: rest) ++ ")").data =
        '(' :: (u1.data ++ ((" OR " ++ strJoin " OR " (u2 :: rest) ++ ")").data)) := by
      rw [strJoin_cons_cons]
      have h0 : ("(" : String).data = ['('] := rfl
      simp [h0, List.append_assoc]
    have hsplit : splitEqFirst ('(' :: (u1.data ++ ((" OR " ++ strJoin " OR " (u2 :: rest) ++ ")").data))) =
        some ('(' :: b, a ++ ((" OR " ++ strJoin " OR " (u2 :: rest) ++ ")").data)) := by
      have hskip := splitEqFirst_skip ['('] (u1.data ++ ((" OR " ++ strJoin " OR " (u2 :: rest) ++ ")").data))
        (by intro c hc; simp at hc; simp [hc])
      rw [List.singleton_append] at hskip
      rw [hskip, splitEqFirst_append_some _ _ _ _ hba]
      simp
    rw [eqPredField, hdata, hsplit]
    have htail : hasSepEq (a ++ ((" OR " ++ strJoin " OR " (u2 :: rest) ++ ")").data)) = true := by
      rw [hasSepEq_iff]
      have hu2 : sepEqChars <:+: u2.data := (hasSepEq_iff _).mp (hall u2 (by simp))
      have hpre : u2.data <+: (strJoin " OR " (u2 :: rest)).data := by
        match rest with
        | [] => exact List.prefix_refl _
        | z :: rest' =>
          rw [strJoin_cons_cons]
          simp only [String.data_append]
          rw [List.append_assoc]
          exact List.prefix_append _ _
      refine hu2.trans (hpre.isInfix.trans ?_)
      have hsh : a ++ ((" OR " ++ strJoin " OR " (u2 :: rest) ++ ")").data) =
          (a ++ (" OR " : String).data) ++ (strJoin " OR " (u2 :: rest)).data ++ (")" : String).data := by
        simp [List.append_assoc]
      rw [hsh]
      exact List.infix_append _ _ _
    have hfin : (if hasSepEq (a ++ ((" OR " ++ strJoin " OR " (u2 :: rest) ++ ")").data)) = true
        then none
        else some (String.mk ('(' :: b))) = (none : Option String) := by
      rw [if_pos htail]
    exact hfin

theorem toLower_isDigit (c : Char) (h : c.isDigit = false) : c.toLower.isDigit = false := by
  rw [Char.toLower]
  split
  · rename_i hn
    obtain ⟨h1, h2⟩ := hn
    set n := c.toNat with hn'
    interval_cases n <;> decide
  · exact h

theorem natDigits_isDigit : ∀ (fuel n : Nat), ∀ c ∈ natDigits fuel n, c.isDigit = true := by
  intro fuel
  induction fuel with
  | zero => intro n c hc; simp [natDigits] at hc
  | succ f ih =>
    intro n c hc
    rw [natDigits] at hc
    split at hc
    · rename_i hlt
      simp at hc
      subst hc
      interval_cases n <;> decide
    · simp at hc
      rcases hc with hc | hc
      · exact ih _ c hc
      · subst hc
        have : n % 10 < 10 := Nat.mod_lt _ (by omega)
        set m := n % 10 with hm
        interval_cases m <;> decide

theorem decDigits_isDigit : ∀ (fuel num den : Nat), 0 < den → num < den →
    ∀ c ∈ decDigits fuel num den, c.isDigit = true := by
  intro fuel
  induction fuel with
  | zero => intro num den _ _ c hc; simp [decDigits] at hc
  | succ f ih =>
    intro num den hden hnd c hc
    rw [decDigits] at hc
    split at hc
    · simp at hc
    · simp at hc
      rcases hc with hc | hc
      · subst hc
        have hd : (10 * num) / den < 10 := by
          apply Nat.div_lt_of_lt_mul
          omega
        set d := (10 * num) / den with hdd
        interval_cases d <;> decide
      · exact ih _ den hden (Nat.mod_lt _ (by omega)) c hc

theorem pyFloatStr_chars (q : ℚ) :
    ∀ c ∈ (pyFloatStr q).data, c.isDigit = true ∨ c = '.' ∨ c = '-' := by
  have hnat : ∀ (n : Nat) (x : Char), x ∈ (natStr n).data → x.isDigit = true ∨ x = '.' ∨ x = '-' :=
    fun n x hx => Or.inl (natDigits_isDigit 64 n x hx)
  have hdash : ∀ x ∈ ("-" : String).data, x.isDigit = true ∨ x = '.' ∨ x = '-' := by
    intro x hx
    simp only [show ("-" : String).data = ['-'] from rfl, List.mem_singleton] at hx
    simp [hx]
  have hdot0 : ∀ x ∈ (".0" : String).data, x.isDigit = true ∨ x = '.' ∨ x = '-' := by
    intro x hx
    simp only [show (".0" : String).data = ['.', '0'] from rfl, List.mem_cons,
      List.mem_singleton, List.not_mem_nil, or_false] at hx
    rcases hx with hx | hx <;> simp [hx]
  have hdot : ∀ x ∈ ("." : String).data, x.isDigit = true ∨ x = '.' ∨ x = '-' := by
    intro x hx
    simp only [show ("." : String).data = ['.'] from rfl, List.mem_singleton] at hx
    simp [hx]
  have hdec : ∀ (num den : Nat), 0 < den →
      ∀ x ∈ (String.mk (decDigits 17 (num % den) den)).data,
        x.isDigit = true ∨ x = '.' ∨ x = '-' := by
    intro num den h1 x hx
    exact Or.inl (decDigits_isDigit 17 _ den h1 (Nat.mod_lt _ h1) x hx)
  intro c hc
  simp only [pyFloatStr] at hc
  split at hc <;> split at hc <;>
    simp only [String.data_append, List.mem_append] at hc
  · rcases hc with ((hc | hc) | hc)
    · exact hdash c hc
    · exact hnat _ c hc
    · exact hdot0 c hc
  · rcases hc with (((hc | hc) | hc) | hc)
    · exact hdash c hc
    · exact hnat _ c hc
    · exact hdot c hc
    · exact hdec _ _ (Rat.pos _) c hc
  · rcases hc with ((hc | hc) | hc)
    · simp [show ("" : String).data = ([] : List Char) from rfl] at hc
    · exact hnat _ c hc
    · exact hdot0 c hc
  · rcases hc with (((hc | hc) | hc) | hc)
    · simp [show ("" : String).data = ([] : List Char) from rfl] at hc
    · exact hnat _ c hc
    · exact hdot c hc
    · exact hdec _ _ (Rat.pos _) c hc

theorem infix_append_split {α : Type} {n a b : List α} (h : n <:+: a ++ b) :
    n <:+: a ∨ n <:+: b ∨
      ∃ n1 n2, n = n1 ++ n2 ∧ n1 ≠ [] ∧ n2 ≠ [] ∧ n1 <:+ a ∧ n2 <+: b := by
  obtain ⟨s, t, hst⟩ := h
  rw [List.append_assoc] at hst
  rcases List.append_eq_append_iff.mp hst with ⟨a', ha, hnt⟩ | ⟨c', _, hb⟩
  · rcases List.append_eq_append_iff.mp hnt with ⟨x, hax, _⟩ | ⟨y, hny, hyb⟩
    · left
      exact ⟨s, x, by rw [ha, hax, List.append_assoc]⟩
    · rcases eq_or_ne a' [] with rfl | ha'
      · right; left
        simp only [List.nil_append] at hny
        subst hny
        exact ⟨[], t, by simp [hyb]⟩
      · rcases eq_or_ne y [] with rfl | hy
        · left
          simp only [List.append_nil] at hny
          subst hny
          exact ⟨s, [], by simp [ha.symm]⟩
        · right; right
          exact ⟨a', y, hny, ha', hy, ⟨s, ha.symm⟩, ⟨t, hyb.symm⟩⟩
  · right; left
    exact ⟨c', t, by rw [hb, List.append_assoc]⟩

theorem infix_cons_elim {α : Type} {n : List α} {c : α} {l : List α}
    (h : n <:+: c :: l) (hc : c ∉ n) : n <:+: l := by
  rcases List.infix_cons_iff.mp h with hpre | hinf
  · rcases List.prefix_cons_iff.mp hpre with rfl | ⟨t, rfl, _⟩
    · exact List.nil_infix
    · exact absurd (List.mem_cons_self c t) hc
  · exact hinf

theorem infix_concat_elim {α : Type} {n : List α} {l : List α} {c : α}
    (h : n <:+: l ++ [c]) (hc : c ∉ n) : n <:+: l := by
  rcases infix_append_split h with h1 | h1 | ⟨n1, n2, rfl, _, hn2, _, hpre⟩
  · exact h1
  · have := h1.sublist
    rcases List.sublist_singleton.mp this with rfl | rfl
    · exact List.nil_infix
    · exact absurd (List.mem_singleton_self c) hc
  · rcases List.prefix_cons_iff.mp hpre with rfl | ⟨t, rfl, htl⟩
    · exact absurd rfl hn2
    · exact absurd (List.mem_append_right n1 (List.mem_cons_self c t)) hc

theorem join_not_infix_aux {n : List Char} (hn : n ≠ [])
    (hsp : ' ' ∉ n) (hO : 'O' ∉ n) (hR : 'R' ∉ n) :
    ∀ (us : List String), (∀ u ∈ us, ¬ n <:+: u.data) →
      ¬ n <:+: (strJoin " OR " us).data := by
  intro us
  induction us with
  | nil =>
    intro _ h
    rw [show (strJoin " OR " [] : String) = "" from rfl] at h
    rw [show ("" : String).data = ([] : List Char) from rfl] at h
    exact hn (List.infix_nil.mp h)
  | cons u rest ih =>
    intro hus h
    cases rest with
    | nil =>
      exact hus u (by simp) (by simpa [strJoin] using h)
    | cons u2 rest' =>
      rw [strJoin_cons_cons] at h
      simp only [String.data_append, List.append_assoc] at h
      rcases infix_append_split h with h1 | h1 | ⟨n1, n2, rfl, _, hn2, _, hpre⟩
      · exact hus u (by simp) h1
      · simp only [List.cons_append, List.nil_append] at h1
        have h2 := infix_cons_elim h1 hsp
        have h3 := infix_cons_elim h2 hO
        have h4 := infix_cons_elim h3 hR
        have h5 := infix_cons_elim h4 hsp
        exact ih (fun v hv => hus v (by simp [hv])) h5
      · simp only [List.cons_append, List.nil_append] at hpre
        rcases List.prefix_cons_iff.mp hpre with rfl | ⟨t, rfl, _⟩
        · exact hn2 rfl
        · exact hsp (List.mem_append_right n1 (List.mem_cons_self ' ' t))

theorem join_not_infix {n : List Char} (hn : n ≠ [])
    (hsp : ' ' ∉ n) (hO : 'O' ∉ n) (hR : 'R' ∉ n) (hlp : '(' ∉ n) (hrp : ')' ∉ n)
    (us : List String) (hus : ∀ u ∈ us, ¬ n <:+: u.data) :
    ¬ n <:+: ("(" ++ strJoin " OR " us ++ ")").data := by
  intro h
  simp only [String.data_append] at h
  rw [List.singleton_append, List.cons_append] at h
  have h1 := infix_cons_elim h hlp
  have h2 := infix_concat_elim h1 hrp
  exact join_not_infix_aux hn hsp hO hR us hus h2

theorem dedupFold_sublist : ∀ (l acc : List String),
    List.Sublist (l.foldl (fun acc c => if c ∈ acc then acc else acc ++ [c]) acc) (acc ++ l)
  | [], acc => by simp
  | c :: t, acc => by
    simp only [List.foldl_cons]
    split
    · exact (dedupFold_sublist t acc).trans
        (List.Sublist.append_left (List.sublist_cons_self c t) acc)
    · have := dedupFold_sublist t (acc ++ [c])
      simpa using this

theorem dedupKeepFirst_sublist (l : List String) : List.Sublist (dedupKeepFirst l) l := by
  have := dedupFold_sublist l []
  simpa [dedupKeepFirst] using this

theorem mem_dedupKeepFirst {x : String} {l : List String} (h : x ∈ dedupKeepFirst l) :
    x ∈ l := (dedupKeepFirst_sublist l).subset h

theorem dedupFold_pre : ∀ (l acc : List String),
    acc <+: (l.foldl (fun acc c => if c ∈ acc then acc else acc ++ [c]) acc)
  | [], acc => by simp
  | c :: t, acc => by
    simp only [List.foldl_cons]
    split
    · exact dedupFold_pre t acc
    · exact (List.prefix_append acc [c]).trans (dedupFold_pre t (acc ++ [c]))

theorem dedupKeepFirst_ne_nil {l : List String} (h : l ≠ []) : dedupKeepFirst l ≠ [] := by
  match l, h with
  | c :: t, _ =>
    rw [dedupKeepFirst, List.foldl_cons]
    have : (if c ∈ ([] : List String) then ([] : List String) else [] ++ [c]) = [c] := by simp
    rw [this]
    intro hnil
    have hpre := dedupFold_pre t [c]
    rw [hnil] at hpre
    simpa using hpre.length_le

theorem alookup_some_mem {α : Type} {l : List (String × α)} {k : String} {v : α}
    (h : alookup l k = some v) : (k, v) ∈ l := by
  rw [alookup] at h
  cases hf : l.find? (fun p => p.1 == k) with
  | none => rw [hf] at h; simp at h
  | some p =>
    rw [hf] at h
    simp at h
    have hm := List.mem_of_find?_eq_some hf
    have hp : p.1 = k := by simpa using List.find?_some hf
    have : (k, v) = p := by
      rw [← hp, ← h]
    rw [this]
    exact hm

theorem alookup_isSome_key {α : Type} {l : List (String × α)} {k : String}
    (h : (alookup l k).isSome = true) : k ∈ l.map Prod.fst := by
  rw [Option.isSome_iff_exists] at h
  obtain ⟨v, hv⟩ := h
  exact List.mem_map.mpr ⟨(k, v), alookup_some_mem hv, rfl⟩

/-! ## Claim theorems -/

/-- Claim C10: for every input dataset-id string, `_map_to_base_dataset`
returns one of the six known base categories (unknown ids fall back to
`ev_charging`), so the result is always a key of the static vocabulary and
field-mapping tables. -/
theorem C10_base_dataset_total (s : String) :
    map_to_base_dataset s ∈ ["ev_charging", "electrical_meters", "gas_meters",
      "service_panels", "tree_wells", "acorn_lights"] := by
  rw [map_to_base_dataset]
  cases hm : alookup dataset_mappings s with
  | some v =>
    have hv : v ∈ ["ev_charging", "electrical_meters", "gas_meters",
        "service_panels", "tree_wells", "acorn_lights"] := by
      have hall : ∀ p ∈ dataset_mappings, p.2 ∈ ["ev_charging", "electrical_meters",
          "gas_meters", "service_panels", "tree_wells", "acorn_lights"] := by decide
      exact hall _ (alookup_some_mem hm)
    have hsome : (alookup dataset_entities v).isSome = true := by
      fin_cases hv <;> decide
    simp only [Option.getD_some, hsome, if_true]
    exact hv
  | none =>
    simp only [Option.getD_none]
    by_cases hs : (alookup dataset_entities s).isSome = true
    · rw [if_pos hs]
      have hk := alookup_isSome_key hs
      rw [show dataset_entities.map Prod.fst = ["ev_charging", "electrical_meters",
        "gas_meters", "service_panels", "tree_wells", "acorn_lights"] from rfl] at hk
      exact hk
    · rw [if_neg hs]
      split_ifs <;> simp

/-- Claim C9: `to_geojson`'s geometry conversion maps `{x:10, y:20}` to a
GeoJSON Point with coordinates `[10, 20]`, maps a `rings` geometry to a
Polygon with the rings unmodified, maps a `paths` geometry to a LineString
using the first path, and passes any unrecognized shape through
unchanged. -/
theorem C9_geometry_normalization :
    (geometry_to_geojson [("x", .n 10), ("y", .n 20)] =
      .obj [("type", .s "Point"), ("coordinates", .arr [.n 10, .n 20])]) ∧
    (geometry_to_geojson
        [("rings", .arr [.arr [.arr [.n 0, .n 0], .arr [.n 1, .n 0],
          .arr [.n 1, .n 1], .arr [.n 0, .n 0]]])] =
      .obj [("type", .s "Polygon"),
        ("coordinates", .arr [.arr [.arr [.n 0, .n 0], .arr [.n 1, .n 0],
          .arr [.n 1, .n 1], .arr [.n 0, .n 0]]])]) ∧
    (geometry_to_geojson [("paths", .arr [.arr [.arr [.n 1, .n 2], .arr [.n 3, .n 4]],
        .arr [.arr [.n 5, .n 6]]])] =
      .obj [("type", .s "LineString"),
        ("coordinates", .arr [.arr [.n 1, .n 2], .arr [.n 3, .n 4]])]) ∧
    (∀ g : List (String × JVal), (jhas g "x" && jhas g "y") = false →
      jhas g "paths" = false → jhas g "rings" = false →
      geometry_to_geojson g = .obj g) := by
  refine ⟨rfl, rfl, rfl, ?_⟩
  intro g h1 h2 h3
  rw [geometry_to_geojson]
  simp [h1, h2, h3]

/-- Witness for C9 at a concrete unrecognized geometry. -/
theorem C9_geometry_normalization_witness :
    geometry_to_geojson [("foo", JVal.null)] = .obj [("foo", JVal.null)] :=
  C9_geometry_normalization.2.2.2 [("foo", JVal.null)] rfl rfl rfl

/-- Claim C8: when the geocoding provider fails on every reformulation ×
retry combination (modelled as a transport error on every call),
`find_infrastructure_near` returns the `Could not find location` result
with null geometry and non-empty text, and no exception escapes (the
embedding returns a value on this path). -/
theorem C8_geocode_failure (respond : String → Nat → GeoResponse) (place itype : String)
    (r : ℚ) (lid : Option Int) (af : Option String)
    (h : ∀ q a, respond q a = .transportError) :
    find_infrastructure_near respond place itype r lid af =
      .result { text := "Could not find location: " ++ place, geojson := none } ∧
    ("Could not find location: " ++ place) ≠ "" := by
  constructor
  · have hq : ∀ q, try_attempts respond q 0 3 = none := by
      intro q
      rw [show (3 : Nat) = 2 + 1 from rfl, try_attempts, h]
      rw [show (2 : Nat) = 1 + 1 from rfl, try_attempts, h]
      rw [show (1 : Nat) = 0 + 1 from rfl, try_attempts, h]
      rfl
    have hloc : geocode_location respond place 3 = none := by
      rw [geocode_location]
      simp [search_queries, List.findSome?_cons, hq]
    have hg : geocode_place respond place = none := by
      rw [geocode_place, hloc]
    rw [find_infrastructure_near, hg]
  · intro hh
    have h2 := congrArg String.data hh
    simp at h2

/-- Witness for C8 at a concrete always-failing provider. -/
theorem C8_geocode_failure_witness :
    find_infrastructure_near (fun _ _ => .transportError) "sacramento" "buildings_real"
        2 none none =
      .result { text := "Could not find location: " ++ "sacramento", geojson := none } ∧
    ("Could not find location: " ++ "sacramento") ≠ "" :=
  C8_geocode_failure (fun _ _ => .transportError) "sacramento" "buildings_real" 2 none none
    (fun _ _ => rfl)

/-- Claim C7: a query matching none of the router's intent patterns (in
particular `"xyz123 unintelligible"`) yields the `couldn't understand`
result with null geometry and non-empty explanatory text, not an
exception. -/
theorem C7_unroutable :
    (∀ q, route_tool_call q = none →
      route_query_decision q = .unroutable unroutable_result) ∧
    route_tool_call "xyz123 unintelligible" = none ∧
    unroutable_result.geojson = none ∧
    unroutable_result.text ≠ "" := by
  refine ⟨?_, rfl, rfl, by decide⟩
  intro q h
  rw [route_query_decision, h]

/-- Witness for C7 at the concrete unintelligible query. -/
theorem C7_unroutable_witness :
    route_query_decision "xyz123 unintelligible" = .unroutable unroutable_result :=
  C7_unroutable.1 "xyz123 unintelligible" C7_unroutable.2.1

/-- Claim C2, counterexample: the router maps the scenario-A query to the
`buildings_real` category (the infrastructure-mapping table holds only
Abu-Dhabi categories and has no EV-charging keys, so the fallback fires),
not to an `ev_charging` category as claimed; place and radius arguments
are as claimed. -/
theorem C2_counterexample :
    route_tool_call "find EV charging near Sacramento within 3 miles" =
      some ⟨"find_infrastructure_near",
        .near "sacramento" "buildings_real"
          (extract_distance "find ev charging near sacramento within 3 miles") none
          (some "City='3'"), 9 / 10⟩ ∧
    "buildings_real" ≠ "ev_charging" := ⟨rfl, by decide⟩

/-- Claim C2, amended: the scenario-A query routes to a proximity
`find_infrastructure_near` call with place `sacramento` and radius
3 × 1.60934 = 4.82802 km, but with infrastructure category
`buildings_real` (the table's default fallback), not `ev_charging`. -/
theorem C2_amended :
    route_tool_call "find EV charging near Sacramento within 3 miles" =
      some ⟨"find_infrastructure_near",
        .near "sacramento" "buildings_real"
          (extract_distance "find ev charging near sacramento within 3 miles") none
          (some "City='3'"), 9 / 10⟩ ∧
    extract_distance "find ev charging near sacramento within 3 miles" =
      3 * (160934 / 100000 : ℚ) ∧
    3 * (160934 / 100000 : ℚ) = 241401 / 50000 := by
  refine ⟨rfl, rfl, by norm_num⟩

/-- Claim C5, counterexample: for scenario B the extractor produces the
numeric condition `{operator > , value 6}` but with an empty hint list —
`"levels"` is not among the nouns `_extract_conditions_spacy` accepts as
hints, so the claimed hints `["levels"]` are wrong. -/
theorem C5_counterexample :
    extract_conditions_spacy scenarioBDoc "buildings_real" = [⟨">", 6, []⟩] ∧
    ([] : List String) ≠ ["levels"] := ⟨rfl, by decide⟩

/-- Claim C5, amended: scenario B produces the numeric condition
`{operator > , value 6, hints []}`; the router resolves the category to
the buildings dataset (`buildings_real`) and emits an attribute query;
and no extracted condition of any document can carry `"levels"` as a
hint, since hints are drawn from a fixed five-noun list. -/
theorem C5_amended :
    extract_conditions_spacy scenarioBDoc "buildings_real" = [⟨">", 6, []⟩] ∧
    map_infrastructure_type "buildings" = "buildings_real" ∧
    route_tool_call "show buildings with more than 6 levels" =
      some ⟨"find_infrastructure_by_attributes", .byAttrs "buildings_real" "1=1" none,
        85 / 100⟩ ∧
    (∀ (doc : List SToken) (ds : String) (c : NumCond),
      c ∈ extract_conditions_spacy doc ds → "levels" ∉ c.fieldHints) := by
  refine ⟨rfl, rfl, rfl, ?_⟩
  intro doc ds c hc hmem
  rw [extract_conditions_spacy] at hc
  obtain ⟨m, _, hm⟩ := List.mem_filterMap.mp hc
  split at hm
  · dsimp only at hm
    split at hm
    · rename_i v hv
      simp only [Option.some.injEq] at hm
      have hhints : c.fieldHints = windowHints doc m.2.1 m.2.2 := by
        rw [← hm]
      rw [hhints] at hmem
      rw [windowHints] at hmem
      obtain ⟨it, _, hit⟩ := List.mem_filterMap.mp hmem
      split at hit
      · rename_i hcond
        simp only [Option.some.injEq] at hit
        have : hintWords.contains it.2.lower = true := by
          exact (Bool.and_eq_true _ _ |>.mp hcond).2
        rw [hit] at this
        simp [hintWords] at this
      · simp at hit
    · simp at hm
  · simp at hm

/-- Witness for `C5_amended`: its universal part applied to scenario B's
own extracted condition, whose membership the first conjunct supplies. -/
theorem C5_amended_witness :
    "levels" ∉ (NumCond.mk ">" 6 []).fieldHints :=
  C5_amended.2.2.2 scenarioBDoc "buildings_real" _
    (by rw [C5_amended.1]; exact List.mem_singleton.mpr rfl)

/-! ### C3: digit-free queries and the distance scanner -/

theorem data_mk (l : List Char) : (String.mk l).data = l := rfl

theorem parseNumAt_none_cons {c : Char} {t : List Char} (h : c.isDigit = false) :
    parseNumAt (c :: t) = none := by
  simp [parseNumAt, List.span_eq_take_drop, List.takeWhile_cons, h]

theorem parseNumAt_none_of_noDigit {s : List Char} (h : ∀ c ∈ s, c.isDigit = false) :
    parseNumAt s = none := by
  cases s with
  | nil => rfl
  | cons c t => exact parseNumAt_none_cons (h c (List.mem_cons_self c t))

theorem distCore_none_of_noDigit (u : List Char → Bool) {s : List Char}
    (h : ∀ c ∈ s, c.isDigit = false) : distCore u s = none := by
  rw [distCore, parseNumAt_none_of_noDigit h]

theorem distMatchAt_none_of_noDigit (w : Bool) (u : List Char → Bool) {s : List Char}
    (h : ∀ c ∈ s, c.isDigit = false) : distMatchAt w u s = none := by
  cases w with
  | false =>
    rw [distMatchAt, if_neg (by simp)]
    exact distCore_none_of_noDigit u h
  | true =>
    rw [distMatchAt, if_pos rfl]
    cases hdl : dropLit "within ".data s with
    | none => rfl
    | some r =>
      refine distCore_none_of_noDigit u ?_
      intro c hc
      rw [dropLit] at hdl
      split at hdl
      · simp only [Option.some.injEq] at hdl
        exact h c (List.drop_subset _ s (hdl ▸ hc))
      · simp at hdl

theorem searchSfx_none (m : List Char → Option ℚ) :
    ∀ (s : List Char), (∀ t, t <:+ s → m t = none) → searchSfx m s = none := by
  intro s
  induction s with
  | nil =>
    intro h
    rw [searchSfx]
    exact h [] List.nil_suffix
  | cons c t ih =>
    intro h
    rw [searchSfx, h (c :: t) (List.suffix_refl _)]
    exact ih (fun t2 ht2 => h t2 (ht2.trans (List.suffix_cons c t)))

theorem extract_distance_noDigit {q : String} (h : noDigitB q = true) :
    extract_distance q = 2 := by
  have hall : ∀ c ∈ q.data, c.isDigit = false := by
    rw [noDigitB, List.all_eq_true] at h
    intro c hc
    simpa using h c hc
  have hs : ∀ (w : Bool) (u : List Char → Bool),
      searchSfx (distMatchAt w u) q.data = none := by
    intro w u
    refine searchSfx_none _ _ (fun t ht => ?_)
    exact distMatchAt_none_of_noDigit w u (fun c hc => hall c (ht.mem hc))
  rw [extract_distance, hs, hs, hs, hs]

theorem noDigitB_normalize {q : String} (h : noDigitB q = true) :
    noDigitB (normalize_query q) = true := by
  rw [noDigitB, List.all_eq_true] at h ⊢
  intro c hc
  rw [normalize_query, pyStrip, pyLower, data_mk, data_mk, List.mem_reverse] at hc
  have h2 := (List.dropWhile_suffix wsChar).mem hc
  rw [List.mem_reverse] at h2
  have h3 := (List.dropWhile_suffix wsChar).mem h2
  obtain ⟨c0, hc0, rfl⟩ := List.mem_map.mp h3
  have hd : c0.isDigit = false := by simpa using h c0 hc0
  simpa using toLower_isDigit c0 hd

theorem analyze_query_cases {q : String} {tc : ToolCall} (h : analyze_query q = some tc) :
    (∃ groups, tc = handle_spatial_query groups q) ∨
    (∃ g1 g2, tc = handle_attribute_query g1 g2 q) ∨
    (∃ groups, tc = handle_simple_query groups q) := by
  rw [analyze_query] at h
  repeat' split at h
  any_goals exact Option.noConfusion h
  all_goals simp only [Option.some.injEq] at h
  any_goals exact Or.inl ⟨_, h.symm⟩
  any_goals exact Or.inr (Or.inl ⟨_, _, h.symm⟩)
  all_goals exact Or.inr (Or.inr ⟨_, h.symm⟩)

/-- Claim C3, counterexample: the router performs no argument validation
before dispatch: the query "find chargers near sacramento within 0 km" is
analysed into a `find_infrastructure_near` call whose radius argument is
the extracted distance 0, and `route_query` dispatches that call as-is, so
a ToolCall violating the claimed `radius > 0` check does reach a GIS tool. -/
theorem C3_counterexample :
    route_tool_call "find chargers near sacramento within 0 km" =
      some ⟨"find_infrastructure_near",
        .near "sacramento" "buildings_real"
          (extract_distance "find chargers near sacramento within 0 km") none
          (some "City='0'"), 9 / 10⟩ ∧
    extract_distance "find chargers near sacramento within 0 km" = 0 ∧
    route_query_decision "find chargers near sacramento within 0 km" =
      .dispatched ⟨"find_infrastructure_near",
        .near "sacramento" "buildings_real"
          (extract_distance "find chargers near sacramento within 0 km") none
          (some "City='0'"), 9 / 10⟩ := ⟨rfl, rfl, rfl⟩

/-- Claim C3, amended: the router dispatches analysed tool calls without
any argument validation, so a zero radius is reachable through an explicit
"within 0 km"; but for every query containing no decimal digit, any routed
call that carries a radius argument carries a strictly positive one (the
hard-coded defaults 2 km and 5 km). -/
theorem C3_amended : ∀ (q : String) (tc : ToolCall), noDigitB q = true →
    route_tool_call q = some tc → ∀ r, tc.radiusQ = some r → 0 < r := by
  intro q tc hq h r hr
  rw [route_tool_call] at h
  have hqn : noDigitB (normalize_query q) = true := noDigitB_normalize hq
  rcases analyze_query_cases h with ⟨groups, rfl⟩ | ⟨g1, g2, rfl⟩ | ⟨groups, rfl⟩
  · have hrad : (handle_spatial_query groups (normalize_query q)).radiusQ =
        some (extract_distance (normalize_query q)) := rfl
    rw [hrad, Option.some.injEq] at hr
    rw [← hr, extract_distance_noDigit hqn]
    norm_num
  · have hrad : (handle_attribute_query g1 g2 (normalize_query q)).radiusQ = none := rfl
    rw [hrad] at hr
    cases hr
  · rcases groups with _ | ⟨g1, _ | ⟨g2, rest⟩⟩
    · have hrad : (handle_simple_query [] (normalize_query q)).radiusQ = none := rfl
      rw [hrad] at hr
      cases hr
    · have hrad : (handle_simple_query [g1] (normalize_query q)).radiusQ = none := rfl
      rw [hrad] at hr
      cases hr
    · have hrad : (handle_simple_query (g1 :: g2 :: rest) (normalize_query q)).radiusQ =
          some 5 := rfl
      rw [hrad, Option.some.injEq] at hr
      rw [← hr]
      norm_num

/-- Witness for `C3_amended`: the digit-free query
"find chargers near sacramento" routes to a proximity call with the
default 2 km radius, which the theorem forces to be positive. -/
theorem C3_amended_witness : (0 : ℚ) < 2 :=
  C3_amended "find chargers near sacramento"
    ⟨"find_infrastructure_near", .near "sacramento" "buildings_real" 2 none none, 9 / 10⟩
    (by decide) rfl 2 rfl

/-! ### C1: the condition builder and per-field equality predicates -/


theorem fieldOkB_space {f : String} (h : fieldOkB f = true) : ∀ c ∈ f.data, c ≠ ' ' := by
  rw [fieldOkB, List.all_eq_true] at h
  intro c hc
  have h2 := h c hc
  simp only [Bool.and_eq_true, Bool.not_eq_true', decide_eq_false_iff_not] at h2
  exact h2.1

theorem cfgOk_parts {cfg : FieldConfig} (h : cfgOkB cfg = true) :
    (∀ c ∈ cfg.field.data, c ≠ ' ') ∧ (cfg.ftype == "existence") = false ∧
      cfg.cond = none ∧
      ∀ p ∈ cfg.values.getD [], ∀ vs, p.2 = MappedVal.many vs → 2 ≤ vs.length := by
  rw [cfgOkB] at h
  simp only [Bool.and_eq_true, Bool.not_eq_true'] at h
  obtain ⟨⟨⟨h1, h2⟩, h3⟩, h4⟩ := h
  refine ⟨fieldOkB_space h1, h2, Option.isNone_iff_eq_none.mp h3, ?_⟩
  rw [List.all_eq_true] at h4
  intro p hp vs hvs
  have h5 := h4 p hp
  rw [hvs] at h5
  simpa using h5

theorem condInv_eqCond {f : String} (v : String) (hf : ∀ c ∈ f.data, c ≠ ' ') :
    condInv f (eqCond f v) :=
  ⟨fun _ hg => eqPredField_eqCond_some hf hg, hasSepEq_eqCond f v hf⟩

theorem hasSepEq_mono {l l2 : List Char} (h : l <:+: l2) (hl : hasSepEq l = true) :
    hasSepEq l2 = true := by
  rw [hasSepEq_iff] at hl ⊢
  exact hl.trans h

theorem condInv_orCombine {f : String} {vs : List String} (hf : ∀ c ∈ f.data, c ≠ ' ')
    (h2 : 2 ≤ vs.length) : condInv f (orCombine f vs) := by
  have hall : ∀ u ∈ vs.map (eqCond f), hasSepEq u.data = true := by
    intro u hu
    obtain ⟨v, _, rfl⟩ := List.mem_map.mp hu
    exact hasSepEq_eqCond f v hf
  have hlen : 2 ≤ (vs.map (eqCond f)).length := by simpa using h2
  constructor
  · intro g hg
    rw [show orCombine f vs = "(" ++ strJoin " OR " (vs.map (eqCond f)) ++ ")" from rfl,
      eqPredField_join_none _ hlen hall] at hg
    cases hg
  · match vs, h2 with
    | v1 :: v2 :: rest, _ =>
      have h1 : hasSepEq (eqCond f v1).data = true := hasSepEq_eqCond f v1 hf
      rw [orCombine, List.map_cons, List.map_cons, strJoin_cons_cons]
      refine hasSepEq_mono ⟨"(".data,
        (" OR " ++ strJoin " OR " ((v2 :: rest).map (eqCond f)) ++ ")").data, ?_⟩ h1
      simp [String.data_append, List.append_assoc]

theorem addValueConds_mem {cfg : FieldConfig} (hcfg : cfgOkB cfg = true)
    (acc : List String) (v : String) :
    ∀ e ∈ addValueConds cfg acc v, e ∈ acc ∨ condInv cfg.field e := by
  obtain ⟨hf, hex, hcond, hmany⟩ := cfgOk_parts hcfg
  intro e he
  rw [addValueConds] at he
  split_ifs at he with h1 h2 h3 h4 h5
  · -- exact
    split at he
    · rename_i p pv hfind hvals
      split at he
      · rename_i vs hvs
        dsimp only at he
        split at he
        · exact Or.inl he
        · rcases List.mem_append.mp he with h | h
          · exact Or.inl h
          · rw [List.mem_singleton] at h
            subst h
            exact Or.inr (condInv_orCombine hf
              (hmany p (List.mem_of_find?_eq_some hfind) vs hvs))
      · rcases List.mem_append.mp he with h | h
        · exact Or.inl h
        · rw [List.mem_singleton] at h
          subst h
          exact Or.inr (condInv_eqCond _ hf)
    · rcases List.mem_append.mp he with h | h
      · exact Or.inl h
      · rw [List.mem_singleton] at h
        subst h
        exact Or.inr (condInv_eqCond _ hf)
  · -- code
    split at he
    · rename_i p pv hfind hvals
      split at he
      · rename_i vs hvs
        dsimp only at he
        split at he
        · exact Or.inl he
        · rcases List.mem_append.mp he with h | h
          · exact Or.inl h
          · rw [List.mem_singleton] at h
            subst h
            exact Or.inr (condInv_orCombine hf
              (hmany p (List.mem_of_find?_eq_some hfind) vs hvs))
      · rcases List.mem_append.mp he with h | h
        · exact Or.inl h
        · rw [List.mem_singleton] at h
          subst h
          exact Or.inr (condInv_eqCond _ hf)
    · exact Or.inl he
  · -- boolean
    split at he
    · rename_i p pv hfind hvals
      split at he
      · rcases List.mem_append.mp he with h | h
        · exact Or.inl h
        · rw [List.mem_singleton] at h
          subst h
          exact Or.inr (condInv_eqCond _ hf)
      · exact Or.inl he
    · exact Or.inl he
  · -- existence: ruled out statically
    rw [hex] at h4
    cases h4
  · -- numeric: no static config carries a `cond`
    rw [hcond] at he
    exact Or.inl he
  · exact Or.inl he

theorem foldl_addValueConds_mem {cfg : FieldConfig} (hcfg : cfgOkB cfg = true) :
    ∀ (vs acc : List String) (e : String), e ∈ vs.foldl (addValueConds cfg) acc →
      e ∈ acc ∨ condInv cfg.field e
  | [], _, _, he => Or.inl he
  | v :: t, acc, e, he => by
    rw [List.foldl_cons] at he
    rcases foldl_addValueConds_mem hcfg t (addValueConds cfg acc v) e he with h | h
    · exact addValueConds_mem hcfg acc v e h
    · exact Or.inr h

theorem allConfigs_ok : allConfigs.all cfgOkB = true := by decide

theorem allConfigs_ok_elem {cfg : FieldConfig} (h : cfg ∈ allConfigs) : cfgOkB cfg = true :=
  List.all_eq_true.mp allConfigs_ok cfg h

theorem lookupFieldConfig_mem {dataset etype : String} {cfg : FieldConfig}
    (h : lookupFieldConfig dataset etype = some cfg) : cfg ∈ allConfigs := by
  rw [lookupFieldConfig] at h
  cases hm : alookup field_mappings dataset with
  | none => rw [hm] at h; cases h
  | some m =>
    rw [hm] at h
    rw [allConfigs, List.mem_flatMap]
    exact ⟨(dataset, m), alookup_some_mem hm,
      List.mem_map.mpr ⟨(etype, cfg), alookup_some_mem h, rfl⟩⟩

theorem dictUpdate_keys {α : Type} (l : List (String × α)) (k : String) (f : α → α) :
    (dictUpdate l k f).map Prod.fst = l.map Prod.fst := by
  rw [dictUpdate, List.map_map]
  refine List.map_congr_left (fun p _ => ?_)
  by_cases hp : p.1 = k
  · simp [hp]
  · simp [hp]

theorem mem_dictUpdate {α : Type} {l : List (String × α)} {k : String} {f : α → α}
    {p : String × α} (h : p ∈ dictUpdate l k f) :
    p ∈ l ∨ ∃ q ∈ l, q.1 = k ∧ p = (q.1, f q.2) := by
  rw [dictUpdate] at h
  obtain ⟨q, hq, hpq⟩ := List.mem_map.mp h
  by_cases hk : (q.1 == k) = true
  · exact Or.inr ⟨q, hq, by simpa using hk, by rw [← hpq, if_pos hk]⟩
  · rw [if_neg hk] at hpq
    exact Or.inl (hpq ▸ hq)

theorem dictHasKey_false {α : Type} {l : List (String × α)} {k : String}
    (h : dictHasKey l k = false) : ∀ p ∈ l, p.1 ≠ k := by
  intro p hp
  rw [dictHasKey, List.any_eq_false] at h
  simpa using h p hp

theorem buildStep_inv {dataset : String} {fc : List (String × List String)}
    (hfc : fcInv fc) (et : String × List String) :
    fcInv (match lookupFieldConfig dataset et.1 with
      | none => fc
      | some cfg =>
        let fc2 := if dictHasKey fc cfg.field then fc else fc ++ [(cfg.field, [])]
        dictUpdate fc2 cfg.field (fun acc => et.2.foldl (addValueConds cfg) acc)) := by
  cases hlk : lookupFieldConfig dataset et.1 with
  | none => exact hfc
  | some cfg =>
    have hcfg := allConfigs_ok_elem (lookupFieldConfig_mem hlk)
    have hfspace := (cfgOk_parts hcfg).1
    have hfc2 : fcInv (if dictHasKey fc cfg.field then fc
        else fc ++ [(cfg.field, [])]) := by
      split
      · exact hfc
      · rename_i hnk
        have hnk2 : dictHasKey fc cfg.field = false := by simpa using hnk
        obtain ⟨hnd, hel⟩ := hfc
        constructor
        · rw [List.map_append, List.nodup_append]
          refine ⟨hnd, List.nodup_singleton _, ?_⟩
          intro x hx hx2
          simp only [List.map_cons, List.map_nil, List.mem_singleton] at hx2
          obtain ⟨q, hq, hq1⟩ := List.mem_map.mp hx
          exact dictHasKey_false hnk2 q hq (hq1.trans hx2)
        · intro p hp
          rcases List.mem_append.mp hp with h | h
          · exact hel p h
          · rw [List.mem_singleton] at h
            subst h
            exact ⟨hfspace, by simp⟩
    obtain ⟨hnd2, hel2⟩ := hfc2
    constructor
    · rw [dictUpdate_keys]
      exact hnd2
    · intro p hp
      rcases mem_dictUpdate hp with h | ⟨q, hq, hqk, hpq⟩
      · exact hel2 p h
      · subst hpq
        refine ⟨(hel2 q hq).1, ?_⟩
        intro e he
        rcases foldl_addValueConds_mem hcfg et.2 q.2 e he with h | h
        · exact (hel2 q hq).2 e h
        · rw [hqk]
          exact h

theorem buildFoldAux_inv (dataset : String) :
    ∀ (entities : List (String × List String)) (fc0 : List (String × List String)),
      fcInv fc0 →
      fcInv (entities.foldl
        (fun fc et =>
          match lookupFieldConfig dataset et.1 with
          | none => fc
          | some cfg =>
            let fc2 := if dictHasKey fc cfg.field then fc else fc ++ [(cfg.field, [])]
            dictUpdate fc2 cfg.field (fun acc => et.2.foldl (addValueConds cfg) acc)) fc0)
  | [], _, h0 => h0
  | et :: t, fc0, h0 => by
    rw [List.foldl_cons]
    exact buildFoldAux_inv dataset t _ (buildStep_inv h0 et)

theorem buildFieldConds_inv (entities : List (String × List String)) (dataset : String) :
    fcInv (buildFieldConds entities dataset) := by
  rw [buildFieldConds]
  exact buildFoldAux_inv dataset entities [] ⟨List.nodup_nil, by simp⟩

theorem resolveField_inv {dataset f : String} {conds : List String} {c : String}
    (hc : ∀ e ∈ conds, condInv f e) (h : resolveField dataset f conds = some c) :
    ∀ g, eqPredField c = some g → g = f := by
  match conds with
  | [] => cases h
  | [e] =>
    rw [resolveField] at h
    simp only [Option.some.injEq] at h
    subst h
    exact (hc e (List.mem_cons_self e [])).1
  | e1 :: e2 :: rest =>
    rw [resolveField] at h
    split_ifs at h with h1 h2 h3 h4 h5 h6
    · simp only [Option.some.injEq] at h
      subst h
      intro g hg
      have hfe : f = "Fuel_Type_" := by
        have := (Bool.and_eq_true _ _ |>.mp h1).1
        simpa using this
      have he : eqPredField "Fuel_Type_ = 'ELEC'" = some "Fuel_Type_" := rfl
      rw [he, Option.some.injEq] at hg
      exact hg.symm.trans hfe.symm
    · simp only [Option.some.injEq] at h
      subst h
      intro g hg
      rcases Bool.or_eq_true _ _ |>.mp h2 with hev | hev
      · have hf2 : f = "EV_Level2_" := by simpa using hev
        subst hf2
        have : eqPredField ("EV_Level2_" ++ " > 0") = none := rfl
        rw [this] at hg
        cases hg
      · have hf2 : f = "EV_DC_Fast" := by simpa using hev
        subst hf2
        have : eqPredField ("EV_DC_Fast" ++ " > 0") = none := rfl
        rw [this] at hg
        cases hg
    · simp only [Option.some.injEq] at h
      subst h
      intro g hg
      have hfe : f = "OutletPosition" := by simpa using h3
      have he : eqPredField "OutletPosition = 'Top'" = some "OutletPosition" := rfl
      rw [he, Option.some.injEq] at hg
      exact hg.symm.trans hfe.symm
    · simp only [Option.some.injEq] at h
      subst h
      exact (hc e1 (List.mem_cons_self _ _)).1
    · simp only [Option.some.injEq] at h
      subst h
      intro g hg
      have hfe : f = "Groups_Wit" := by simpa using h5
      have he : eqPredField "Groups_Wit = 'Public'" = some "Groups_Wit" := rfl
      rw [he, Option.some.injEq] at hg
      exact hg.symm.trans hfe.symm
    · simp only [Option.some.injEq] at h
      subst h
      exact (hc e1 (List.mem_cons_self _ _)).1
    · split at h
      · rename_i u hu
        simp only [Option.some.injEq] at h
        subst h
        have : u ∈ e1 :: e2 :: rest := mem_dedupKeepFirst (hu ▸ List.mem_singleton.mpr rfl)
        exact (hc u this).1
      · rename_i us hus
        simp only [Option.some.injEq] at h
        subst h
        intro g hg
        rcases hdd : dedupKeepFirst (e1 :: e2 :: rest) with _ | ⟨u1, _ | ⟨u2, t⟩⟩
        · exact absurd hdd (dedupKeepFirst_ne_nil (List.cons_ne_nil _ _))
        · exact absurd hdd (hus u1)
        · have hall : ∀ u ∈ u1 :: u2 :: t, hasSepEq u.data = true := by
            intro u hu2
            exact (hc u (mem_dedupKeepFirst (hdd ▸ hu2))).2
          rw [hdd, eqPredField_join_none _ (by simp) hall] at hg
          cases hg

theorem resolved_nodup (dataset : String) :
    ∀ (fc : List (String × List String)), fcInv fc →
      (List.filterMap eqPredField
        (fc.filterMap (fun p => resolveField dataset p.1 p.2))).Nodup
  | [], _ => List.nodup_nil
  | p :: t, hinv => by
    obtain ⟨hnd, hel⟩ := hinv
    simp only [List.map_cons, List.nodup_cons] at hnd
    have hinvt : fcInv t := ⟨hnd.2, fun q hq => hel q (List.mem_cons_of_mem _ hq)⟩
    rw [List.filterMap_cons]
    cases hr : resolveField dataset p.1 p.2 with
    | none => exact resolved_nodup dataset t hinvt
    | some c =>
      rw [List.filterMap_cons]
      cases he : eqPredField c with
      | none => exact resolved_nodup dataset t hinvt
      | some g =>
        rw [List.nodup_cons]
        refine ⟨?_, resolved_nodup dataset t hinvt⟩
        intro hgmem
        obtain ⟨c2, hc2, he2⟩ := List.mem_filterMap.mp hgmem
        obtain ⟨q, hq, hrq⟩ := List.mem_filterMap.mp hc2
        have h1 : g = p.1 :=
          resolveField_inv (fun e hee => (hel p (List.mem_cons_self p t)).2 e hee) hr g he
        have h2 : g = q.1 :=
          resolveField_inv (fun e hee => (hel q (List.mem_cons_of_mem _ hq)).2 e hee)
            hrq g he2
        exact hnd.1 (h1 ▸ h2 ▸ List.mem_map_of_mem Prod.fst hq)

theorem build_nodup (entities : List (String × List String)) (dataset : String) :
    (List.filterMap eqPredField
      (build_where_conditions_spacy entities [] dataset)).Nodup := by
  have hres := resolved_nodup dataset _ (buildFieldConds_inv entities dataset)
  have hbw : build_where_conditions_spacy entities [] dataset =
      (if pyStartsWith dataset "ev_charging" &&
          !(((buildFieldConds entities dataset).filterMap
              (fun p => resolveField dataset p.1 p.2)).any
            (fun c => containsSub "Fuel_Type_" c)) then
        ((buildFieldConds entities dataset).filterMap
          (fun p => resolveField dataset p.1 p.2)) ++ ["Fuel_Type_ = 'ELEC'"]
      else
        (buildFieldConds entities dataset).filterMap
          (fun p => resolveField dataset p.1 p.2)) := rfl
  rw [hbw]
  split_ifs with hft
  · have hone : List.filterMap eqPredField ["Fuel_Type_ = 'ELEC'"] = ["Fuel_Type_"] := rfl
    rw [List.filterMap_append, hone, List.nodup_append]
    refine ⟨hres, List.nodup_singleton _, ?_⟩
    intro x hx hx2
    rw [List.mem_singleton] at hx2
    subst hx2
    obtain ⟨c, hcres, hec⟩ := List.mem_filterMap.mp hx
    have hcontains := eqPredField_some_contains hec
    have hany : (((buildFieldConds entities dataset).filterMap
        (fun p => resolveField dataset p.1 p.2)).any
          (fun c => containsSub "Fuel_Type_" c)) = true :=
      List.any_eq_true.mpr ⟨c, hcres, hcontains⟩
    have := (Bool.and_eq_true _ _ |>.mp hft).2
    rw [hany] at this
    cases this
  · exact hres

/-- Claim C1, amended: restricted to entity-derived conditions (no numeric
conditions appended), the WHERE-condition list of
`_build_where_conditions_spacy` never contains two simple equality
predicates on the same field, even after the duplicate-removal pass of
`parse_query`: per-field multiplicity is resolved to a single value, a
`> 0` / positional override, or a parenthesised OR, and the default
`Fuel_Type_` filter is only appended when no condition mentions that
field. -/
theorem C1_amended (entities : List (String × List String)) (dataset : String) :
    (List.filterMap eqPredField
      (dedupKeepFirst (build_where_conditions_spacy entities [] dataset))).Nodup :=
  List.Nodup.sublist ((dedupKeepFirst_sublist _).filterMap eqPredField)
    (build_nodup entities dataset)

/-- Claim C1, counterexample: the appended numeric conditions bypass the
same-field conflict resolution.  The document "show stations with exactly
3 ports and exactly 5 chargers" yields two `=` conditions whose hints both
map to `EV_DC_Fast`, and the final WHERE clause conjoins the contradictory
equality predicates `EV_DC_Fast = 3.0 AND EV_DC_Fast = 5.0`, refuting the
claimed invariant. -/
theorem C1_counterexample :
    extract_conditions_spacy twoCondsDoc "ev_charging" =
      [⟨"=", 3, ["stations", "ports"]⟩, ⟨"=", 5, ["ports", "chargers"]⟩] ∧
    build_where_conditions_spacy (extract_entities_spacy twoCondsDoc "ev_charging")
        (extract_conditions_spacy twoCondsDoc "ev_charging") "ev_charging" =
      ["Fuel_Type_ = 'ELEC'", "EV_DC_Fast = 3.0", "EV_DC_Fast = 5.0"] ∧
    whereClauseFor (extract_entities_spacy twoCondsDoc "ev_charging")
        (extract_conditions_spacy twoCondsDoc "ev_charging") "ev_charging" =
      "Fuel_Type_ = 'ELEC' AND EV_DC_Fast = 3.0 AND EV_DC_Fast = 5.0" ∧
    eqPredField "EV_DC_Fast = 3.0" = some "EV_DC_Fast" ∧
    eqPredField "EV_DC_Fast = 5.0" = some "EV_DC_Fast" ∧
    "EV_DC_Fast = 3.0" ≠ "EV_DC_Fast = 5.0" :=
  ⟨rfl, rfl, rfl, rfl, rfl, by decide⟩

/-! ### C4: uniqueness of the EV fuel-type condition -/


theorem containsSub_false_of_not_mem {n h : String} {c : Char} (hc : c ∈ n.data)
    (hh : c ∉ h.data) : containsSub n h = false := by
  rw [← Bool.not_eq_true, containsSub, subStr_iff]
  intro hinf
  exact hh (hinf.subset hc)

theorem mem_dedupFold : ∀ (l acc : List String) (x : String), x ∈ l ∨ x ∈ acc →
    x ∈ l.foldl (fun acc c => if c ∈ acc then acc else acc ++ [c]) acc
  | [], _, x, h => h.resolve_left (by simp)
  | c :: t, acc, x, h => by
    rw [List.foldl_cons]
    rcases h with h | h
    · rcases List.mem_cons.mp h with rfl | h
      · split
        · exact mem_dedupFold t _ x (Or.inr (by assumption))
        · exact mem_dedupFold t _ x (Or.inr (by simp))
      · exact mem_dedupFold t _ x (Or.inl h)
    · split
      · exact mem_dedupFold t _ x (Or.inr h)
      · exact mem_dedupFold t _ x (Or.inr (List.mem_append_left _ h))

theorem mem_dedupKeepFirst_self {x : String} {l : List String} (h : x ∈ l) :
    x ∈ dedupKeepFirst l := mem_dedupFold l [] x (Or.inl h)

theorem countP_dedupKeepFirst_eq_one {l : List String} {p : String → Bool}
    (h : l.countP p = 1) : (dedupKeepFirst l).countP p = 1 := by
  have hle : (dedupKeepFirst l).countP p ≤ 1 :=
    h ▸ (dedupKeepFirst_sublist l).countP_le p
  have hpos : 0 < (dedupKeepFirst l).countP p := by
    have : 0 < l.countP p := by omega
    obtain ⟨a, ha, hpa⟩ := List.countP_pos_iff.mp this
    exact List.countP_pos_iff.mpr ⟨a, mem_dedupKeepFirst_self ha, hpa⟩
  omega

theorem addValueConds_shape (cfg : FieldConfig) (acc : List String) (v : String) :
    addValueConds cfg acc v = acc ∨
    ∃ x, addValueConds cfg acc v = acc ++ [x] ∧ addValueConds cfg [] v = [x] := by
  simp only [addValueConds]
  split_ifs with h1 h2 h3 h4 h5 h6 h7 h8
  · cases hfind : (cfg.values.getD []).find? (fun p => p.1 == v) with
    | none => exact Or.inr ⟨_, rfl, rfl⟩
    | some p =>
      obtain ⟨p1, p2⟩ := p
      cases hvals : cfg.values with
      | none => exact Or.inr ⟨_, rfl, rfl⟩
      | some m =>
        cases p2 with
        | many vs =>
          dsimp only
          by_cases hac : acc.contains (orCombine cfg.field vs) = true
          · left
            rw [if_pos hac]
          · right
            refine ⟨orCombine cfg.field vs, ?_, rfl⟩
            rw [if_neg hac]
        | one mv => exact Or.inr ⟨_, rfl, rfl⟩
  · cases hfind : (cfg.values.getD []).find? (fun p => p.1 == v) with
    | none => exact Or.inl rfl
    | some p =>
      obtain ⟨p1, p2⟩ := p
      cases hvals : cfg.values with
      | none => exact Or.inl rfl
      | some m =>
        cases p2 with
        | many vs =>
          dsimp only
          by_cases hac : acc.contains (orCombine cfg.field vs) = true
          · left
            rw [if_pos hac]
          · right
            refine ⟨orCombine cfg.field vs, ?_, rfl⟩
            rw [if_neg hac]
        | one mv => exact Or.inr ⟨_, rfl, rfl⟩
  · cases hfind : (cfg.values.getD []).find? (fun p => p.1 == v) with
    | none => exact Or.inl rfl
    | some p =>
      obtain ⟨p1, p2⟩ := p
      cases hvals : cfg.values with
      | none => exact Or.inl rfl
      | some m =>
        cases p2 with
        | many vs => exact Or.inl rfl
        | one mv => exact Or.inr ⟨_, rfl, rfl⟩
  · exact Or.inl rfl
  · exact Or.inl rfl
  · exact absurd h7 (by simp)
  · exact Or.inr ⟨_, rfl, rfl⟩
  · cases hcond : cfg.cond with
    | none => exact Or.inl rfl
    | some w =>
      dsimp only
      by_cases hac : acc.contains (cfg.field ++ " " ++ w) = true
      · left
        rw [if_pos hac]
      · right
        refine ⟨cfg.field ++ " " ++ w, ?_, rfl⟩
        rw [if_neg hac]
  · exact Or.inl rfl

theorem foldl_addValueConds_allowed {cfg : FieldConfig} :
    ∀ (vs acc : List String) (e : String),
      (∀ v ∈ vs, ∀ e2 ∈ addValueConds cfg [] v, e2 ∈ evAllowed cfg.field) →
      e ∈ vs.foldl (addValueConds cfg) acc →
      e ∈ acc ∨ e ∈ evAllowed cfg.field
  | [], _, _, _, he => Or.inl he
  | v :: t, acc, e, hv, he => by
    rw [List.foldl_cons] at he
    rcases foldl_addValueConds_allowed t (addValueConds cfg acc v) e
        (fun v2 hv2 => hv v2 (List.mem_cons_of_mem _ hv2)) he with h | h
    · rcases addValueConds_shape cfg acc v with hs | ⟨x, hs, hx⟩
      · exact Or.inl (hs ▸ h)
      · rw [hs] at h
        rcases List.mem_append.mp h with h | h
        · exact Or.inl h
        · rw [List.mem_singleton] at h
          subst h
          exact Or.inr (hv v (List.mem_cons_self _ _) e
            (hx ▸ List.mem_singleton.mpr rfl))
    · exact Or.inr h

theorem evStepOk :
    (((alookup dataset_entities "ev_charging").getD []).all fun ep =>
      match lookupFieldConfig "ev_charging" ep.1 with
      | none => true
      | some cfg =>
        evFields.contains cfg.field &&
          (ep.2.map pyLower).all fun v =>
            (addValueConds cfg [] v).all fun e => (evAllowed cfg.field).contains e) =
      true := by decide

theorem containsSub_false_iff {n h : String} :
    containsSub n h = false ↔ ¬ n.data <:+: h.data := by
  rw [← Bool.not_eq_true, containsSub]
  exact not_congr (subStr_iff _ _)

theorem wfEntitiesB_elim {entities : List (String × List String)}
    (h : wfEntitiesB "ev_charging" entities = true) :
    ∀ et ∈ entities, ∃ phr,
      alookup ((alookup dataset_entities "ev_charging").getD []) et.1 = some phr ∧
      ∀ v ∈ et.2, v ∈ phr.map pyLower := by
  intro et hmem
  rw [wfEntitiesB, List.all_eq_true] at h
  have h1 := h et hmem
  rw [show alookup dataset_entities "ev_charging" =
    some ((alookup dataset_entities "ev_charging").getD []) from rfl] at h1
  dsimp only at h1
  cases hph : alookup ((alookup dataset_entities "ev_charging").getD []) et.1 with
  | none =>
    rw [hph] at h1
    cases h1
  | some phr =>
    rw [hph] at h1
    have h2 : et.2.all (fun v => (phr.map pyLower).contains v) = true := h1
    refine ⟨phr, rfl, ?_⟩
    intro v hv
    have h3 := List.all_eq_true.mp h2 v hv
    simpa using h3

theorem buildStepEV_inv {fc : List (String × List String)} (hfc : fcInvEV fc)
    {et : String × List String}
    (hwf : ∃ phr,
      alookup ((alookup dataset_entities "ev_charging").getD []) et.1 = some phr ∧
      ∀ v ∈ et.2, v ∈ phr.map pyLower) :
    fcInvEV (match lookupFieldConfig "ev_charging" et.1 with
      | none => fc
      | some cfg =>
        let fc2 := if dictHasKey fc cfg.field then fc else fc ++ [(cfg.field, [])]
        dictUpdate fc2 cfg.field (fun acc => et.2.foldl (addValueConds cfg) acc)) := by
  obtain ⟨phr, hphr, hvals⟩ := hwf
  cases hlk : lookupFieldConfig "ev_charging" et.1 with
  | none => exact hfc
  | some cfg =>
    have hmem : (et.1, phr) ∈ (alookup dataset_entities "ev_charging").getD [] :=
      alookup_some_mem hphr
    have hstep := List.all_eq_true.mp evStepOk _ hmem
    dsimp only at hstep
    rw [hlk] at hstep
    have hstep2 : (evFields.contains cfg.field &&
        (phr.map pyLower).all fun v =>
          (addValueConds cfg [] v).all fun e => (evAllowed cfg.field).contains e) =
        true := hstep
    obtain ⟨hfld, hallv⟩ := Bool.and_eq_true _ _ |>.mp hstep2
    have hfldmem : cfg.field ∈ evFields := by simpa using hfld
    have hvOK : ∀ v ∈ et.2, ∀ e2 ∈ addValueConds cfg [] v, e2 ∈ evAllowed cfg.field := by
      intro v hv e2 he2
      have h1 := List.all_eq_true.mp hallv v (hvals v hv)
      have h2 := List.all_eq_true.mp h1 e2 he2
      simpa using h2
    have hfc2 : fcInvEV (if dictHasKey fc cfg.field then fc
        else fc ++ [(cfg.field, [])]) := by
      split
      · exact hfc
      · rename_i hnk
        have hnk2 : dictHasKey fc cfg.field = false := by simpa using hnk
        obtain ⟨hnd, hel⟩ := hfc
        constructor
        · rw [List.map_append, List.nodup_append]
          refine ⟨hnd, List.nodup_singleton _, ?_⟩
          intro x hx hx2
          simp only [List.map_cons, List.map_nil, List.mem_singleton] at hx2
          obtain ⟨q, hq, hq1⟩ := List.mem_map.mp hx
          exact dictHasKey_false hnk2 q hq (hq1.trans hx2)
        · intro p hp
          rcases List.mem_append.mp hp with h | h
          · exact hel p h
          · rw [List.mem_singleton] at h
            subst h
            exact ⟨hfldmem, by simp⟩
    obtain ⟨hnd2, hel2⟩ := hfc2
    constructor
    · rw [dictUpdate_keys]
      exact hnd2
    · intro p hp
      rcases mem_dictUpdate hp with h | ⟨q, hq, hqk, hpq⟩
      · exact hel2 p h
      · subst hpq
        refine ⟨(hel2 q hq).1, ?_⟩
        intro e he
        rcases foldl_addValueConds_allowed et.2 q.2 e hvOK he with h | h
        · exact (hel2 q hq).2 e h
        · rw [hqk]
          exact h

theorem buildFoldEVAux_inv :
    ∀ (entities : List (String × List String)) (fc0 : List (String × List String)),
      (∀ et ∈ entities, ∃ phr,
        alookup ((alookup dataset_entities "ev_charging").getD []) et.1 = some phr ∧
        ∀ v ∈ et.2, v ∈ phr.map pyLower) →
      fcInvEV fc0 →
      fcInvEV (entities.foldl
        (fun fc et =>
          match lookupFieldConfig "ev_charging" et.1 with
          | none => fc
          | some cfg =>
            let fc2 := if dictHasKey fc cfg.field then fc else fc ++ [(cfg.field, [])]
            dictUpdate fc2 cfg.field (fun acc => et.2.foldl (addValueConds cfg) acc)) fc0)
  | [], _, _, h0 => h0
  | et :: t, fc0, hwf, h0 => by
    rw [List.foldl_cons]
    exact buildFoldEVAux_inv t _
      (fun q hq => hwf q (List.mem_cons_of_mem _ hq))
      (buildStepEV_inv h0 (hwf et (List.mem_cons_self _ _)))

theorem buildFieldCondsEV_inv {entities : List (String × List String)}
    (h : wfEntitiesB "ev_charging" entities = true) :
    fcInvEV (buildFieldConds entities "ev_charging") := by
  rw [buildFieldConds]
  exact buildFoldEVAux_inv entities [] (wfEntitiesB_elim h) ⟨List.nodup_nil, by simp⟩

theorem resolveField_ev_contains {f : String} {conds : List String} {c : String}
    (hf : f ∈ evFields) (hall : ∀ e ∈ conds, e ∈ evAllowed f)
    (h : resolveField "ev_charging" f conds = some c) :
    containsSub "Fuel_Type_" c = (f == "Fuel_Type_") := by
  have hdec : ∀ (g : String), g ∈ evFields →
      ∀ x ∈ evAllowed g, containsSub "Fuel_Type_" x = (g == "Fuel_Type_") := by decide
  fin_cases hf
  · -- Fuel_Type_
    match conds, h with
    | [e], h =>
      rw [resolveField] at h
      simp only [Option.some.injEq] at h
      subst h
      exact hdec _ (by decide) e (hall e (List.mem_cons_self _ _))
    | e1 :: e2 :: rest, h =>
      rw [resolveField, if_pos (by decide)] at h
      simp only [Option.some.injEq] at h
      subst h
      decide
  · -- EV_Network
    match conds, h with
    | [e], h =>
      rw [resolveField] at h
      simp only [Option.some.injEq] at h
      subst h
      exact hdec _ (by decide) e (hall e (List.mem_cons_self _ _))
    | e1 :: e2 :: rest, h =>
      rw [resolveField, if_neg (by decide), if_neg (by decide), if_neg (by decide),
        if_neg (by decide)] at h
      split at h
      · rename_i u hu
        simp only [Option.some.injEq] at h
        subst h
        exact hdec _ (by decide) u
          (hall u (mem_dedupKeepFirst (hu ▸ List.mem_singleton.mpr rfl)))
      · rename_i us hus
        simp only [Option.some.injEq] at h
        subst h
        rcases hdd : dedupKeepFirst (e1 :: e2 :: rest) with _ | ⟨u1, _ | ⟨u2, t⟩⟩
        · exact absurd hdd (dedupKeepFirst_ne_nil (List.cons_ne_nil _ _))
        · exact absurd hdd (hus u1)
        · rw [show (("EV_Network" : String) == "Fuel_Type_") = false from rfl]
          rw [containsSub_false_iff]
          refine join_not_infix (by decide) (by decide) (by decide) (by decide)
            (by decide) (by decide) (u1 :: u2 :: t) ?_
          intro u hu2
          have hx := hdec _ (by decide : ("EV_Network" : String) ∈ evFields) u
            (hall u (mem_dedupKeepFirst (hdd ▸ hu2)))
          rw [show (("EV_Network" : String) == "Fuel_Type_") = false from rfl] at hx
          exact containsSub_false_iff.mp hx
  · -- Groups_Wit
    match conds, h with
    | [e], h =>
      rw [resolveField] at h
      simp only [Option.some.injEq] at h
      subst h
      exact hdec _ (by decide) e (hall e (List.mem_cons_self _ _))
    | e1 :: e2 :: rest, h =>
      rw [resolveField, if_neg (by decide), if_neg (by decide), if_neg (by decide),
        if_pos (by decide)] at h
      split at h
      · simp only [Option.some.injEq] at h
        subst h
        decide
      · simp only [Option.some.injEq] at h
        subst h
        exact hdec _ (by decide) e1 (hall e1 (List.mem_cons_self _ _))
  · -- Status_Cod
    match conds, h with
    | [e], h =>
      rw [resolveField] at h
      simp only [Option.some.injEq] at h
      subst h
      exact hdec _ (by decide) e (hall e (List.mem_cons_self _ _))
    | e1 :: e2 :: rest, h =>
      rw [resolveField, if_neg (by decide), if_neg (by decide), if_neg (by decide),
        if_neg (by decide)] at h
      split at h
      · rename_i u hu
        simp only [Option.some.injEq] at h
        subst h
        exact hdec _ (by decide) u
          (hall u (mem_dedupKeepFirst (hu ▸ List.mem_singleton.mpr rfl)))
      · rename_i us hus
        simp only [Option.some.injEq] at h
        subst h
        rcases hdd : dedupKeepFirst (e1 :: e2 :: rest) with _ | ⟨u1, _ | ⟨u2, t⟩⟩
        · exact absurd hdd (dedupKeepFirst_ne_nil (List.cons_ne_nil _ _))
        · exact absurd hdd (hus u1)
        · rw [show (("Status_Cod" : String) == "Fuel_Type_") = false from rfl]
          rw [containsSub_false_iff]
          refine join_not_infix (by decide) (by decide) (by decide) (by decide)
            (by decide) (by decide) (u1 :: u2 :: t) ?_
          intro u hu2
          have hx := hdec _ (by decide : ("Status_Cod" : String) ∈ evFields) u
            (hall u (mem_dedupKeepFirst (hdd ▸ hu2)))
          rw [show (("Status_Cod" : String) == "Fuel_Type_") = false from rfl] at hx
          exact containsSub_false_iff.mp hx

theorem resolvedEV_countP_le :
    ∀ (fc : List (String × List String)), fcInvEV fc →
      (fc.filterMap (fun p => resolveField "ev_charging" p.1 p.2)).countP
        (fun c => containsSub "Fuel_Type_" c) ≤ 1
  | [], _ => by simp
  | p :: t, hinv => by
    obtain ⟨hnd, hel⟩ := hinv
    simp only [List.map_cons, List.nodup_cons] at hnd
    have hinvt : fcInvEV t := ⟨hnd.2, fun q hq => hel q (List.mem_cons_of_mem _ hq)⟩
    rw [List.filterMap_cons]
    cases hr : resolveField "ev_charging" p.1 p.2 with
    | none => exact resolvedEV_countP_le t hinvt
    | some c =>
      rw [List.countP_cons]
      by_cases hp1 : p.1 = "Fuel_Type_"
      · have hzero : (t.filterMap
            (fun q => resolveField "ev_charging" q.1 q.2)).countP
              (fun c => containsSub "Fuel_Type_" c) = 0 := by
          rw [List.countP_eq_zero]
          intro c2 hc2
          obtain ⟨q, hq, hrq⟩ := List.mem_filterMap.mp hc2
          have hq1 : ¬ q.1 = "Fuel_Type_" := by
            intro he
            exact hnd.1 (by
              rw [hp1, ← he]
              exact List.mem_map_of_mem Prod.fst hq)
          have hcq := resolveField_ev_contains (hel q (List.mem_cons_of_mem _ hq)).1
            (hel q (List.mem_cons_of_mem _ hq)).2 hrq
          simp only [hcq]
          simpa using hq1
        rw [hzero]
        split <;> omega
      · have hcq := resolveField_ev_contains (hel p (List.mem_cons_self _ _)).1
          (hel p (List.mem_cons_self _ _)).2 hr
        have hfalse : containsSub "Fuel_Type_" c = false := by
          rw [hcq]
          simpa using hp1
        rw [if_neg (by rw [hfalse]; simp)]
        have := resolvedEV_countP_le t hinvt
        omega

theorem map_field_hints_ev {hints : List String} {f : String}
    (h : map_field_hints hints "ev_charging" = some f) :
    f = "EV_DC_Fast" ∨ f = "EV_Level2_" := by
  rw [map_field_hints,
    show alookup hint_mappings "ev_charging" =
      some [("ports", "EV_DC_Fast"), ("chargers", "EV_DC_Fast"),
            ("stations", "EV_DC_Fast"), ("level", "EV_Level2_"),
            ("power", "EV_DC_Fast")] from rfl] at h
  obtain ⟨a, ha, hfa⟩ := List.exists_of_findSome?_eq_some h
  have hmem := alookup_some_mem hfa
  simp only [List.mem_cons, List.not_mem_nil, or_false] at hmem
  rcases hmem with h1 | h1 | h1 | h1 | h1
  · exact Or.inl (congrArg Prod.snd h1)
  · exact Or.inl (congrArg Prod.snd h1)
  · exact Or.inl (congrArg Prod.snd h1)
  · exact Or.inr (congrArg Prod.snd h1)
  · exact Or.inl (congrArg Prod.snd h1)

theorem append_no_ft {cond : NumCond} {f : String} (hop : cond.op ∈ condOps)
    (hf : map_field_hints cond.fieldHints "ev_charging" = some f) :
    containsSub "Fuel_Type_"
      (f ++ " " ++ cond.op ++ " " ++ pyFloatStr cond.value) = false := by
  refine containsSub_false_of_not_mem (c := 'y') (by decide) ?_
  simp only [String.data_append, List.mem_append]
  rintro ((((hy | hy) | hy) | hy) | hy)
  · rcases map_field_hints_ev hf with rfl | rfl
    · exact absurd hy (by decide)
    · exact absurd hy (by decide)
  · exact absurd hy (by decide)
  · simp only [condOps, List.mem_cons, List.not_mem_nil, or_false] at hop
    rcases hop with h1 | h1 | h1 | h1 <;> rw [h1] at hy <;> exact absurd hy (by decide)
  · exact absurd hy (by decide)
  · rcases pyFloatStr_chars cond.value 'y' hy with h1 | h1 | h1
    · exact absurd h1 (by decide)
    · exact absurd h1 (by decide)
    · exact absurd h1 (by decide)

theorem condFold_eq (dataset : String) :
    ∀ (conds : List NumCond) (init : List String),
      conds.foldl
        (fun acc cond =>
          match map_field_hints cond.fieldHints dataset with
          | some f => acc ++ [f ++ " " ++ cond.op ++ " " ++ pyFloatStr cond.value]
          | none => acc) init =
      init ++ conds.filterMap (fun cond =>
        (map_field_hints cond.fieldHints dataset).map
          (fun f => f ++ " " ++ cond.op ++ " " ++ pyFloatStr cond.value))
  | [], init => by simp
  | cond :: t, init => by
    rw [List.foldl_cons, List.filterMap_cons]
    cases h : map_field_hints cond.fieldHints dataset with
    | none =>
      simp only [h, Option.map_none']
      exact condFold_eq dataset t init
    | some f =>
      simp only [h, Option.map_some']
      rw [condFold_eq dataset t
        (init ++ [f ++ " " ++ cond.op ++ " " ++ pyFloatStr cond.value])]
      simp [List.append_assoc]

theorem alookup_eq_none {α : Type} {l : List (String × α)} {k : String}
    (h : ∀ p ∈ l, p.1 ≠ k) : alookup l k = none := by
  rw [alookup, List.find?_eq_none.mpr]
  · rfl
  · intro p hp
    simpa using h p hp

theorem ev_other_field {dataset : String} (hds : pyStartsWith dataset "ev_charging" = true)
    (hne : dataset ≠ "ev_charging") : alookup field_mappings dataset = none := by
  refine alookup_eq_none ?_
  intro p hp h1
  subst h1
  fin_cases hp
  · exact hne rfl
  · exact absurd hds (by decide)
  · exact absurd hds (by decide)
  · exact absurd hds (by decide)
  · exact absurd hds (by decide)
  · exact absurd hds (by decide)

theorem ev_other_hint {dataset : String} (hds : pyStartsWith dataset "ev_charging" = true)
    (hne : dataset ≠ "ev_charging") : alookup hint_mappings dataset = none := by
  refine alookup_eq_none ?_
  intro p hp h1
  subst h1
  fin_cases hp
  · exact hne rfl
  · exact absurd hds (by decide)
  · exact absurd hds (by decide)

theorem foldl_id_of_none {dataset : String} (h : alookup field_mappings dataset = none) :
    ∀ (entities : List (String × List String)) (fc0 : List (String × List String)),
      entities.foldl
        (fun fc et =>
          match lookupFieldConfig dataset et.1 with
          | none => fc
          | some cfg =>
            let fc2 := if dictHasKey fc cfg.field then fc else fc ++ [(cfg.field, [])]
            dictUpdate fc2 cfg.field (fun acc => et.2.foldl (addValueConds cfg) acc)) fc0 =
        fc0
  | [], _ => rfl
  | et :: t, fc0 => by
    rw [List.foldl_cons,
      show lookupFieldConfig dataset et.1 = none from by rw [lookupFieldConfig, h]]
    exact foldl_id_of_none h t fc0

theorem condFold_none {dataset : String} (h : alookup hint_mappings dataset = none) :
    ∀ (conds : List NumCond) (init : List String),
      conds.foldl
        (fun acc cond =>
          match map_field_hints cond.fieldHints dataset with
          | some f => acc ++ [f ++ " " ++ cond.op ++ " " ++ pyFloatStr cond.value]
          | none => acc) init = init
  | [], _ => rfl
  | cond :: t, init => by
    rw [List.foldl_cons,
      show map_field_hints cond.fieldHints dataset = none from by rw [map_field_hints, h]]
    exact condFold_none h t init

theorem opsOkB_elim {conds : List NumCond} (h : opsOkB conds = true) :
    ∀ c ∈ conds, c.op ∈ condOps := by
  rw [opsOkB, List.all_eq_true] at h
  intro c hc
  simpa using h c hc

/-- Claim C4: for every EV-charging dataset id, vocabulary-derived
entities and extractor-shaped numeric conditions, the builder's WHERE
condition list — both as built and after `parse_query`'s duplicate
removal — contains exactly one condition mentioning `Fuel_Type_`: the
default `Fuel_Type_ = 'ELEC'` is appended exactly when no entity-derived
condition already targets that field, and no second `Fuel_Type_`
predicate ever appears. -/
theorem C4_ev_default_unique :
    ∀ (dataset : String) (entities : List (String × List String)) (conds : List NumCond),
      pyStartsWith dataset "ev_charging" = true →
      wfEntitiesB dataset entities = true →
      opsOkB conds = true →
      (build_where_conditions_spacy entities conds dataset).countP
          (fun c => containsSub "Fuel_Type_" c) = 1 ∧
      (dedupKeepFirst (build_where_conditions_spacy entities conds dataset)).countP
          (fun c => containsSub "Fuel_Type_" c) = 1 := by
  intro dataset entities conds hds hwf hops
  have hbw : build_where_conditions_spacy entities conds dataset =
      conds.foldl
        (fun acc cond =>
          match map_field_hints cond.fieldHints dataset with
          | some f => acc ++ [f ++ " " ++ cond.op ++ " " ++ pyFloatStr cond.value]
          | none => acc)
        (if pyStartsWith dataset "ev_charging" &&
            !(((buildFieldConds entities dataset).filterMap
                (fun p => resolveField dataset p.1 p.2)).any
              (fun c => containsSub "Fuel_Type_" c)) then
          ((buildFieldConds entities dataset).filterMap
            (fun p => resolveField dataset p.1 p.2)) ++ ["Fuel_Type_ = 'ELEC'"]
        else
          (buildFieldConds entities dataset).filterMap
            (fun p => resolveField dataset p.1 p.2)) := rfl
  by_cases hne : dataset = "ev_charging"
  · subst hne
    have hinv := buildFieldCondsEV_inv hwf
    have hle := resolvedEV_countP_le _ hinv
    have hwd : (if pyStartsWith "ev_charging" "ev_charging" &&
          !(((buildFieldConds entities "ev_charging").filterMap
              (fun p => resolveField "ev_charging" p.1 p.2)).any
            (fun c => containsSub "Fuel_Type_" c)) then
          ((buildFieldConds entities "ev_charging").filterMap
            (fun p => resolveField "ev_charging" p.1 p.2)) ++ ["Fuel_Type_ = 'ELEC'"]
        else
          (buildFieldConds entities "ev_charging").filterMap
            (fun p => resolveField "ev_charging" p.1 p.2)).countP
        (fun c => containsSub "Fuel_Type_" c) = 1 := by
      cases hany : ((buildFieldConds entities "ev_charging").filterMap
          (fun p => resolveField "ev_charging" p.1 p.2)).any
            (fun c => containsSub "Fuel_Type_" c) with
      | false =>
        rw [if_pos (by decide), List.countP_append,
          List.countP_eq_zero.mpr (by
            intro a ha
            simpa using List.any_eq_false.mp hany a ha)]
        decide
      | true =>
        rw [if_neg (by decide)]
        obtain ⟨a, ha, hpa⟩ := List.any_eq_true.mp hany
        have hpos := List.countP_pos_iff.mpr ⟨a, ha, hpa⟩
        exact Nat.le_antisymm hle hpos
    have happ : (conds.filterMap (fun cond =>
        (map_field_hints cond.fieldHints "ev_charging").map
          (fun f => f ++ " " ++ cond.op ++ " " ++ pyFloatStr cond.value))).countP
        (fun c => containsSub "Fuel_Type_" c) = 0 := by
      rw [List.countP_eq_zero]
      intro a ha
      obtain ⟨cond, hcond, hmap⟩ := List.mem_filterMap.mp ha
      cases hm : map_field_hints cond.fieldHints "ev_charging" with
      | none =>
        rw [hm] at hmap
        cases hmap
      | some f =>
        rw [hm] at hmap
        simp only [Option.map_some', Option.some.injEq] at hmap
        subst hmap
        simp [append_no_ft (opsOkB_elim hops cond hcond) hm]
    have h1 : (build_where_conditions_spacy entities conds "ev_charging").countP
        (fun c => containsSub "Fuel_Type_" c) = 1 := by
      rw [hbw, condFold_eq, List.countP_append, hwd, happ]
    exact ⟨h1, countP_dedupKeepFirst_eq_one h1⟩
  · have hfm := ev_other_field hds hne
    have hhm := ev_other_hint hds hne
    have hbf : buildFieldConds entities dataset = [] := by
      rw [buildFieldConds]
      exact foldl_id_of_none hfm entities []
    have h1 : build_where_conditions_spacy entities conds dataset =
        ["Fuel_Type_ = 'ELEC'"] := by
      rw [hbw, condFold_none hhm, hbf]
      simp [hds]
    have h2 : (build_where_conditions_spacy entities conds dataset).countP
        (fun c => containsSub "Fuel_Type_" c) = 1 := by
      rw [h1]
      decide
    exact ⟨h2, countP_dedupKeepFirst_eq_one h2⟩

/-- Witness for `C4_ev_default_unique`: a public-access EV query with no
numeric conditions yields exactly one `Fuel_Type_` condition. -/
theorem C4_ev_default_unique_witness :
    (dedupKeepFirst (build_where_conditions_spacy [("ACCESS_TYPE", ["public"])] []
        "ev_charging")).countP (fun c => containsSub "Fuel_Type_" c) = 1 :=
  (C4_ev_default_unique "ev_charging" [("ACCESS_TYPE", ["public"])] [] (by decide) (by decide)
    (by decide)).2

/-! ### C6: distance extraction with explicit units -/


theorem digitRunB_elim {l : List Char} (h : digitRunB l = true) :
    l ≠ [] ∧ ∀ c ∈ l, c.isDigit = true := by
  rw [digitRunB, Bool.and_eq_true] at h
  constructor
  · intro hnil
    rw [hnil] at h
    simp at h
  · intro c hc
    have := List.all_eq_true.mp h.2 c hc
    simpa using this

theorem numLit_chars {ip : List Char} {fr : Option (List Char)}
    (hip : digitRunB ip = true) (hfr : ∀ f, fr = some f → digitRunB f = true) :
    ∀ c ∈ numLitChars ip fr, c.isDigit = true ∨ c = '.' := by
  intro c hc
  cases frv : fr with
  | none =>
    have he : numLitChars ip none = ip ++ [] := rfl
    rw [List.append_nil] at he
    rw [frv, he] at hc
    exact Or.inl ((digitRunB_elim hip).2 c hc)
  | some f =>
    have he : numLitChars ip (some f) = ip ++ '.' :: f := rfl
    rw [frv, he] at hc
    rcases List.mem_append.mp hc with h | h
    · exact Or.inl ((digitRunB_elim hip).2 c h)
    · rcases List.mem_cons.mp h with rfl | h
      · exact Or.inr rfl
      · exact Or.inl ((digitRunB_elim (hfr f frv)).2 c h)

theorem takeWhile_all_append {p : Char → Bool} :
    ∀ (l l2 : List Char), (∀ a ∈ l, p a = true) →
      (l ++ l2).takeWhile p = l ++ l2.takeWhile p
  | [], _, _ => rfl
  | c :: t, l2, h => by
    simp only [List.cons_append, List.takeWhile_cons, h c (List.mem_cons_self _ _),
      if_true]
    rw [takeWhile_all_append t l2 (fun a ha => h a (List.mem_cons_of_mem _ ha))]

theorem dropWhile_all_append {p : Char → Bool} :
    ∀ (l l2 : List Char), (∀ a ∈ l, p a = true) →
      (l ++ l2).dropWhile p = l2.dropWhile p
  | [], _, _ => rfl
  | c :: t, l2, h => by
    simp only [List.cons_append, List.dropWhile_cons, h c (List.mem_cons_self _ _),
      if_true]
    exact dropWhile_all_append t l2 (fun a ha => h a (List.mem_cons_of_mem _ ha))

theorem parseNumAt_digits_append {ds : List Char} (hne : ds ≠ [])
    (hds : ∀ c ∈ ds, c.isDigit = true) {c0 : Char} (hc0 : c0.isDigit = false)
    (hdot : c0 ≠ '.') (rest : List Char) :
    parseNumAt (ds ++ c0 :: rest) = some ((digitsToNat ds : ℚ), c0 :: rest) := by
  rw [parseNumAt]
  have hspan : (ds ++ c0 :: rest).span Char.isDigit = (ds, c0 :: rest) := by
    rw [List.span_eq_take_drop, takeWhile_all_append _ _ hds,
      dropWhile_all_append _ _ hds]
    simp [List.takeWhile_cons, List.dropWhile_cons, hc0]
  rw [hspan]
  simp only []
  rw [if_neg (by simpa using hne)]
  split
  · rename_i r2 heq
    injection heq with h1 _
    exact absurd h1 hdot
  · rfl

theorem parseNumAt_dec_append {ds fs : List Char} (hdne : ds ≠ [])
    (hds : ∀ c ∈ ds, c.isDigit = true) (hfne : fs ≠ [])
    (hfs : ∀ c ∈ fs, c.isDigit = true) {c0 : Char} (hc0 : c0.isDigit = false)
    (rest : List Char) :
    parseNumAt (ds ++ '.' :: (fs ++ c0 :: rest)) =
      some (decValue ds fs, c0 :: rest) := by
  rw [parseNumAt]
  have hspan : (ds ++ '.' :: (fs ++ c0 :: rest)).span Char.isDigit =
      (ds, '.' :: (fs ++ c0 :: rest)) := by
    rw [List.span_eq_take_drop, takeWhile_all_append _ _ hds,
      dropWhile_all_append _ _ hds]
    simp [List.takeWhile_cons, List.dropWhile_cons]
  rw [hspan]
  simp only []
  rw [if_neg (by simpa using hdne)]
  have hspan2 : (fs ++ c0 :: rest).span Char.isDigit = (fs, c0 :: rest) := by
    rw [List.span_eq_take_drop, takeWhile_all_append _ _ hfs,
      dropWhile_all_append _ _ hfs]
    simp [List.takeWhile_cons, List.dropWhile_cons, hc0]
  rw [hspan2]
  simp only []
  rw [if_neg (by simpa using hfne)]

theorem suffix_append_cases {t a b : List Char} (h : t <:+ a ++ b) :
    t <:+ b ∨ ∃ a2, a2 <:+ a ∧ a2 ≠ [] ∧ t = a2 ++ b := by
  induction a with
  | nil => exact Or.inl (by simpa using h)
  | cons c a2 ih =>
    rw [List.cons_append, List.suffix_cons_iff] at h
    rcases h with rfl | h
    · exact Or.inr ⟨c :: a2, List.suffix_refl _, List.cons_ne_nil _ _, rfl⟩
    · rcases ih h with h2 | ⟨a3, ha3, hne, rfl⟩
      · exact Or.inl h2
      · exact Or.inr ⟨a3, ha3.trans (List.suffix_cons c a2), hne, rfl⟩

theorem parse_at_suffix {pre post unit0 ip : List Char} {fr : Option (List Char)}
    (hip : digitRunB ip = true) (hfr : ∀ f, fr = some f → digitRunB f = true)
    (hpre : ∀ c ∈ pre, c.isDigit = false) (hpost : ∀ c ∈ post, c.isDigit = false)
    (hu0 : ∀ c ∈ unit0, c.isDigit = false)
    {t : List Char}
    (ht : t <:+ pre ++ (numLitChars ip fr ++ (' ' :: (unit0 ++ post))))
    {x : ℚ} {r : List Char} (hp : parseNumAt t = some (x, r)) :
    r = ' ' :: (unit0 ++ post) ∧
    ∃ nlpre nl2, numLitChars ip fr = nlpre ++ nl2 ∧ nl2 ≠ [] ∧
      t = nl2 ++ (' ' :: (unit0 ++ post)) ∧
      (nlpre = [] → x = decValOf ip fr) := by
  obtain ⟨hipne, hipd⟩ := digitRunB_elim hip
  rcases suffix_append_cases ht with ht1 | ⟨pre2, hpre2, hpne, rfl⟩
  · -- inside numlit ++ rest
    rcases suffix_append_cases ht1 with ht2 | ⟨nl2, hnl2, hnlne, rfl⟩
    · -- inside the rest: every character is a non-digit, so no parse
      exfalso
      have hnd : ∀ c ∈ t, c.isDigit = false := by
        intro c hc
        have hc2 := ht2.mem hc
        rcases List.mem_cons.mp hc2 with rfl | hc3
        · rfl
        · rcases List.mem_append.mp hc3 with h | h
          · exact hu0 c h
          · exact hpost c h
      rw [parseNumAt_none_of_noDigit hnd] at hp
      cases hp
    · -- at a non-empty suffix of the numeric literal
      refine ?_
      cases frv : fr with
      | none =>
        have he : numLitChars ip none = ip ++ [] := rfl
        rw [List.append_nil] at he
        rw [frv] at hnl2
        rw [he] at hnl2 ⊢
        obtain ⟨ippre, hipeq⟩ := hnl2
        have hnl2d : ∀ c ∈ nl2, c.isDigit = true := by
          intro c hc
          exact hipd c (hipeq ▸ List.mem_append_right ippre hc)
        rw [parseNumAt_digits_append hnlne hnl2d (by decide) (by decide) _] at hp
        simp only [Option.some.injEq, Prod.mk.injEq] at hp
        refine ⟨hp.2.symm, ippre, nl2, hipeq.symm, hnlne, rfl, ?_⟩
        intro hpre0
        rw [hpre0, List.nil_append] at hipeq
        rw [← hp.1, show decValOf ip none = ((digitsToNat ip : ℚ)) from rfl, hipeq]
      | some f =>
        obtain ⟨hfne, hfd⟩ := digitRunB_elim (hfr f frv)
        have he : numLitChars ip (some f) = ip ++ '.' :: f := rfl
        rw [frv] at hnl2
        rw [he] at hnl2 ⊢
        rcases suffix_append_cases hnl2 with hin | ⟨ip2, hip2, hipne2, rfl⟩
        · -- suffix of '.' :: f
          rcases List.suffix_cons_iff.mp hin with rfl | hinf
          · -- nl2 = '.' :: f : parse fails on '.')
            exfalso
            have : parseNumAt (('.' :: f) ++ (' ' :: (unit0 ++ post))) = none := by
              rw [List.cons_append]
              exact parseNumAt_none_cons (by decide)
            rw [this] at hp
            cases hp
          · -- nl2 a suffix of the fractional digits
            obtain ⟨fpre, hfeq⟩ := hinf
            have hnl2d : ∀ c ∈ nl2, c.isDigit = true := by
              intro c hc
              exact hfd c (hfeq ▸ List.mem_append_right fpre hc)
            rw [parseNumAt_digits_append hnlne hnl2d (by decide) (by decide) _] at hp
            simp only [Option.some.injEq, Prod.mk.injEq] at hp
            refine ⟨hp.2.symm, ip ++ '.' :: fpre, nl2, ?_, hnlne, rfl, ?_⟩
            · rw [List.append_assoc, List.cons_append, hfeq]
            · intro hpre0
              simp at hpre0
        · -- nl2 = ip-suffix ++ '.' :: f
          have hip2d : ∀ c ∈ ip2, c.isDigit = true := by
            intro c hc
            exact hipd c (hip2.mem hc)
          obtain ⟨ippre, hipeq⟩ := hip2
          rw [List.append_assoc, List.cons_append] at hp
          rw [parseNumAt_dec_append hipne2 hip2d hfne hfd (by decide) _] at hp
          simp only [Option.some.injEq, Prod.mk.injEq] at hp
          refine ⟨hp.2.symm, ippre, ip2 ++ '.' :: f, ?_, ?_, ?_, ?_⟩
          · rw [← List.append_assoc, hipeq]
          · simp
          · rw [List.append_assoc, List.cons_append]
          · intro hpre0
            rw [hpre0, List.nil_append] at hipeq
            rw [← hp.1, show decValOf ip (some f) = decValue ip f from rfl, hipeq]
  · -- starts inside `pre`: leading character is not a digit
    exfalso
    cases hpc : pre2 with
    | nil => exact hpne hpc
    | cons c p2 =>
      rw [hpc, List.cons_append] at hp
      rw [parseNumAt_none_cons (hpre c (hpre2.mem (hpc ▸ List.mem_cons_self c p2)))] at hp
      cases hp

theorem searchSfx_some {m : List Char → Option ℚ} :
    ∀ {s : List Char} {x : ℚ}, searchSfx m s = some x → ∃ t, t <:+ s ∧ m t = some x
  | [], x, h => ⟨[], List.suffix_refl _, by rwa [searchSfx] at h⟩
  | c :: s2, x, h => by
    rw [searchSfx] at h
    cases hm : m (c :: s2) with
    | some v =>
      rw [hm] at h
      exact ⟨c :: s2, List.suffix_refl _, hm.trans h⟩
    | none =>
      rw [hm] at h
      obtain ⟨t, ht, hmt⟩ := searchSfx_some h
      exact ⟨t, ht.trans (List.suffix_cons c s2), hmt⟩

theorem searchSfx_split {m : List Char → Option ℚ} :
    ∀ (a b : List Char), (∀ a2, a2 <:+ a → a2 ≠ [] → m (a2 ++ b) = none) →
      searchSfx m (a ++ b) = searchSfx m b
  | [], _, _ => rfl
  | c :: a2, b, h => by
    have h1 : m (c :: (a2 ++ b)) = none :=
      h (c :: a2) (List.suffix_refl _) (List.cons_ne_nil _ _)
    rw [List.cons_append, searchSfx, h1]
    exact searchSfx_split a2 b
      (fun a3 ha3 hne => h a3 (ha3.trans (List.suffix_cons c a2)) hne)

theorem searchSfx_cons_some {m : List Char → Option ℚ} {c : Char} {s : List Char} {v : ℚ}
    (h : m (c :: s) = some v) : searchSfx m (c :: s) = some v := by
  rw [searchSfx, h]

theorem litPre_self_append (n l : List Char) : litPre n (n ++ l) = true :=
  (litPre_iff n (n ++ l)).mpr (List.prefix_append n l)

theorem kmUnit_km (post : List Char) : kmUnit ('k' :: 'm' :: post) = true := by
  rw [kmUnit]
  have h1 : litPre "km".data ('k' :: 'm' :: post) = true := litPre_self_append "km".data post
  rw [h1]
  rfl

theorem kmUnit_miles (post : List Char) :
    kmUnit ('m' :: 'i' :: 'l' :: 'e' :: 's' :: post) = false := by
  rw [kmUnit, show ("km" : String).data = ['k', 'm'] from rfl,
    show ("kilometer" : String).data = ['k', 'i', 'l', 'o', 'm', 'e', 't', 'e', 'r'] from rfl]
  simp [litPre]

theorem mileUnit_miles (post : List Char) :
    mileUnit ('m' :: 'i' :: 'l' :: 'e' :: 's' :: post) = true := by
  rw [mileUnit]
  exact litPre_self_append "mile".data ('s' :: post)

theorem mileUnit_km (post : List Char) : mileUnit ('k' :: 'm' :: post) = false := by
  rw [mileUnit, show ("mile" : String).data = ['m', 'i', 'l', 'e'] from rfl]
  simp [litPre]

theorem dropWhile_sp {c : Char} (hc : wsChar c = false) (l : List Char) :
    (' ' :: (c :: l)).dropWhile wsChar = c :: l := by
  rw [List.dropWhile_cons, if_pos (by decide : wsChar ' ' = true), List.dropWhile_cons,
    if_neg (by simp [hc])]

theorem distCore_at_numlit {u : List Char → Bool} {unit0 post ip : List Char}
    {fr : Option (List Char)} (hip : digitRunB ip = true)
    (hfr : ∀ f, fr = some f → digitRunB f = true)
    (hu : u ((' ' :: (unit0 ++ post)).dropWhile wsChar) = true) :
    distCore u (numLitChars ip fr ++ (' ' :: (unit0 ++ post))) = some (decValOf ip fr) := by
  obtain ⟨hipne, hipd⟩ := digitRunB_elim hip
  rw [distCore]
  have hparse : parseNumAt (numLitChars ip fr ++ (' ' :: (unit0 ++ post))) =
      some (decValOf ip fr, ' ' :: (unit0 ++ post)) := by
    cases frv : fr with
    | none =>
      have he : numLitChars ip none = ip ++ [] := rfl
      rw [List.append_nil] at he
      rw [he, parseNumAt_digits_append hipne hipd (by decide) (by decide),
        show decValOf ip none = ((digitsToNat ip : ℚ)) from rfl]
    | some f =>
      obtain ⟨hfne, hfd⟩ := digitRunB_elim (hfr f frv)
      have he : numLitChars ip (some f) = ip ++ '.' :: f := rfl
      rw [he, List.append_assoc, List.cons_append,
        parseNumAt_dec_append hipne hipd hfne hfd (by decide),
        show decValOf ip (some f) = decValue ip f from rfl]
  rw [hparse]
  show (if u ((' ' :: (unit0 ++ post)).dropWhile wsChar) = true
    then some (decValOf ip fr) else none) = some (decValOf ip fr)
  rw [if_pos hu]

theorem distCore_suffix_none {u : List Char → Bool} {pre post unit0 ip : List Char}
    {fr : Option (List Char)} (hip : digitRunB ip = true)
    (hfr : ∀ f, fr = some f → digitRunB f = true)
    (hpre : ∀ c ∈ pre, c.isDigit = false) (hpost : ∀ c ∈ post, c.isDigit = false)
    (hu0 : ∀ c ∈ unit0, c.isDigit = false)
    (hufail : u ((' ' :: (unit0 ++ post)).dropWhile wsChar) = false) :
    ∀ t, t <:+ pre ++ (numLitChars ip fr ++ (' ' :: (unit0 ++ post))) →
      distCore u t = none := by
  intro t ht
  rw [distCore]
  cases hp : parseNumAt t with
  | none => rfl
  | some p =>
    obtain ⟨x, r⟩ := p
    obtain ⟨hr, -⟩ := parse_at_suffix hip hfr hpre hpost hu0 ht hp
    show (if u (r.dropWhile wsChar) = true then some x else none) = none
    rw [hr, if_neg (by simp [hufail])]

theorem distCore_pre_none {u : List Char → Bool} {b : List Char} :
    ∀ (a2 : List Char), a2 ≠ [] → (∀ c ∈ a2, c.isDigit = false) →
      distCore u (a2 ++ b) = none
  | [], hne, _ => absurd rfl hne
  | c :: t2, _, hd => by
    rw [List.cons_append, distCore,
      parseNumAt_none_cons (hd c (List.mem_cons_self _ _))]

theorem within_match_value {u : List Char → Bool} {pre post unit0 ip : List Char}
    {fr : Option (List Char)} (hip : digitRunB ip = true)
    (hfr : ∀ f, fr = some f → digitRunB f = true)
    (hpre : ∀ c ∈ pre, c.isDigit = false) (hpost : ∀ c ∈ post, c.isDigit = false)
    (hu0 : ∀ c ∈ unit0, c.isDigit = false)
    {t : List Char} (ht : t <:+ pre ++ (numLitChars ip fr ++ (' ' :: (unit0 ++ post))))
    {x : ℚ} (hm : distMatchAt true u t = some x) : x = decValOf ip fr := by
  rw [distMatchAt, if_pos rfl] at hm
  cases hdl : dropLit "within ".data t with
  | none =>
    rw [hdl] at hm
    cases hm
  | some r =>
    rw [hdl] at hm
    have hlit : litPre "within ".data t = true := by
      rw [dropLit] at hdl
      by_cases hl : litPre "within ".data t = true
      · exact hl
      · rw [if_neg hl] at hdl
        cases hdl
    have hr7 : r = t.drop 7 := by
      rw [dropLit, if_pos hlit] at hdl
      simp only [Option.some.injEq] at hdl
      exact hdl.symm
    obtain ⟨w2, hw2⟩ := (litPre_iff _ _).mp hlit
    have hw3 : t.drop 7 = w2 := by
      rw [← hw2]
      exact List.drop_left' (by rfl)
    have hteq : t = "within ".data ++ r := by
      rw [hr7, hw3]
      exact hw2.symm
    have hmc : distCore u r = some x := hm
    rw [distCore] at hmc
    cases hpn : parseNumAt r with
    | none =>
      rw [hpn] at hmc
      cases hmc
    | some p =>
      obtain ⟨x2, r2⟩ := p
      rw [hpn] at hmc
      have hx2 : x2 = x := by
        have hm2 : (if u (r2.dropWhile wsChar) = true then some x2 else none) = some x := hmc
        split at hm2
        · simpa using hm2
        · cases hm2
      have hrQ : r <:+ pre ++ (numLitChars ip fr ++ (' ' :: (unit0 ++ post))) := by
        rw [hr7]
        exact (List.drop_suffix 7 t).trans ht
      obtain ⟨-, nlpre, nl2, hnl, hne, hreq, himpl⟩ :=
        parse_at_suffix hip hfr hpre hpost hu0 hrQ hpn
      by_cases hnp : nlpre = []
      · rw [← hx2]
        exact himpl hnp
      · exfalso
        obtain ⟨s, hs⟩ := ht
        rw [hteq, hreq, hnl] at hs
        have hs2 : (s ++ "within ".data) ++ (nl2 ++ (' ' :: (unit0 ++ post))) =
            (pre ++ nlpre) ++ (nl2 ++ (' ' :: (unit0 ++ post))) := by
          simpa [List.append_assoc] using hs
        have hs3 := List.append_cancel_right hs2
        have hrev := congrArg List.reverse hs3
        rw [List.reverse_append, List.reverse_append] at hrev
        cases hnr : nlpre.reverse with
        | nil =>
          exact hnp (by simpa using congrArg List.reverse hnr)
        | cons rc rt =>
          rw [hnr, show ("within ".data).reverse =
            ' ' :: ['n', 'i', 'h', 't', 'i', 'w'] from rfl] at hrev
          have hhead := congrArg List.head? hrev
          simp only [List.cons_append, List.head?_cons] at hhead
          have hrc : rc = ' ' := by
            injection hhead with h1
            exact h1.symm
          have hrcmem : rc ∈ nlpre := by
            rw [← List.mem_reverse, hnr]
            exact List.mem_cons_self _ _
          have := numLit_chars hip hfr rc (hnl ▸ List.mem_append_left nl2 hrcmem)
          rw [hrc] at this
          rcases this with h | h
          · exact absurd h (by decide)
          · exact absurd h (by decide)

theorem distMatchAt_false (u : List Char → Bool) (s : List Char) :
    distMatchAt false u s = distCore u s := by
  rw [distMatchAt, if_neg (by simp)]

theorem searchSfx_head_some {m : List Char → Option ℚ} {s : List Char} {v : ℚ}
    (hne : s ≠ []) (h : m s = some v) : searchSfx m s = some v := by
  cases s with
  | nil => exact absurd rfl hne
  | cons c t => exact searchSfx_cons_some h

theorem extract_distance_miles (pre post ip : List Char) (fr : Option (List Char))
    (hip : digitRunB ip = true) (hfr : ∀ f, fr = some f → digitRunB f = true)
    (hpre : ∀ c ∈ pre, c.isDigit = false) (hpost : ∀ c ∈ post, c.isDigit = false) :
    extract_distance (String.mk (pre ++ (numLitChars ip fr ++
        (' ' :: ("miles".data ++ post))))) =
      decValOf ip fr * (160934 / 100000 : ℚ) := by
  have hu0 : ∀ c ∈ ("miles" : String).data, c.isDigit = false := by decide
  have hdw : ((' ' :: (("miles" : String).data ++ post)).dropWhile wsChar) =
      'm' :: 'i' :: 'l' :: 'e' :: 's' :: post :=
    dropWhile_sp (by decide) ('i' :: 'l' :: 'e' :: 's' :: post)
  have humile : mileUnit ((' ' :: (("miles" : String).data ++ post)).dropWhile wsChar) =
      true := by
    rw [hdw]
    exact mileUnit_miles post
  have hukm : kmUnit ((' ' :: (("miles" : String).data ++ post)).dropWhile wsChar) =
      false := by
    rw [hdw]
    exact kmUnit_miles post
  have h1 : searchSfx (distMatchAt true kmUnit)
      (pre ++ (numLitChars ip fr ++ (' ' :: ("miles".data ++ post)))) = none := by
    refine searchSfx_none _ _ (fun t ht => ?_)
    rw [distMatchAt, if_pos rfl]
    cases hdl : dropLit "within ".data t with
    | none => rfl
    | some r =>
      have hr : r = t.drop 7 := by
        rw [dropLit] at hdl
        split at hdl
        · simp only [Option.some.injEq] at hdl
          exact hdl.symm
        · cases hdl
      have hrQ : r <:+ pre ++ (numLitChars ip fr ++ (' ' :: ("miles".data ++ post))) := by
        rw [hr]
        exact (List.drop_suffix 7 t).trans ht
      exact distCore_suffix_none hip hfr hpre hpost hu0 hukm r hrQ
  have h2 : searchSfx (distMatchAt false kmUnit)
      (pre ++ (numLitChars ip fr ++ (' ' :: ("miles".data ++ post)))) = none := by
    refine searchSfx_none _ _ (fun t ht => ?_)
    rw [distMatchAt_false]
    exact distCore_suffix_none hip hfr hpre hpost hu0 hukm t ht
  have h4 : searchSfx (distMatchAt false mileUnit)
      (pre ++ (numLitChars ip fr ++ (' ' :: ("miles".data ++ post)))) =
      some (decValOf ip fr) := by
    rw [searchSfx_split pre _ (fun a2 ha2 hne => ?_)]
    · refine searchSfx_head_some ?_ ?_
      · cases hnl : numLitChars ip fr <;> simp
      · rw [distMatchAt_false]
        exact distCore_at_numlit hip hfr humile
    · rw [distMatchAt_false]
      exact distCore_pre_none a2 hne (fun c hc => hpre c (ha2.mem hc))
  cases hs3 : searchSfx (distMatchAt true mileUnit)
      (pre ++ (numLitChars ip fr ++ (' ' :: ("miles".data ++ post)))) with
  | some x =>
    obtain ⟨t, ht, hmt⟩ := searchSfx_some hs3
    have hx := within_match_value hip hfr hpre hpost hu0 ht hmt
    rw [extract_distance, data_mk, h1, h2, hs3, hx]
  | none =>
    rw [extract_distance, data_mk, h1, h2, hs3, h4]

theorem extract_distance_km (pre post ip : List Char) (fr : Option (List Char))
    (hip : digitRunB ip = true) (hfr : ∀ f, fr = some f → digitRunB f = true)
    (hpre : ∀ c ∈ pre, c.isDigit = false) (hpost : ∀ c ∈ post, c.isDigit = false) :
    extract_distance (String.mk (pre ++ (numLitChars ip fr ++
        (' ' :: ("km".data ++ post))))) = decValOf ip fr := by
  have hu0 : ∀ c ∈ ("km" : String).data, c.isDigit = false := by decide
  have hdw : ((' ' :: (("km" : String).data ++ post)).dropWhile wsChar) =
      'k' :: 'm' :: post :=
    dropWhile_sp (by decide) ('m' :: post)
  have hukm : kmUnit ((' ' :: (("km" : String).data ++ post)).dropWhile wsChar) =
      true := by
    rw [hdw]
    exact kmUnit_km post
  have h2 : searchSfx (distMatchAt false kmUnit)
      (pre ++ (numLitChars ip fr ++ (' ' :: ("km".data ++ post)))) =
      some (decValOf ip fr) := by
    rw [searchSfx_split pre _ (fun a2 ha2 hne => ?_)]
    · refine searchSfx_head_some ?_ ?_
      · cases hnl : numLitChars ip fr <;> simp
      · rw [distMatchAt_false]
        exact distCore_at_numlit hip hfr hukm
    · rw [distMatchAt_false]
      exact distCore_pre_none a2 hne (fun c hc => hpre c (ha2.mem hc))
  cases hs1 : searchSfx (distMatchAt true kmUnit)
      (pre ++ (numLitChars ip fr ++ (' ' :: ("km".data ++ post)))) with
  | some x =>
    obtain ⟨t, ht, hmt⟩ := searchSfx_some hs1
    have hx := within_match_value hip hfr hpre hpost hu0 ht hmt
    rw [extract_distance, data_mk, hs1, hx]
  | none =>
    rw [extract_distance, data_mk, hs1, h2]

theorem findSome_matchesFrom_append (w n u : SToken) (dpost : List SToken)
    (hw : SToken.likeNum w = false) (F : String × Nat × Nat → Option ℚ)
    (hF : ∀ p : String × Nat × Nat, pyStartsWith p.1 "DISTANCE" = false → F p = none) :
    ∀ (ds : List SToken) (i : Nat), (∀ t ∈ ds, SToken.likeNum t = false) →
      List.findSome? F (matchesFrom (ds ++ w :: n :: u :: dpost) i) =
      List.findSome? F (matchesFrom (w :: n :: u :: dpost) (i + ds.length))
  | [], i, _ => by simp
  | t0 :: ds2, i, hds => by
    rw [List.cons_append, matchesFrom, List.findSome?_append]
    have htail : patMatch [⟨TokPred.likeNum, Quant.one⟩,
        ⟨TokPred.lowerIn ["miles", "mile", "mi", "km", "kilometers", "kilometer"],
          Quant.one⟩] (ds2 ++ w :: n :: u :: dpost) = none := by
      cases ds2 with
      | nil => simp [patMatch, TokPred.eval, hw]
      | cons t1 ds3 =>
        simp [patMatch, TokPred.eval, hds t1 (by simp)]
    have hblock : List.findSome? F (matcherPatterns.filterMap fun lp =>
        (patMatch lp.2 (t0 :: (ds2 ++ w :: n :: u :: dpost))).map
          fun len => (lp.1, i, i + len)) = none := by
      rw [List.findSome?_eq_none_iff]
      intro x hx
      obtain ⟨lp, hlp, hmap⟩ := List.mem_filterMap.mp hx
      cases hpm : patMatch lp.2 (t0 :: (ds2 ++ w :: n :: u :: dpost)) with
      | none =>
        rw [hpm] at hmap
        cases hmap
      | some len =>
        rw [hpm] at hmap
        simp only [Option.map_some', Option.some.injEq] at hmap
        subst hmap
        fin_cases hlp
        · exact hF _ (show pyStartsWith "NUMERIC_COMPARISON_0" "DISTANCE" = false by decide)
        · exact hF _ (show pyStartsWith "NUMERIC_COMPARISON_1" "DISTANCE" = false by decide)
        · exact hF _ (show pyStartsWith "NUMERIC_COMPARISON_2" "DISTANCE" = false by decide)
        · exact hF _ (show pyStartsWith "NUMERIC_COMPARISON_3" "DISTANCE" = false by decide)
        · exact hF _ (show pyStartsWith "NUMERIC_COMPARISON_4" "DISTANCE" = false by decide)
        · -- DISTANCE_0 cannot match here
          exfalso
          rw [patMatch] at hpm
          dsimp only at hpm
          by_cases ht0 : (TokPred.lowerIn ["within", "in", "inside"]).eval t0 = true
          · rw [if_pos ht0, htail] at hpm
            cases hpm
          · rw [if_neg ht0] at hpm
            cases hpm
        · -- DISTANCE_1 cannot match here
          exfalso
          rw [patMatch] at hpm
          dsimp only at hpm
          rw [if_neg (by simp [TokPred.eval, hds t0 (by simp)])] at hpm
          cases hpm
        · exact hF _ (show pyStartsWith "STATUS_0" "DISTANCE" = false by decide)
        · exact hF _ (show pyStartsWith "STATUS_1" "DISTANCE" = false by decide)
    rw [hblock]
    rw [Option.none_or]
    rw [findSome_matchesFrom_append w n u dpost hw F hF ds2 (i + 1)
      (fun t ht => hds t (List.mem_cons_of_mem _ ht))]
    have heq : (i + 1) + ds2.length = i + (t0 :: ds2).length := by
      simp [List.length_cons]
      omega
    rw [heq]

theorem extract_distance_spacy_at (dpre dpost : List SToken) (w n u : SToken) (v : ℚ)
    (hdpre : ∀ t ∈ dpre, SToken.likeNum t = false)
    (hw : SToken.likeNum w = false)
    (hwl : (["within", "in", "inside"] : List String).contains (SToken.lower w) = true)
    (hn : SToken.likeNum n = true)
    (hv : parseFloatQ (SToken.text n) = some v)
    (hnu : ((["miles", "mile", "mi"] : List String).contains (SToken.lower n) ||
      (["km", "kilometers", "kilometer"] : List String).contains (SToken.lower n)) = false)
    (huor : ((["miles", "mile", "mi"] : List String).contains (SToken.lower u) ||
      (["km", "kilometers", "kilometer"] : List String).contains (SToken.lower u)) = true) :
    extract_distance_spacy (dpre ++ w :: n :: u :: dpost) =
      (if (["miles", "mile", "mi"] : List String).contains (SToken.lower u) = true
       then some (v * (160934 / 100000 : ℚ)) else some v) := by
  have hw3 : SToken.lower w = "within" ∨ SToken.lower w = "in" ∨
      SToken.lower w = "inside" := by simpa using hwl
  have hu6 : (SToken.lower u = "miles" ∨ SToken.lower u = "mile" ∨
      SToken.lower u = "mi") ∨ SToken.lower u = "km" ∨
      SToken.lower u = "kilometers" ∨ SToken.lower u = "kilometer" := by
    simpa using huor
  have huu : (["miles", "mile", "mi", "km", "kilometers", "kilometer"] :
      List String).contains (SToken.lower u) = true := by
    rcases hu6 with (h | h | h) | h | h | h <;> rw [h] <;> decide
  have h0 : extract_distance_spacy (dpre ++ w :: n :: u :: dpost) =
      List.findSome? (fun m : String × Nat × Nat =>
        if pyStartsWith m.1 "DISTANCE" = true then
          (((dpre ++ w :: n :: u :: dpost).drop m.2.1).take
              (m.2.2 - m.2.1)).findSome? fun t =>
            if SToken.likeNum t = true then
              match parseFloatQ (SToken.text t) with
              | some v2 =>
                match (((dpre ++ w :: n :: u :: dpost).drop m.2.1).take
                    (m.2.2 - m.2.1)).find? (fun u2 =>
                    (["miles", "mile", "mi"] : List String).contains (SToken.lower u2) ||
                    (["km", "kilometers", "kilometer"] : List String).contains
                      (SToken.lower u2)) with
                | some u2 =>
                  if (["miles", "mile", "mi"] : List String).contains
                      (SToken.lower u2) = true then
                    some (v2 * (160934 / 100000 : ℚ))
                  else some v2
                | none => some v2
              | none => none
            else none
        else none)
        (matchesFrom (dpre ++ w :: n :: u :: dpost) 0) := rfl
  rw [h0]
  rw [findSome_matchesFrom_append w n u dpost hw _
    (fun p hp => by simp [hp]) dpre 0 hdpre]
  rw [Nat.zero_add]
  have hevw : TokPred.eval (TokPred.lowerIn ["within", "in", "inside"]) w = true := by
    rw [TokPred.eval]
    exact hwl
  have hN0 : patMatch
      [⟨TokPred.lowerIn ["more", "greater", "above", "over"], Quant.one⟩,
       ⟨TokPred.lowerIs "than", Quant.opt⟩, ⟨TokPred.likeNum, Quant.plus⟩]
      (w :: n :: u :: dpost) = none := by
    have hev : TokPred.eval (TokPred.lowerIn ["more", "greater", "above", "over"]) w =
        false := by
      rw [TokPred.eval]
      rcases hw3 with h | h | h <;> rw [h] <;> decide
    rw [patMatch]
    dsimp only
    rw [if_neg (by simp [hev])]
  have hN1 : patMatch
      [⟨TokPred.lowerIn ["less", "fewer", "under", "below"], Quant.one⟩,
       ⟨TokPred.lowerIs "than", Quant.opt⟩, ⟨TokPred.likeNum, Quant.plus⟩]
      (w :: n :: u :: dpost) = none := by
    have hev : TokPred.eval (TokPred.lowerIn ["less", "fewer", "under", "below"]) w =
        false := by
      rw [TokPred.eval]
      rcases hw3 with h | h | h <;> rw [h] <;> decide
    rw [patMatch]
    dsimp only
    rw [if_neg (by simp [hev])]
  have hN2 : patMatch
      [⟨TokPred.lowerIn ["at", "minimum", "min"], Quant.one⟩,
       ⟨TokPred.lowerIn ["least", "of"], Quant.opt⟩, ⟨TokPred.likeNum, Quant.plus⟩]
      (w :: n :: u :: dpost) = none := by
    have hev : TokPred.eval (TokPred.lowerIn ["at", "minimum", "min"]) w = false := by
      rw [TokPred.eval]
      rcases hw3 with h | h | h <;> rw [h] <;> decide
    rw [patMatch]
    dsimp only
    rw [if_neg (by simp [hev])]
  have hN3 : patMatch
      [⟨TokPred.lowerIn ["exactly", "equal"], Quant.one⟩,
       ⟨TokPred.lowerIs "to", Quant.opt⟩, ⟨TokPred.likeNum, Quant.plus⟩]
      (w :: n :: u :: dpost) = none := by
    have hev : TokPred.eval (TokPred.lowerIn ["exactly", "equal"]) w = false := by
      rw [TokPred.eval]
      rcases hw3 with h | h | h <;> rw [h] <;> decide
    rw [patMatch]
    dsimp only
    rw [if_neg (by simp [hev])]
  have htr : takeRun TokPred.likeNum (w :: n :: u :: dpost) = 0 := by
    rw [takeRun]
    rw [if_neg (by simp [TokPred.eval, hw])]
  have hN4 : patMatch
      [⟨TokPred.likeNum, Quant.plus⟩, ⟨TokPred.lowerIn ["or", "+"], Quant.one⟩,
       ⟨TokPred.lowerIs "more", Quant.opt⟩] (w :: n :: u :: dpost) = none := by
    rw [patMatch]
    dsimp only
    rw [htr]
    simp
  have hD0 : patMatch
      [⟨TokPred.lowerIn ["within", "in", "inside"], Quant.one⟩,
       ⟨TokPred.likeNum, Quant.one⟩,
       ⟨TokPred.lowerIn ["miles", "mile", "mi", "km", "kilometers", "kilometer"],
         Quant.one⟩] (w :: n :: u :: dpost) = some 3 := by
    rw [patMatch]
    dsimp only
    rw [if_pos (by simp [hevw])]
    rw [patMatch]
    dsimp only
    rw [if_pos (by simp [TokPred.eval, hn])]
    rw [patMatch]
    dsimp only
    rw [if_pos (by rw [TokPred.eval]; exact huu)]
    rw [patMatch]
    simp
  have hD1 : patMatch
      [⟨TokPred.likeNum, Quant.one⟩,
       ⟨TokPred.lowerIn ["miles", "mile", "mi", "km", "kilometers", "kilometer"],
         Quant.one⟩,
       ⟨TokPred.lowerIn ["away", "radius", "around", "from"], Quant.one⟩]
      (w :: n :: u :: dpost) = none := by
    rw [patMatch]
    dsimp only
    rw [if_neg (by simp [TokPred.eval, hw])]
  have hS0 : patMatch
      [⟨TokPred.lowerIn ["currently", "actively", "presently"], Quant.one⟩,
       ⟨TokPred.lowerIn ["available", "operational", "working", "active"], Quant.one⟩]
      (w :: n :: u :: dpost) = none := by
    have hev : TokPred.eval (TokPred.lowerIn ["currently", "actively", "presently"]) w =
        false := by
      rw [TokPred.eval]
      rcases hw3 with h | h | h <;> rw [h] <;> decide
    rw [patMatch]
    dsimp only
    rw [if_neg (by simp [hev])]
  have hS1 : patMatch
      [⟨TokPred.lowerIn ["out", "not"], Quant.one⟩,
       ⟨TokPred.lowerIn ["of", "working", "available"], Quant.one⟩,
       ⟨TokPred.lowerIn ["order", "service"], Quant.opt⟩]
      (w :: n :: u :: dpost) = none := by
    have hev : TokPred.eval (TokPred.lowerIn ["out", "not"]) w = false := by
      rw [TokPred.eval]
      rcases hw3 with h | h | h <;> rw [h] <;> decide
    rw [patMatch]
    dsimp only
    rw [if_neg (by simp [hev])]
  rw [matchesFrom, List.findSome?_append]
  rw [show (matcherPatterns.filterMap fun lp =>
      (patMatch lp.2 (w :: n :: u :: dpost)).map
        fun len => (lp.1, dpre.length, dpre.length + len)) =
      [("DISTANCE_0", dpre.length, dpre.length + 3)] from by
    simp only [matcherPatterns, List.filterMap_cons, hN0, hN1, hN2, hN3, hN4, hD0,
      hD1, hS0, hS1, Option.map_some', Option.map_none', List.filterMap_nil]]
  rw [List.findSome?_cons]
  have hspan : ((dpre ++ w :: n :: u :: dpost).drop dpre.length).take
      (dpre.length + 3 - dpre.length) = [w, n, u] := by
    rw [List.drop_left, Nat.add_sub_cancel_left]
    rfl
  have hFval : (if pyStartsWith "DISTANCE_0" "DISTANCE" = true then
      (((dpre ++ w :: n :: u :: dpost).drop dpre.length).take
          (dpre.length + 3 - dpre.length)).findSome? fun t =>
        if SToken.likeNum t = true then
          match parseFloatQ (SToken.text t) with
          | some v2 =>
            match (((dpre ++ w :: n :: u :: dpost).drop dpre.length).take
                (dpre.length + 3 - dpre.length)).find? (fun u2 =>
                (["miles", "mile", "mi"] : List String).contains (SToken.lower u2) ||
                (["km", "kilometers", "kilometer"] : List String).contains
                  (SToken.lower u2)) with
            | some u2 =>
              if (["miles", "mile", "mi"] : List String).contains
                  (SToken.lower u2) = true then
                some (v2 * (160934 / 100000 : ℚ))
              else some v2
            | none => some v2
          | none => none
        else none
      else none) =
      (if (["miles", "mile", "mi"] : List String).contains (SToken.lower u) = true
       then some (v * (160934 / 100000 : ℚ)) else some v) := by
    rw [if_pos (by decide)]
    rw [hspan]
    rw [List.findSome?_cons]
    rw [show (if SToken.likeNum w = true then
        match parseFloatQ (SToken.text w) with
        | some v2 =>
          match [w, n, u].find? (fun u2 =>
              (["miles", "mile", "mi"] : List String).contains (SToken.lower u2) ||
              (["km", "kilometers", "kilometer"] : List String).contains
                (SToken.lower u2)) with
          | some u2 =>
            if (["miles", "mile", "mi"] : List String).contains
                (SToken.lower u2) = true then
              some (v2 * (160934 / 100000 : ℚ))
            else some v2
          | none => some v2
        | none => none
      else none) = none from by rw [if_neg (by simp [hw])]]
    rw [List.findSome?_cons]
    have hfind : [w, n, u].find? (fun u2 =>
        (["miles", "mile", "mi"] : List String).contains (SToken.lower u2) ||
        (["km", "kilometers", "kilometer"] : List String).contains (SToken.lower u2)) =
        some u := by
      rw [List.find?_cons_of_neg _ (by rcases hw3 with h | h | h <;> simp [h]),
        List.find?_cons_of_neg _ (by simpa using hnu),
        List.find?_cons_of_pos _ (by simpa using huor)]
    rw [show (if SToken.likeNum n = true then
        match parseFloatQ (SToken.text n) with
        | some v2 =>
          match [w, n, u].find? (fun u2 =>
              (["miles", "mile", "mi"] : List String).contains (SToken.lower u2) ||
              (["km", "kilometers", "kilometer"] : List String).contains
                (SToken.lower u2)) with
          | some u2 =>
            if (["miles", "mile", "mi"] : List String).contains
                (SToken.lower u2) = true then
              some (v2 * (160934 / 100000 : ℚ))
            else some v2
          | none => some v2
        | none => none
      else none) =
      (if (["miles", "mile", "mi"] : List String).contains (SToken.lower u) = true
       then some (v * (160934 / 100000 : ℚ)) else some v) from by
      rw [if_pos hn, hv, hfind]]
    cases hif2 : (["miles", "mile", "mi"] : List String).contains (SToken.lower u) <;>
      simp [hif2]
  rw [hFval]
  cases hif : (["miles", "mile", "mi"] : List String).contains (SToken.lower u) with
  | false => rfl
  | true => rfl

/-- Claim C6: for queries containing a distance phrase with an explicit
unit, both distance extractors return the literal number of kilometres
when the unit is kilometres, and the number multiplied by the code's
conversion constant 1.60934 when the unit is miles.  The router's regex
scanner is characterised on any query of the form
`prefix number unit suffix` whose prefix and suffix are digit-free; the
spaCy extractor on any token list containing a `within/in/inside`,
number, unit triple with no earlier number-like token. -/
theorem C6_distance_units :
    (∀ (pre post ip : List Char) (fr : Option (List Char)),
      digitRunB ip = true → (∀ f, fr = some f → digitRunB f = true) →
      (∀ c ∈ pre, c.isDigit = false) → (∀ c ∈ post, c.isDigit = false) →
      extract_distance (String.mk (pre ++ (numLitChars ip fr ++
        (' ' :: ("miles".data ++ post))))) =
        decValOf ip fr * (160934 / 100000 : ℚ)) ∧
    (∀ (pre post ip : List Char) (fr : Option (List Char)),
      digitRunB ip = true → (∀ f, fr = some f → digitRunB f = true) →
      (∀ c ∈ pre, c.isDigit = false) → (∀ c ∈ post, c.isDigit = false) →
      extract_distance (String.mk (pre ++ (numLitChars ip fr ++
        (' ' :: ("km".data ++ post))))) = decValOf ip fr) ∧
    (∀ (dpre dpost : List SToken) (w n u : SToken) (v : ℚ),
      (∀ t ∈ dpre, SToken.likeNum t = false) → SToken.likeNum w = false →
      (["within", "in", "inside"] : List String).contains (SToken.lower w) = true →
      SToken.likeNum n = true → parseFloatQ (SToken.text n) = some v →
      ((["miles", "mile", "mi"] : List String).contains (SToken.lower n) ||
        (["km", "kilometers", "kilometer"] : List String).contains
          (SToken.lower n)) = false →
      (["miles", "mile", "mi"] : List String).contains (SToken.lower u) = true →
      extract_distance_spacy (dpre ++ w :: n :: u :: dpost) =
        some (v * (160934 / 100000 : ℚ))) ∧
    (∀ (dpre dpost : List SToken) (w n u : SToken) (v : ℚ),
      (∀ t ∈ dpre, SToken.likeNum t = false) → SToken.likeNum w = false →
      (["within", "in", "inside"] : List String).contains (SToken.lower w) = true →
      SToken.likeNum n = true → parseFloatQ (SToken.text n) = some v →
      ((["miles", "mile", "mi"] : List String).contains (SToken.lower n) ||
        (["km", "kilometers", "kilometer"] : List String).contains
          (SToken.lower n)) = false →
      (["km", "kilometers", "kilometer"] : List String).contains
        (SToken.lower u) = true →
      extract_distance_spacy (dpre ++ w :: n :: u :: dpost) = some v) := by
  refine ⟨extract_distance_miles, extract_distance_km, ?_, ?_⟩
  · intro dpre dpost w n u v h1 h2 h3 h4 h5 h6 hum
    rw [extract_distance_spacy_at dpre dpost w n u v h1 h2 h3 h4 h5 h6
      (by simp only [Bool.or_eq_true, hum, true_or])]
    rw [if_pos hum]
  · intro dpre dpost w n u v h1 h2 h3 h4 h5 h6 huk
    have hmf : (["miles", "mile", "mi"] : List String).contains (SToken.lower u) =
        false := by
      have h7 : SToken.lower u = "km" ∨ SToken.lower u = "kilometers" ∨
          SToken.lower u = "kilometer" := by simpa using huk
      rcases h7 with h | h | h <;> rw [h] <;> decide
    rw [extract_distance_spacy_at dpre dpost w n u v h1 h2 h3 h4 h5 h6
      (by simp only [Bool.or_eq_true, huk, or_true])]
    rw [if_neg (by simpa using hmf)]

/-- Witness for `C6_distance_units`: concrete miles and km queries for
both extractors, with every hypothesis discharged by computation. -/
theorem C6_distance_units_witness :
    extract_distance (String.mk ("near sacramento".data ++ (numLitChars ['3'] none ++
        (' ' :: ("miles".data ++ [])))))
      = decValOf ['3'] none * (160934 / 100000 : ℚ) ∧
    extract_distance (String.mk ("near sacramento".data ++ (numLitChars ['2'] none ++
        (' ' :: ("km".data ++ [])))))
      = decValOf ['2'] none ∧
    extract_distance_spacy ([] ++ ⟨"within", false, "ADP"⟩ :: ⟨"5", true, "NUM"⟩ ::
        ⟨"miles", false, "NOUN"⟩ :: []) = some ((5 : ℚ) * (160934 / 100000 : ℚ)) ∧
    extract_distance_spacy ([] ++ ⟨"within", false, "ADP"⟩ :: ⟨"5", true, "NUM"⟩ ::
        ⟨"km", false, "NOUN"⟩ :: []) = some (5 : ℚ) :=
  ⟨C6_distance_units.1 "near sacramento".data [] ['3'] none (by decide)
      (fun f hf => nomatch hf) (by decide) (by decide),
   C6_distance_units.2.1 "near sacramento".data [] ['2'] none (by decide)
      (fun f hf => nomatch hf) (by decide) (by decide),
   C6_distance_units.2.2.1 [] [] ⟨"within", false, "ADP"⟩ ⟨"5", true, "NUM"⟩
      ⟨"miles", false, "NOUN"⟩ 5 (by decide) (by decide) (by decide) (by decide) rfl
      (by decide) (by decide),
   C6_distance_units.2.2.2 [] [] ⟨"within", false, "ADP"⟩ ⟨"5", true, "NUM"⟩
      ⟨"km", false, "NOUN"⟩ 5 (by decide) (by decide) (by decide) (by decide) rfl
      (by decide) (by decide)⟩
